import Mathlib

/-!
# fury3d: shadow-map geometry (MathUtil.cpp, Pipeline.cpp)

A shallow embedding of the CPU-side geometry of the engine: the rotation
conversions and the cone predicate of `MathUtil`, and the caster filter, the
crop-matrix fit and the cascade partition of `Pipeline`.

Numbers are elements of an ordered field `K` (the reals for the statements
that need trigonometry, the rationals for concrete evaluation); the C math
library enters through the class `CMath`.
-/

namespace fury

/-! ## Data model -/

/-- Four floats `x, y, z, w` (Vector4 of the engine). -/
structure Vector4 (K : Type) where
  x : K
  y : K
  z : K
  w : K
deriving DecidableEq, Repr

/-- Four floats `x, y, z, w` (Quaternion of the engine). -/
structure Quaternion (K : Type) where
  x : K
  y : K
  z : K
  w : K
deriving DecidableEq, Repr

/-- The part of a camera component read by the cascade partition:
`GetNear()` and `GetFar()`. -/
structure Camera (K : Type) where
  GetNear : K
  GetFar : K
deriving DecidableEq, Repr

/-- Sixteen floats `Raw[0] .. Raw[15]` in column-major order (Matrix4 of the
engine): `Raw[4 * c + r]` is the entry of row `r` and column `c`. -/
structure Matrix4 (K : Type) where
  r0 : K
  r1 : K
  r2 : K
  r3 : K
  r4 : K
  r5 : K
  r6 : K
  r7 : K
  r8 : K
  r9 : K
  r10 : K
  r11 : K
  r12 : K
  r13 : K
  r14 : K
  r15 : K
deriving DecidableEq, Repr

/-- Axis-aligned box given by its min and max corners (BoxBounds of the
engine). -/
structure BoxBounds (K : Type) where
  Min : Vector4 K
  Max : Vector4 K
deriving DecidableEq, Repr

/-- A frustum, as far as the crop fit reads it: its eight current corners. -/
structure Frustum (K : Type) where
  c0 : Vector4 K
  c1 : Vector4 K
  c2 : Vector4 K
  c3 : Vector4 K
  c4 : Vector4 K
  c5 : Vector4 K
  c6 : Vector4 K
  c7 : Vector4 K
deriving DecidableEq, Repr

/-- A scene node, as far as the shadow pass reads it: its world AABB. -/
structure SceneNode (K : Type) where
  GetWorldAABB : BoxBounds K
deriving DecidableEq, Repr

/-- The capability `Collidable`: the fast inside test against a box. -/
structure Collidable (K : Type) where
  IsInsideFast : BoxBounds K → Bool

section Linear

variable {K : Type} [LinearOrderedField K]

/-- Modelled from the spec: `Matrix4::Multiply(Vector4)`, whose body is in
Matrix4.cpp; the matrix is "4x4 column-major", so the product with a
column vector reads the rows out of `Raw` with stride four. -/
def Matrix4.Multiply (m : Matrix4 K) (v : Vector4 K) : Vector4 K :=
  { x := m.r0 * v.x + m.r4 * v.y + m.r8 * v.z + m.r12 * v.w
    y := m.r1 * v.x + m.r5 * v.y + m.r9 * v.z + m.r13 * v.w
    z := m.r2 * v.x + m.r6 * v.y + m.r10 * v.z + m.r14 * v.w
    w := m.r3 * v.x + m.r7 * v.y + m.r11 * v.z + m.r15 * v.w }

/-- Modelled from the spec: `Matrix4::operator*`, whose body is in Matrix4.cpp; "composable by multiplication", the right factor acting first
(`projMatrix * lightMatrix` takes world space through the light view and then
through the projection). -/
def Matrix4.mul (a b : Matrix4 K) : Matrix4 K :=
  { r0 := a.r0 * b.r0 + a.r4 * b.r1 + a.r8 * b.r2 + a.r12 * b.r3
    r1 := a.r1 * b.r0 + a.r5 * b.r1 + a.r9 * b.r2 + a.r13 * b.r3
    r2 := a.r2 * b.r0 + a.r6 * b.r1 + a.r10 * b.r2 + a.r14 * b.r3
    r3 := a.r3 * b.r0 + a.r7 * b.r1 + a.r11 * b.r2 + a.r15 * b.r3
    r4 := a.r0 * b.r4 + a.r4 * b.r5 + a.r8 * b.r6 + a.r12 * b.r7
    r5 := a.r1 * b.r4 + a.r5 * b.r5 + a.r9 * b.r6 + a.r13 * b.r7
    r6 := a.r2 * b.r4 + a.r6 * b.r5 + a.r10 * b.r6 + a.r14 * b.r7
    r7 := a.r3 * b.r4 + a.r7 * b.r5 + a.r11 * b.r6 + a.r15 * b.r7
    r8 := a.r0 * b.r8 + a.r4 * b.r9 + a.r8 * b.r10 + a.r12 * b.r11
    r9 := a.r1 * b.r8 + a.r5 * b.r9 + a.r9 * b.r10 + a.r13 * b.r11
    r10 := a.r2 * b.r8 + a.r6 * b.r9 + a.r10 * b.r10 + a.r14 * b.r11
    r11 := a.r3 * b.r8 + a.r7 * b.r9 + a.r11 * b.r10 + a.r15 * b.r11
    r12 := a.r0 * b.r12 + a.r4 * b.r13 + a.r8 * b.r14 + a.r12 * b.r15
    r13 := a.r1 * b.r12 + a.r5 * b.r13 + a.r9 * b.r14 + a.r13 * b.r15
    r14 := a.r2 * b.r12 + a.r6 * b.r13 + a.r10 * b.r14 + a.r14 * b.r15
    r15 := a.r3 * b.r12 + a.r7 * b.r13 + a.r11 * b.r14 + a.r15 * b.r15 }

instance : Mul (Matrix4 K) := ⟨Matrix4.mul⟩

/-- The identity matrix, the value of a default-constructed `Matrix4`. -/
def Matrix4.Identity : Matrix4 K :=
  { r0 := 1, r1 := 0, r2 := 0, r3 := 0
    r4 := 0, r5 := 1, r6 := 0, r7 := 0
    r8 := 0, r9 := 0, r10 := 1, r11 := 0
    r12 := 0, r13 := 0, r14 := 0, r15 := 1 }

/-- Modelled from the spec: `Matrix4::OrthoOffCenter(left, right, bottom, top,
near, far)`, whose body is in Matrix4.cpp; "an orthographic
projection" over the given box, written as the usual orthographic matrix in
column-major order. -/
def Matrix4.OrthoOffCenter (left right bottom top near far : K) : Matrix4 K :=
  { r0 := 2 / (right - left), r1 := 0, r2 := 0, r3 := 0
    r4 := 0, r5 := 2 / (top - bottom), r6 := 0, r7 := 0
    r8 := 0, r9 := 0, r10 := -2 / (far - near), r11 := 0
    r12 := -(right + left) / (right - left)
    r13 := -(top + bottom) / (top - bottom)
    r14 := -(far + near) / (far - near)
    r15 := 1 }

/-- The eight corners returned by `Frustum::GetCurrentCorners()`. -/
def Frustum.GetCurrentCorners (f : Frustum K) : List (Vector4 K) :=
  [f.c0, f.c1, f.c2, f.c3, f.c4, f.c5, f.c6, f.c7]

/-- Modelled from the spec: `BoxBounds::GetCorners()`, whose body is in
BoxBounds.cpp; the eight corner points of the "axis-aligned box (min/max
corners)", as points with w = 1. -/
def BoxBounds.GetCorners (b : BoxBounds K) : List (Vector4 K) :=
  [ ⟨b.Min.x, b.Min.y, b.Min.z, 1⟩, ⟨b.Max.x, b.Min.y, b.Min.z, 1⟩,
    ⟨b.Min.x, b.Max.y, b.Min.z, 1⟩, ⟨b.Max.x, b.Max.y, b.Min.z, 1⟩,
    ⟨b.Min.x, b.Min.y, b.Max.z, 1⟩, ⟨b.Max.x, b.Min.y, b.Max.z, 1⟩,
    ⟨b.Min.x, b.Max.y, b.Max.z, 1⟩, ⟨b.Max.x, b.Max.y, b.Max.z, 1⟩ ]

end Linear

/-! ## MathUtil.cpp -/

/-- The functions of the C math library that MathUtil.cpp calls, as a record
so that the conversions stay computable over any field and can be read over
the reals with the real functions. -/
structure CMath (K : Type) where
  sin : K → K
  cos : K → K
  asin : K → K
  acos : K → K
  atan2 : K → K → K
  sqrt : K → K
  tan : K → K

/-- The math library over the reals: `atan2 y x` is the argument of the
complex number `x + y i`. -/
noncomputable def realMath : CMath ℝ where
  sin := Real.sin
  cos := Real.cos
  asin := Real.arcsin
  acos := Real.arccos
  atan2 := fun y x => Complex.arg ⟨x, y⟩
  sqrt := Real.sqrt
  tan := Real.tan

section Vector

variable {K : Type} [LinearOrderedField K]

/-- Modelled from the spec: `Vector4::operator-`, whose body is in Vector4.cpp;
the component-wise difference. -/
def Vector4.sub (a b : Vector4 K) : Vector4 K :=
  ⟨a.x - b.x, a.y - b.y, a.z - b.z, a.w - b.w⟩

instance : Sub (Vector4 K) := ⟨Vector4.sub⟩

/-- Modelled from the spec: `Vector4::operator*(Vector4)`, whose body is in
Vector4.cpp; the dot product of the spatial parts (w is the "homogeneous
coordinate", not a spatial component). -/
def Vector4.dot (a b : Vector4 K) : K :=
  a.x * b.x + a.y * b.y + a.z * b.z

/-- Modelled from the spec: `Vector4::SquareLength()`, whose body is in
Vector4.cpp; the squared length of the spatial part. -/
def Vector4.SquareLength (a : Vector4 K) : K :=
  a.x * a.x + a.y * a.y + a.z * a.z

/-- Modelled from the spec: `Vector4::Project(Vector4)`, whose body is in
Vector4.cpp; the orthogonal projection of the vector onto the line of
`other` ("the point's projection onto coneDir"). -/
def Vector4.Project (a other : Vector4 K) : Vector4 K :=
  let k := a.dot other / other.dot other
  ⟨other.x * k, other.y * k, other.z * k, other.w * k⟩

end Vector

namespace MathUtil

section Conversions

variable {K : Type} [LinearOrderedField K]

/-- The constant `MathUtil::PI`. -/
def PI : K := 3.1415926536

/-- The constant `MathUtil::HalfPI`. -/
def HalfPI : K := 1.5707963268

/-- The constant `MathUtil::DegToRad`. -/
def DegToRad : K := 0.0174532925

/-- The constant `MathUtil::RadToDeg`. -/
def RadToDeg : K := 57.295779513

/-- The function `MathUtil::AxisRadToQuat(Vector4 axis, float rad)`. -/
def AxisRadToQuat (m : CMath K) (axis : Vector4 K) (rad : K) : Quaternion K :=
  let t2 := rad * 0.5
  let st2 := m.sin t2
  ⟨axis.x * st2, axis.y * st2, axis.z * st2, m.cos t2⟩

/-- The function `MathUtil::AxisRadToEulerRad(Vector4 axis, float rad)`. The
local `eulerRadian` starts as a default-constructed `Vector4`, whose value
(Vector4.h) is the parameter `eulerRadian0`; the branches assign to its
fields in the order of the source. -/
def AxisRadToEulerRad (m : CMath K) (eulerRadian0 : Vector4 K) (axis : Vector4 K) (rad : K) :
    Vector4 K :=
  let s := m.sin rad
  let c := m.cos rad
  let t := 1 - c
  if axis.x * axis.y * t + axis.z * s > 0.998 then
    -- north pole singularity detected
    let e1 := { eulerRadian0 with x := 2 * m.atan2 (axis.x * m.sin (axis.w / 2)) (m.cos (axis.w / 2)) }
    let e2 := { e1 with y := 0 }
    { e2 with z := PI / 2 }
  else if axis.x * axis.y * t + axis.z * s < -0.998 then
    -- south pole singularity detected
    let e1 := { eulerRadian0 with x := -2 * m.atan2 (axis.x * m.sin (axis.w / 2)) (m.cos (axis.w / 2)) }
    let e2 := { e1 with y := 0 }
    { e2 with y := -PI / 2 }
  else
    let e1 := { eulerRadian0 with
      x := m.atan2 (axis.y * s - axis.x * axis.z * t) (1 - (axis.y * axis.y + axis.z * axis.z) * t) }
    let e2 := { e1 with
      y := m.atan2 (axis.x * s - axis.y * axis.z * t) (1 - (axis.x * axis.x + axis.z * axis.z) * t) }
    { e2 with z := m.asin (axis.x * axis.y * t + axis.z * s) }

/-- The function `MathUtil::EulerRadToQuat(float yaw, float pitch, float roll)`. -/
def EulerRadToQuat (m : CMath K) (yaw pitch roll : K) : Quaternion K :=
  let cx := m.cos (yaw / 2)
  let sx := m.sin (yaw / 2)
  let cy := m.cos (pitch / 2)
  let sy := m.sin (pitch / 2)
  let cz := m.cos (roll / 2)
  let sz := m.sin (roll / 2)
  ⟨sx * sz * cy + cx * cz * sy,
   sx * cz * cy + cx * sz * sy,
   cx * sz * cy - sx * cz * sy,
   cx * cz * cy - sx * sz * sy⟩

/-- The overload `MathUtil::EulerRadToQuat(Vector4 eulerRad)`. -/
def EulerRadToQuatV (m : CMath K) (eulerRad : Vector4 K) : Quaternion K :=
  EulerRadToQuat m eulerRad.x eulerRad.y eulerRad.z

/-- The function `MathUtil::QuatToAxisRad(Quaternion quat)`. -/
def QuatToAxisRad (m : CMath K) (quat : Quaternion K) : Vector4 K :=
  let w := m.acos quat.w * 2
  let a := 1 - quat.w * quat.w
  if a ≤ 0 then
    ⟨1, 0, 0, w⟩
  else
    let b := 1 / m.sqrt a
    ⟨quat.x * b, quat.y * b, quat.z * b, w⟩

/-- The function `MathUtil::PointInCone(coneCenter, coneDir, height, theta,
point)`. -/
def PointInCone (m : CMath K) (coneCenter coneDir : Vector4 K) (height theta : K)
    (point : Vector4 K) : Bool :=
  let cosTheta := m.cos theta
  let cosTheta2 := cosTheta * cosTheta
  let dir := point - coneCenter
  let dot := coneDir.dot dir
  if dot ≥ 0 ∧ dot * dot ≥ cosTheta2 * (dir.dot dir) ∧
      (dir.Project coneDir).SquareLength ≤ height * height then
    true
  else
    false

end Conversions

end MathUtil

/-! ## Statements of the spec that the theorems compare the code with -/

section SpecSide

/-- The angle between `u` and `d` is at most `theta`: some angle `α` in
`[0, theta]` satisfies `u · d = |u| |d| cos α`. For non-zero vectors `α` is
the angle between them; the zero vector makes no angle with anything, and
every `α` qualifies. -/
def angleAtMost (u d : Vector4 ℝ) (theta : ℝ) : Prop :=
  ∃ α : ℝ, 0 ≤ α ∧ α ≤ theta ∧
    u.dot d = Real.sqrt u.SquareLength * Real.sqrt d.SquareLength * Real.cos α

/-- The negated quaternion, which stands for the same rotation. -/
def Quaternion.neg {K : Type} [LinearOrderedField K] (q : Quaternion K) : Quaternion K :=
  ⟨-q.x, -q.y, -q.z, -q.w⟩

end SpecSide

/-! ## Pipeline::FilterNodes (lines 264-273) -/

section Filter

variable {K : Type}

/-- The body of the loop of lines 268-272: push the candidate when the
collider's fast test accepts its world AABB. -/
def filterStep (collider : Collidable K) (collisions : List (SceneNode K))
    (possible : SceneNode K) : List (SceneNode K) :=
  if collider.IsInsideFast possible.GetWorldAABB then collisions ++ [possible]
  else collisions

/-- The procedure `FilterNodes(collider, possibles, collisions)`: the result is
the pair of the final values of the two vectors passed by reference,
`(possibles, collisions)`. The incoming `collisions` is erased first. -/
def FilterNodes (collider : Collidable K) (possibles collisions : List (SceneNode K)) :
    List (SceneNode K) × List (SceneNode K) :=
  let erased : List (SceneNode K) := collisions.drop collisions.length
  (possibles, possibles.foldl (filterStep collider) erased)

end Filter

/-! ## Pipeline::GetCropMatrix (lines 275-339) -/

section Crop

variable {K : Type} [LinearOrderedField K]

/-- The body of the first loop (lines 283-285) on the state `(minZ, maxZ)`. -/
def limitZStep (lightMatrix : Matrix4 K) (acc : K × K) (corner : Vector4 K) : K × K :=
  let pos := lightMatrix.Multiply corner
  let maxZ := if pos.z > acc.2 then pos.z else acc.2
  let minZ := if pos.z < acc.1 then pos.z else acc.1
  (minZ, maxZ)

/-- The body of the inner caster loop (lines 293-294) on the state `maxZ`. -/
def casterZStep (lightMatrix : Matrix4 K) (maxZ : K) (corner : Vector4 K) : K :=
  let pos := lightMatrix.Multiply corner
  if pos.z > maxZ then pos.z else maxZ

/-- The section "limit z" (lines 277-296): the pair `(minZ, maxZ)` after the
loop over the frustum corners and the loop over the casters. -/
def limitZ (lightMatrix : Matrix4 K) (frustum : Frustum K) (casters : List (SceneNode K)) :
    K × K :=
  let corners := frustum.GetCurrentCorners
  let pos := lightMatrix.Multiply frustum.c0
  let zs := corners.foldl (limitZStep lightMatrix) (pos.z, pos.z)
  let maxZ := casters.foldl
    (fun maxZ caster => caster.GetWorldAABB.GetCorners.foldl (casterZStep lightMatrix) maxZ)
    zs.2
  (zs.1, maxZ)

/-- The local `projMatrix` of lines 298-299. -/
def cropProjMatrix (lightMatrix : Matrix4 K) (frustum : Frustum K)
    (casters : List (SceneNode K)) : Matrix4 K :=
  let z := limitZ lightMatrix frustum casters
  Matrix4.OrthoOffCenter (-1) 1 (-1) 1 z.2 z.1

/-- The four running extrema of the section "limit xy". -/
structure XYRange (K : Type) where
  minX : K
  maxX : K
  minY : K
  maxY : K
deriving DecidableEq, Repr

/-- The body of the loop of lines 311-322. -/
def limitXYStep (mvp : Matrix4 K) (acc : XYRange K) (corner : Vector4 K) : XYRange K :=
  let pos := mvp.Multiply corner
  let px := pos.x / pos.w
  let py := pos.y / pos.w
  { maxX := if px > acc.maxX then px else acc.maxX
    minX := if px < acc.minX then px else acc.minX
    maxY := if py > acc.maxY then py else acc.maxY
    minY := if py < acc.minY then py else acc.minY }

/-- The section "limit xy" (lines 301-322). -/
def limitXY (lightMatrix : Matrix4 K) (frustum : Frustum K) (casters : List (SceneNode K)) :
    XYRange K :=
  let corners := frustum.GetCurrentCorners
  let mvp := cropProjMatrix lightMatrix frustum casters * lightMatrix
  let pos := mvp.Multiply frustum.c0
  corners.foldl (limitXYStep mvp)
    { maxX := pos.x / pos.w, minX := pos.x / pos.w, maxY := pos.y / pos.w, minY := pos.y / pos.w }

/-- The local `scaleX` of line 325. -/
def cropScaleX (lightMatrix : Matrix4 K) (frustum : Frustum K) (casters : List (SceneNode K)) :
    K :=
  let r := limitXY lightMatrix frustum casters
  2 / (r.maxX - r.minX)

/-- The local `scaleY` of line 326. -/
def cropScaleY (lightMatrix : Matrix4 K) (frustum : Frustum K) (casters : List (SceneNode K)) :
    K :=
  let r := limitXY lightMatrix frustum casters
  2 / (r.maxY - r.minY)

/-- The local `cropMatrix` of lines 325-336. -/
def cropMatrix (lightMatrix : Matrix4 K) (frustum : Frustum K) (casters : List (SceneNode K)) :
    Matrix4 K :=
  let r := limitXY lightMatrix frustum casters
  let scaleX := cropScaleX lightMatrix frustum casters
  let scaleY := cropScaleY lightMatrix frustum casters
  let offsetX := -(1 / 2) * (r.maxX + r.minX) * scaleX
  let offsetY := -(1 / 2) * (r.maxY + r.minY) * scaleY
  { r0 := scaleX, r1 := 0, r2 := 0, r3 := 0
    r4 := 0, r5 := scaleY, r6 := 0, r7 := 0
    r8 := 0, r9 := 0, r10 := 1, r11 := 0
    r12 := offsetX, r13 := offsetY, r14 := 0, r15 := 1 }

/-- The function `GetCropMatrix(lightMatrix, frustum, casters)`. -/
def GetCropMatrix (lightMatrix : Matrix4 K) (frustum : Frustum K)
    (casters : List (SceneNode K)) : Matrix4 K :=
  cropProjMatrix lightMatrix frustum casters * cropMatrix lightMatrix frustum casters

end Crop

/-! ## Pipeline::DrawCascadedShadowMap, "build frustums" (lines 360-370) -/

section Cascade

variable {K : Type} [LinearOrderedField K]

/-- The constant `numSplit` of DrawCascadedShadowMap. -/
def numSplit : Nat := 4

/-- The loop `for (i = 0; i < numSplit; i++)` of lines 365-370, run for `n`
more iterations from the state `(curNear, curFar)`; the result lists the
arguments of the successive calls `camera->GetFrustum(curNear, curFar)`. -/
def splitLoop (average : K) : Nat → K → K → List (K × K)
  | 0, _, _ => []
  | n + 1, curNear, curFar =>
    let curFar1 := curFar + average
    (curNear, curFar1) :: splitLoop average n (curNear + average) curFar1

/-- Lines 362-370: the depth ranges handed to `GetFrustum`, in split order. -/
def splitRanges (camera : Camera K) : List (K × K) :=
  let average := (camera.GetFar - camera.GetNear) / (numSplit : K)
  let curNear := camera.GetNear
  let curFar := curNear
  splitLoop average numSplit curNear curFar

end Cascade

/-! ## Pipeline: constructor and the shadow-map passes (lines 32-48, 341-687) -/

section PipelineModel

variable {K : Type} [LinearOrderedField K]

/-- The value the constructor gives to `m_OffsetMatrix` (lines 38-43); the
initializer list fills `Raw[0] .. Raw[15]` in order. -/
def offsetMatrix : Matrix4 K :=
  { r0 := 0.5, r1 := 0.0, r2 := 0.0, r3 := 0.0
    r4 := 0.0, r5 := 0.5, r6 := 0.0, r7 := 0.0
    r8 := 0.0, r9 := 0.0, r10 := 0.5, r11 := 0.0
    r12 := 0.5, r13 := 0.5, r14 := 0.5, r15 := 1.0 }

/-- What the shadow passes read from the node held in `m_CurrentCamera` and
from its Camera component (bodies in SceneNode.cpp and Camera.cpp): each
field is the value or the function that the named call returns. -/
structure CameraNode (K : Type) where
  /-- The call `GetComponent<Camera>()`, with `GetNear()` and `GetFar()` -/
  camera : Camera K
  /-- The call `camera->GetShadowFar()` -/
  GetShadowFar : K
  /-- The call `camera->GetFrustum(near, far)` -/
  GetFrustum : K → K → Frustum K
  /-- The call `camera->GetFrustum()` -/
  GetFullFrustum : Frustum K
  /-- The call `camera->GetShadowBounds()`, as a collider -/
  GetShadowBounds : Collidable K
  /-- The call `camera->GetShadowBounds(false).GetExtents().SquareLength()` -/
  ShadowExtentsSquareLength : K
  /-- The call `m_CurrentCamera->GetWorldMatrix()` -/
  GetWorldMatrix : Matrix4 K

/-- What the shadow passes read from the light's node and its Light
component. -/
structure LightNode (K : Type) where
  GetInvertWorldMatrix : Matrix4 K
  GetWorldPosition : Vector4 K
  GetRadius : K
  GetOutterAngle : K

/-- Engine functions that the shadow passes call and whose bodies are not
among the verified files; each field is the function named. -/
structure Engine (K : Type) where
  /-- The call `Frustum::IsInsideFast(BoxBounds)` -/
  FrustumIsInsideFast : Frustum K → BoxBounds K → Bool
  /-- The call `SphereBounds(center, radius)` as a collider -/
  SphereBounds : Vector4 K → K → Collidable K
  /-- The call `Matrix4::Rotate(Quaternion)` applied to a default-constructed matrix -/
  Rotate : Quaternion K → Matrix4 K
  /-- The call `Matrix4::Inverse()` -/
  Inverse : Matrix4 K → Matrix4 K
  /-- The call `Matrix4::LookAt(eye, target, up)` applied to a default-constructed matrix -/
  LookAt : Vector4 K → Vector4 K → Vector4 K → Matrix4 K
  /-- The default of the fourth argument of the constructor `Vector4(x, y, z, w)` -/
  defaultW : K

/-- The frustum as a `Collidable`, through `Frustum::IsInsideFast`. -/
def Engine.frustumCollider (e : Engine K) (f : Frustum K) : Collidable K :=
  ⟨e.FrustumIsInsideFast f⟩

/-- The constructor call `Vector4(x, y, z)`. -/
def Engine.Vector3 (e : Engine K) (x y z : K) : Vector4 K :=
  ⟨x, y, z, e.defaultW⟩

/-- Modelled from the spec: `Vector4::operator+`, whose body is in Vector4.cpp;
the component-wise sum. -/
def Vector4.add (a b : Vector4 K) : Vector4 K :=
  ⟨a.x + b.x, a.y + b.y, a.z + b.z, a.w + b.w⟩

instance : Add (Vector4 K) := ⟨Vector4.add⟩

/-- Modelled from the spec: the constant `Vector4::XAxis` (Vector4.cpp), the
unit vector of the X axis; AxisRadToQuat does not read its w. -/
def Vector4.XAxis : Vector4 K := ⟨1, 0, 0, 0⟩

/-- Modelled from the spec: `Matrix4::PerspectiveFov(fov, ratio, near, far)`,
whose body is in Matrix4.cpp; "one perspective projection (... FOV, aspect
..., near ..., far ...)", written as the usual perspective matrix in
column-major order. -/
def Matrix4.PerspectiveFov (m : CMath K) (fov ratio near far : K) : Matrix4 K :=
  let f := 1 / m.tan (fov / 2)
  { r0 := f / ratio, r1 := 0, r2 := 0, r3 := 0
    r4 := 0, r5 := f, r6 := 0, r7 := 0
    r8 := 0, r9 := 0, r10 := (far + near) / (near - far), r11 := -1
    r12 := 0, r13 := 0, r14 := 2 * far * near / (near - far), r15 := 0 }

/-- Modelled from the spec: `Frustum::Setup(fov, ratio, near, far)`, whose body
is in Frustum.cpp; the frustum "derived from the ... angle, aspect ..., near
..., far ...": the eight corners of the section of the view pyramid between
the depths `near` and `far`, in view space looking down -Z, four on the near
plane and then four on the far plane. -/
def Frustum.Setup (m : CMath K) (fov ratio near far : K) : Frustum K :=
  let ty := m.tan (fov / 2)
  let tx := ty * ratio
  { c0 := ⟨-(tx * near), -(ty * near), -near, 1⟩
    c1 := ⟨tx * near, -(ty * near), -near, 1⟩
    c2 := ⟨-(tx * near), ty * near, -near, 1⟩
    c3 := ⟨tx * near, ty * near, -near, 1⟩
    c4 := ⟨-(tx * far), -(ty * far), -far, 1⟩
    c5 := ⟨tx * far, -(ty * far), -far, 1⟩
    c6 := ⟨-(tx * far), ty * far, -far, 1⟩
    c7 := ⟨tx * far, ty * far, -far, 1⟩ }

/-- Modelled from the spec: `Frustum::Transform(Matrix4)`, whose body is in
Frustum.cpp; "transform-by-matrix" of the eight corners. -/
def Frustum.Transform (f : Frustum K) (matrix : Matrix4 K) : Frustum K :=
  { c0 := matrix.Multiply f.c0, c1 := matrix.Multiply f.c1
    c2 := matrix.Multiply f.c2, c3 := matrix.Multiply f.c3
    c4 := matrix.Multiply f.c4, c5 := matrix.Multiply f.c5
    c6 := matrix.Multiply f.c6, c7 := matrix.Multiply f.c7 }

/-- The scene manager, as far as the shadow passes query it: the nodes its
traversal (SceneManager.cpp) reports for a collider. -/
structure SceneManager (K : Type) where
  /-- The visible shadow casters for a collider, in traversal order -/
  VisibleShadowCasters : Collidable K → List (SceneNode K)
  /-- The visible renderables for a frustum, in traversal order -/
  VisibleRenderables : Frustum K → List (SceneNode K)

/-- Modelled from the spec: `SceneManager::GetVisibleShadowCasters(collider,
list, flag)`, whose body is in SceneManager.cpp; it "returns scene nodes whose
render-relevant bounds intersect `shape`" into `list`. Called without the
flag (the default, `true`) it fills the list; called with `false`, as on split
0's list, it is the "pass that adds (never removes) casters": the list keeps
what it held and the reported nodes are appended. The result is the final
value of `list`. -/
def SceneManager.GetVisibleShadowCasters (sceneManager : SceneManager K)
    (collider : Collidable K) (list : List (SceneNode K)) (flag : Bool) : List (SceneNode K) :=
  if flag then sceneManager.VisibleShadowCasters collider
  else list ++ sceneManager.VisibleShadowCasters collider

/-- Modelled from the spec: `SceneManager::GetVisibleRenderables(frustum,
list)`, whose body is in SceneManager.cpp; it fills the list with the nodes
visible in the frustum. -/
def SceneManager.GetVisibleRenderables (sceneManager : SceneManager K)
    (frustum : Frustum K) (_list : List (SceneNode K)) : List (SceneNode K) :=
  sceneManager.VisibleRenderables frustum

/-- The pipeline, as far as the shadow passes read it. -/
structure Pipeline (K : Type) where
  m_OffsetMatrix : Matrix4 K
  /-- The shared pointer `m_CurrentCamera`; `none` is the null pointer -/
  m_CurrentCamera : Option (CameraNode K)
  /-- The bitset `m_Switches`, by bit index -/
  m_Switches : Nat → Bool

/-- The constructor `Pipeline::Pipeline(name)`: the offset matrix is set, the
switches are reset, and no camera is current. -/
def Pipeline.new : Pipeline K :=
  { m_OffsetMatrix := offsetMatrix, m_CurrentCamera := none, m_Switches := fun _ => false }

/-- How a pass can stop short of returning. -/
inductive Fault where
  /-- The macro `ASSERT_MSG(cond, msg)` with a false condition -/
  | AssertionFailed (msg : String)
  /-- a member access through a null shared pointer (undefined behaviour) -/
  | NullDereference
deriving DecidableEq, Repr

/-- The calls a pass makes on its collaborators, in order, as far as they are
recorded here (render-state toggles and shader and mesh binds are left out). -/
inductive Event (K : Type) where
  /-- The call `Texture::GetTemporary(width, height, depth, DEPTH24, type)` -/
  | GetTemporary (width height depth : Nat)
  /-- The call `Pipeline::Active->GetEntityManager()->Add(depth_buffer)` -/
  | AddToEntityManager
  /-- The call `depth_shader->BindMatrix(Matrix4::INVERT_VIEW_MATRIX, ..)` -/
  | BindInvertViewMatrix (matrix : Matrix4 K)
  /-- The call `depth_shader->BindMatrix(Matrix4::PROJECTION_MATRIX, ..)` -/
  | BindProjectionMatrix (matrix : Matrix4 K)
  /-- The call `m_SharedPass->SetArrayTextureLayer(i)` -/
  | SetArrayTextureLayer (i : Nat)
  /-- The call `m_SharedPass->SetCubeTextureIndex(i)` followed by `Clear` -/
  | SetCubeTextureIndex (i : Nat)
  /-- The call `glDrawElements` for one caster -/
  | DrawElements (caster : SceneNode K)

/-- The light view matrix that the three directional and spot passes build
(lines 356-358, 465-467, 629-631). -/
def lightMatrixOf (m : CMath K) (e : Engine K) (node : LightNode K) : Matrix4 K :=
  let lightMatrix := e.Rotate (MathUtil.AxisRadToQuat m Vector4.XAxis (MathUtil.DegToRad * 90.0))
  lightMatrix * node.GetInvertWorldMatrix

/-- The array `frustums` of DrawCascadedShadowMap (lines 361-370). -/
def cascadeFrustums (cur : CameraNode K) : List (Frustum K) :=
  (splitRanges cur.camera).map (fun r => cur.GetFrustum r.1 r.2)

/-- The list `casterAll` (lines 373-374). -/
def cascadeCasterAll (e : Engine K) (sceneManager : SceneManager K) (cur : CameraNode K) :
    List (SceneNode K) :=
  sceneManager.GetVisibleShadowCasters (e.frustumCollider cur.GetFullFrustum) [] true

/-- The arrays `casterArrays` after the per-split filtering (lines 376-382). -/
def cascadeFiltered (e : Engine K) (sceneManager : SceneManager K) (cur : CameraNode K) :
    List (List (SceneNode K)) :=
  (cascadeFrustums cur).map
    (fun frustum => (FilterNodes (e.frustumCollider frustum)
      (cascadeCasterAll e sceneManager cur) []).2)

/-- The shadow-bounds pass (lines 384-386) on the arrays `casterArrays`. -/
def shadowBoundsPass (sceneManager : SceneManager K) (cur : CameraNode K)
    (casterArrays : List (List (SceneNode K))) : List (List (SceneNode K)) :=
  if cur.ShadowExtentsSquareLength > 0 then
    match casterArrays with
    | [] => []
    | casters0 :: rest =>
      sceneManager.GetVisibleShadowCasters cur.GetShadowBounds casters0 false :: rest
  else casterArrays

/-- The arrays `casterArrays` as the crop fit reads them (after line 386). -/
def cascadeCasterArrays (e : Engine K) (sceneManager : SceneManager K) (cur : CameraNode K) :
    List (List (SceneNode K)) :=
  shadowBoundsPass sceneManager cur (cascadeFiltered e sceneManager cur)

/-- The array `projMatrices` (lines 388-396). -/
def cascadeProjMatrices (m : CMath K) (e : Engine K) (sceneManager : SceneManager K)
    (cur : CameraNode K) (node : LightNode K) : List (Matrix4 K) :=
  List.zipWith (fun frustum casters => GetCropMatrix (lightMatrixOf m e node) frustum casters)
    (cascadeFrustums cur) (cascadeCasterArrays e sceneManager cur)

/-- The draw block (lines 398-443): per layer the projection bind, the layer
selection and one draw per caster. -/
def cascadeDrawEvents (lightMatrix : Matrix4 K) :
    Nat → List (Matrix4 K) → List (List (SceneNode K)) → List (Event K)
  | i, proj :: projs, casters :: rest =>
    [Event.BindProjectionMatrix proj, Event.SetArrayTextureLayer i] ++
      casters.map Event.DrawElements ++ cascadeDrawEvents lightMatrix (i + 1) projs rest
  | _, _, _ => []

/-- The pass `Pipeline::DrawCascadedShadowMap(sceneManager, pass, node)`: the
recorded calls and the returned vector of matrices (the depth buffer of the
returned pair is the one acquired first). -/
def Pipeline.DrawCascadedShadowMap (p : Pipeline K) (m : CMath K) (e : Engine K)
    (sceneManager : SceneManager K) (node : LightNode K) :
    List (Event K) × Except Fault (List (Matrix4 K)) :=
  let acquired : List (Event K) := [Event.GetTemporary 1024 1024 4, Event.AddToEntityManager]
  match p.m_CurrentCamera with
  | none => (acquired, Except.error Fault.NullDereference)
  | some cur =>
    let lightMatrix := lightMatrixOf m e node
    let casterArrays := cascadeCasterArrays e sceneManager cur
    let projMatrices := cascadeProjMatrices m e sceneManager cur node
    let drawn := Event.BindInvertViewMatrix lightMatrix ::
      cascadeDrawEvents lightMatrix 0 projMatrices casterArrays
    let matrices := projMatrices.map
      (fun proj => p.m_OffsetMatrix * proj * lightMatrix * cur.GetWorldMatrix)
    (acquired ++ drawn, Except.ok matrices)

/-- The list `casters` of DrawDirLightShadowMap (lines 469-478). -/
def dirLightCasters (e : Engine K) (sceneManager : SceneManager K) (cur : CameraNode K) :
    List (SceneNode K) :=
  let camFrustum := cur.GetFrustum cur.camera.GetNear cur.GetShadowFar
  let casters := sceneManager.GetVisibleShadowCasters (e.frustumCollider camFrustum) [] false
  if cur.ShadowExtentsSquareLength > 0 then
    sceneManager.GetVisibleShadowCasters cur.GetShadowBounds casters false
  else casters

/-- The pass `Pipeline::DrawDirLightShadowMap(sceneManager, pass, node)`. -/
def Pipeline.DrawDirLightShadowMap (p : Pipeline K) (m : CMath K) (e : Engine K)
    (sceneManager : SceneManager K) (node : LightNode K) :
    List (Event K) × Except Fault (Matrix4 K) :=
  let acquired : List (Event K) := [Event.GetTemporary 1024 1024 0, Event.AddToEntityManager]
  match p.m_CurrentCamera with
  | none => (acquired, Except.error Fault.NullDereference)
  | some cur =>
    let lightMatrix := lightMatrixOf m e node
    let camFrustum := cur.GetFrustum cur.camera.GetNear cur.GetShadowFar
    let casters := dirLightCasters e sceneManager cur
    let projMatrix := GetCropMatrix lightMatrix camFrustum casters
    let drawn := [Event.BindInvertViewMatrix lightMatrix, Event.BindProjectionMatrix projMatrix]
      ++ casters.map Event.DrawElements
    (acquired ++ drawn,
      Except.ok (p.m_OffsetMatrix * projMatrix * lightMatrix * cur.GetWorldMatrix))

/-- The six view matrices `dirMatrices` of DrawPointLightShadowMap (lines
548-558). -/
def pointLightDirMatrices (e : Engine K) (lightPos : Vector4 K) : List (Matrix4 K) :=
  [ e.LookAt lightPos (lightPos + e.Vector3 1.0 0.0 0.0) (e.Vector3 0.0 (-1.0) 0.0),
    e.LookAt lightPos (lightPos + e.Vector3 (-1.0) 0.0 0.0) (e.Vector3 0.0 (-1.0) 0.0),
    e.LookAt lightPos (lightPos + e.Vector3 0.0 1.0 0.0) (e.Vector3 0.0 0.0 1.0),
    e.LookAt lightPos (lightPos + e.Vector3 0.0 (-1.0) 0.0) (e.Vector3 0.0 0.0 (-1.0)),
    e.LookAt lightPos (lightPos + e.Vector3 0.0 0.0 1.0) (e.Vector3 0.0 (-1.0) 0.0),
    e.LookAt lightPos (lightPos + e.Vector3 0.0 0.0 (-1.0)) (e.Vector3 0.0 (-1.0) 0.0) ]

/-- The draw block of the point light (lines 581-603): per cube face the face
selection and, per caster, the view bind and the draw. -/
def pointLightDrawEvents (casters : List (SceneNode K)) :
    Nat → List (Matrix4 K) → List (Event K)
  | i, ivm :: rest =>
    Event.SetCubeTextureIndex i ::
      (casters.map (fun caster => [Event.BindInvertViewMatrix ivm, Event.DrawElements caster])).flatten
      ++ pointLightDrawEvents casters (i + 1) rest
  | _, [] => []

/-- The pass `Pipeline::DrawPointLightShadowMap(sceneManager, pass, node)`; the
depth buffer is 512 by 512, so the aspect is 512 / 512. -/
def Pipeline.DrawPointLightShadowMap (p : Pipeline K) (m : CMath K) (e : Engine K)
    (sceneManager : SceneManager K) (node : LightNode K) :
    List (Event K) × Except Fault (Matrix4 K) :=
  let acquired : List (Event K) := [Event.GetTemporary 512 512 0, Event.AddToEntityManager]
  match p.m_CurrentCamera with
  | none => (acquired, Except.error Fault.NullDereference)
  | some cur =>
    let radius := node.GetRadius
    let lightSphere := e.SphereBounds node.GetWorldPosition radius
    let casters := sceneManager.GetVisibleShadowCasters lightSphere [] true
    let aspect : K := 512 / 512
    let projMatrix := Matrix4.PerspectiveFov m (MathUtil.DegToRad * 90.0) aspect 1.0 radius
    let dirMatrices := pointLightDirMatrices e node.GetWorldPosition
    let drawn := Event.BindProjectionMatrix projMatrix ::
      pointLightDrawEvents casters 0 dirMatrices
    (acquired ++ drawn, Except.ok cur.GetWorldMatrix)

/-- The local `frustum` of DrawSpotLightShadowMap (lines 633-635). -/
def spotLightFrustum (m : CMath K) (e : Engine K) (node : LightNode K) : Frustum K :=
  (Frustum.Setup m node.GetOutterAngle 1.0 1.0 node.GetRadius).Transform
    (e.Inverse (lightMatrixOf m e node))

/-- The local `projMatrix` of DrawSpotLightShadowMap (lines 637-640); the depth
buffer is 1024 by 1024, so the aspect is 1024 / 1024. -/
def spotLightProjMatrix (m : CMath K) (node : LightNode K) : Matrix4 K :=
  let aspect : K := 1024 / 1024
  Matrix4.PerspectiveFov m node.GetOutterAngle aspect 1.0 node.GetRadius

/-- The list `casters` of DrawSpotLightShadowMap (lines 642-644). -/
def spotLightCasters (m : CMath K) (e : Engine K) (sceneManager : SceneManager K)
    (node : LightNode K) : List (SceneNode K) :=
  sceneManager.GetVisibleRenderables (spotLightFrustum m e node) []

/-- The pass `Pipeline::DrawSpotLightShadowMap(sceneManager, pass, node)`; the
current camera is read only in the return statement (line 686). -/
def Pipeline.DrawSpotLightShadowMap (p : Pipeline K) (m : CMath K) (e : Engine K)
    (sceneManager : SceneManager K) (node : LightNode K) :
    List (Event K) × Except Fault (Matrix4 K) :=
  let acquired : List (Event K) := [Event.GetTemporary 1024 1024 0, Event.AddToEntityManager]
  let lightMatrix := lightMatrixOf m e node
  let projMatrix := spotLightProjMatrix m node
  let casters := spotLightCasters m e sceneManager node
  let drawn := [Event.BindInvertViewMatrix lightMatrix, Event.BindProjectionMatrix projMatrix]
    ++ casters.map Event.DrawElements
  match p.m_CurrentCamera with
  | none => (acquired ++ drawn, Except.error Fault.NullDereference)
  | some cur =>
    (acquired ++ drawn,
      Except.ok (p.m_OffsetMatrix * projMatrix * lightMatrix * cur.GetWorldMatrix))

/-- The first statement of `Pipeline::DrawDebug(query)` (line 691): the
assertion on the current camera, before any other call. -/
def Pipeline.DrawDebug_guard (p : Pipeline K) : List (Event K) × Except Fault (CameraNode K) :=
  match p.m_CurrentCamera with
  | none =>
    ([], Except.error (Fault.AssertionFailed "PrelightPipeline.m_CurrentCamera not found!"))
  | some cur => ([], Except.ok cur)

end PipelineModel

/-! ## Sample collaborators used by counterexamples -/

section SampleCollaborators

variable {K : Type} [LinearOrderedField K]

/-- Stand-ins for the engine functions: every box passes the fast tests, and
`Rotate`, `Inverse` and `LookAt` answer with the identity or their argument. -/
def sampleEngine : Engine K :=
  { FrustumIsInsideFast := fun _ _ => true
    SphereBounds := fun _ _ => ⟨fun _ => true⟩
    Rotate := fun _ => Matrix4.Identity
    Inverse := fun matrix => matrix
    LookAt := fun _ _ _ => Matrix4.Identity
    defaultW := 1 }

/-- An empty scene. -/
def sampleSceneManager : SceneManager K :=
  { VisibleShadowCasters := fun _ => [], VisibleRenderables := fun _ => [] }

/-- A spot light at the origin with radius 10 and outer angle 1. -/
def sampleLightNode : LightNode K :=
  { GetInvertWorldMatrix := Matrix4.Identity, GetWorldPosition := ⟨0, 0, 0, 1⟩
    GetRadius := 10, GetOutterAngle := 1 }

end SampleCollaborators

/-! ## The camera's split frustum, as the spec describes it -/

section CameraFrustum

variable {K : Type} [LinearOrderedField K]

/-- Modelled from the spec: `Camera::GetFrustum(near, far)`, whose body is in
Camera.cpp; "each sub-frustum is derived from the camera's projection
parameters restricted to that depth range, using the camera's existing view
transform": the frustum set up from the camera's field of view and aspect
ratio over `[near, far]`, moved to world space by the camera's world matrix. -/
def perspectiveGetFrustum (m : CMath K) (fov ratio : K) (world : Matrix4 K) (near far : K) :
    Frustum K :=
  (Frustum.Setup m fov ratio near far).Transform world

end CameraFrustum

section CameraFrustumSlopes

variable {K : Type} [LinearOrderedField K]

/-- The light-view x of a corner of a split frustum is `M.r12 + d * k`, where
`d` is the corner's depth, `M` takes view space to light view and `k` is one
of these four slopes, one per corner of the view pyramid's cross-section. -/
def splitSlopes (m : CMath K) (fov ratio : K) (M : Matrix4 K) : List K :=
  let ty := m.tan (fov / 2)
  let tx := ty * ratio
  [ -(tx * M.r0) - ty * M.r4 - M.r8, tx * M.r0 - ty * M.r4 - M.r8,
    -(tx * M.r0) + ty * M.r4 - M.r8, tx * M.r0 + ty * M.r4 - M.r8 ]

end CameraFrustumSlopes

section SampleCamera

variable {K : Type} [LinearOrderedField K]

/-- A camera at the origin with identity world matrix, near 1, far 101,
aspect 1 and no shadow bounds, whose split frustums are the spec's. -/
def sampleCameraNode (m : CMath K) (fov : K) : CameraNode K :=
  { camera := ⟨1, 101⟩
    GetShadowFar := 101
    GetFrustum := perspectiveGetFrustum m fov 1 Matrix4.Identity
    GetFullFrustum := perspectiveGetFrustum m fov 1 Matrix4.Identity 1 101
    GetShadowBounds := ⟨fun _ => false⟩
    ShadowExtentsSquareLength := 0
    GetWorldMatrix := Matrix4.Identity }

end SampleCamera

/-! ## Pipeline: switches (lines 170-197) and the point light's look-at calls -/

section PipelineSwitches

variable {K : Type} [LinearOrderedField K]

/-- The method `Pipeline::SetSwitch(key, value)`; the key is the bit index
`(unsigned int)key`. The result is the pipeline after the call. -/
def Pipeline.SetSwitch (p : Pipeline K) (key : Nat) (value : Bool) : Pipeline K :=
  { p with m_Switches := fun k => if k = key then value else p.m_Switches k }

/-- The method `Pipeline::IsSwitchOn(key)`. -/
def Pipeline.IsSwitchOn (p : Pipeline K) (key : Nat) : Bool :=
  p.m_Switches key

/-- The loop of `Pipeline::IsSwitchOn(list, any)` (lines 182-196) over the
keys still to visit, with its two early returns and the final return. -/
def Pipeline.isSwitchOnLoop (p : Pipeline K) (any : Bool) : List Nat → Bool
  | [] => if any then false else true
  | key :: rest =>
    let value := p.IsSwitchOn key
    if any then
      if value then true else p.isSwitchOnLoop any rest
    else
      if !value then false else p.isSwitchOnLoop any rest

/-- The method `Pipeline::IsSwitchOn(list, any)`: the returned value and the
pipeline after the call (the method is not declared const). -/
def Pipeline.IsSwitchOnList (p : Pipeline K) (list : List Nat) (any : Bool) :
    Bool × Pipeline K :=
  (p.isSwitchOnLoop any list, p)

/-- The arguments (eye, target, up) of the six `LookAt` calls of
DrawPointLightShadowMap (lines 553-558), in face order. -/
def pointLightLookAts (e : Engine K) (lightPos : Vector4 K) :
    List (Vector4 K × Vector4 K × Vector4 K) :=
  [ (lightPos, lightPos + e.Vector3 1.0 0.0 0.0, e.Vector3 0.0 (-1.0) 0.0),
    (lightPos, lightPos + e.Vector3 (-1.0) 0.0 0.0, e.Vector3 0.0 (-1.0) 0.0),
    (lightPos, lightPos + e.Vector3 0.0 1.0 0.0, e.Vector3 0.0 0.0 1.0),
    (lightPos, lightPos + e.Vector3 0.0 (-1.0) 0.0, e.Vector3 0.0 0.0 (-1.0)),
    (lightPos, lightPos + e.Vector3 0.0 0.0 1.0, e.Vector3 0.0 (-1.0) 0.0),
    (lightPos, lightPos + e.Vector3 0.0 0.0 (-1.0), e.Vector3 0.0 (-1.0) 0.0) ]

/-- The view direction of a look-at: from the eye to the target. -/
def lookDirection (a : Vector4 K × Vector4 K × Vector4 K) : Vector4 K :=
  a.2.1 - a.1

/-- The cross product of the spatial parts, with which the theorems say that
two vectors are not parallel. -/
def Vector4.cross (a b : Vector4 K) : Vector4 K :=
  ⟨a.y * b.z - a.z * b.y, a.z * b.x - a.x * b.z, a.x * b.y - a.y * b.x, 0⟩

end PipelineSwitches

/-! ## MathUtil.cpp in binary32 arithmetic -/

section Binary32

variable {K : Type} [LinearOrderedField K] [FloorRing K]

end Binary32

namespace MathUtil

section RoundedConversions

variable {K : Type} [LinearOrderedField K]

/-- The function `MathUtil::AxisRadToQuat(Vector4 axis, float rad)` in machine
arithmetic: every multiplication and every library call yields the rounding
`rnd` of its exact result. With `rnd = id` this is `AxisRadToQuat`. -/
def AxisRadToQuatRounded (rnd : K → K) (m : CMath K) (axis : Vector4 K) (rad : K) :
    Quaternion K :=
  let t2 := rnd (rad * 0.5)
  let st2 := rnd (m.sin t2)
  ⟨rnd (axis.x * st2), rnd (axis.y * st2), rnd (axis.z * st2), rnd (m.cos t2)⟩

/-- The function `MathUtil::QuatToAxisRad(Quaternion quat)` in machine
arithmetic: every arithmetic operation and every library call yields the
rounding `rnd` of its exact result. With `rnd = id` this is `QuatToAxisRad`. -/
def QuatToAxisRadRounded (rnd : K → K) (m : CMath K) (quat : Quaternion K) : Vector4 K :=
  let w := rnd (rnd (m.acos quat.w) * 2)
  let a := rnd (1 - rnd (quat.w * quat.w))
  if a ≤ 0 then
    ⟨1, 0, 0, w⟩
  else
    let b := rnd (1 / rnd (m.sqrt a))
    ⟨rnd (quat.x * b), rnd (quat.y * b), rnd (quat.z * b), w⟩

end RoundedConversions

end MathUtil

/-! ## Concrete inputs used by witnesses and counterexamples -/

section Inputs

/-- A point (w = 1) with rational coordinates. -/
def pointQ (x y z : ℚ) : Vector4 ℚ := ⟨x, y, z, 1⟩

/-- The frustum whose corners are the corners of the cube `[-1/4,1/4]^3`,
well inside `[-1,1]^3`. -/
def quarterCubeFrustum : Frustum ℚ :=
  { c0 := pointQ (-1/4) (-1/4) (-1/4), c1 := pointQ (1/4) (-1/4) (-1/4)
    c2 := pointQ (-1/4) (1/4) (-1/4), c3 := pointQ (1/4) (1/4) (-1/4)
    c4 := pointQ (-1/4) (-1/4) (1/4), c5 := pointQ (1/4) (-1/4) (1/4)
    c6 := pointQ (-1/4) (1/4) (1/4), c7 := pointQ (1/4) (1/4) (1/4) }

end Inputs

/-! ## Theorems -/

section CascadeTheorems

variable {K : Type} [LinearOrderedField K]

/-- C1: for a camera with near < far the four depth ranges passed to
GetFrustum are contiguous and increasing: the first starts at the camera's
near plane, each range ends where the next one starts, the last ends at the
camera's far plane, and every range has near < far. -/
theorem splitRanges_contiguous (camera : Camera K) (h : camera.GetNear < camera.GetFar) :
    ∃ n0 f0 n1 f1 n2 f2 n3 f3 : K,
      splitRanges camera = [(n0, f0), (n1, f1), (n2, f2), (n3, f3)] ∧
      n0 = camera.GetNear ∧ f0 = n1 ∧ f1 = n2 ∧ f2 = n3 ∧ f3 = camera.GetFar ∧
      n0 < f0 ∧ n1 < f1 ∧ n2 < f2 ∧ n3 < f3 := by
  have havg : 0 < (camera.GetFar - camera.GetNear) / ((4 : ℕ) : K) := by
    apply div_pos (sub_pos.mpr h)
    norm_num
  refine ⟨_, _, _, _, _, _, _, _, rfl, rfl, rfl, rfl, rfl, ?_, ?_, ?_, ?_, ?_⟩
  · show camera.GetNear + _ + _ + _ + _ = camera.GetFar
    simp only [numSplit]
    push_cast
    ring
  all_goals
    simp only [numSplit]
    linarith

/-- Witness for C1: the camera with near 1 and far 101. -/
theorem splitRanges_contiguous_witness :
    (1 : ℚ) < 101 ∧
    ∃ n0 f0 n1 f1 n2 f2 n3 f3 : ℚ,
      splitRanges (⟨1, 101⟩ : Camera ℚ) = [(n0, f0), (n1, f1), (n2, f2), (n3, f3)] ∧
      n0 = 1 ∧ f0 = n1 ∧ f1 = n2 ∧ f2 = n3 ∧ f3 = 101 ∧
      n0 < f0 ∧ n1 < f1 ∧ n2 < f2 ∧ n3 < f3 :=
  ⟨by norm_num, splitRanges_contiguous (⟨1, 101⟩ : Camera ℚ) (by norm_num)⟩

/-- C2: with average = (far - near) / 4, split i is built from the range
[near + i * average, near + (i + 1) * average], although the code accumulates
curNear and curFar; for near = 1 and far = 101 the ranges are [1,26], [26,51],
[51,76], [76,101]. -/
theorem splitRanges_uniform :
    (∀ camera : Camera K,
      splitRanges camera =
        (List.range 4).map (fun i : ℕ =>
          (camera.GetNear + (i : K) * ((camera.GetFar - camera.GetNear) / 4),
           camera.GetNear + ((i : K) + 1) * ((camera.GetFar - camera.GetNear) / 4)))) ∧
    splitRanges (⟨1, 101⟩ : Camera K) = [(1, 26), (26, 51), (51, 76), (76, 101)] := by
  constructor
  · intro camera
    simp only [splitRanges, splitLoop, numSplit, List.range, List.range.loop, List.map]
    push_cast
    simp only [List.cons.injEq, Prod.mk.injEq, and_true]
    refine ⟨⟨?_, ?_⟩, ⟨?_, ?_⟩, ⟨?_, ?_⟩, ⟨?_, ?_⟩⟩ <;> ring
  · simp only [splitRanges, splitLoop, numSplit]
    push_cast
    simp only [List.cons.injEq, Prod.mk.injEq, and_true]
    refine ⟨⟨?_, ?_⟩, ⟨?_, ?_⟩, ⟨?_, ?_⟩, ⟨?_, ?_⟩⟩ <;> norm_num

end CascadeTheorems

section FilterTheorems

variable {K : Type}

/-- The push loop appends, to what it started from, the accepted candidates in
their order. -/
theorem foldl_filterStep (collider : Collidable K) (possibles acc : List (SceneNode K)) :
    possibles.foldl (filterStep collider) acc =
      acc ++ possibles.filter (fun p => collider.IsInsideFast p.GetWorldAABB) := by
  induction possibles generalizing acc with
  | nil => simp
  | cons p ps ih =>
    rw [List.foldl_cons, ih]
    by_cases hp : collider.IsInsideFast p.GetWorldAABB = true
    · simp [filterStep, hp]
    · simp [filterStep, hp]

/-- C10: whatever `collisions` held before, FilterNodes leaves in it exactly
the candidates whose world AABB passes `collider.IsInsideFast`, in the order
and multiplicity of `possibles`, and leaves `possibles` as it was; a candidate
is in the output if and only if it is a candidate that passes the test. -/
theorem FilterNodes_eq_filter (collider : Collidable K)
    (possibles collisions : List (SceneNode K)) :
    (FilterNodes collider possibles collisions).2 =
        possibles.filter (fun p => collider.IsInsideFast p.GetWorldAABB) ∧
      (FilterNodes collider possibles collisions).1 = possibles ∧
      (FilterNodes collider possibles collisions).2.Sublist possibles ∧
      (∀ p, p ∈ (FilterNodes collider possibles collisions).2 ↔
        p ∈ possibles ∧ collider.IsInsideFast p.GetWorldAABB = true) := by
  have h : (FilterNodes collider possibles collisions).2 =
      possibles.filter (fun p => collider.IsInsideFast p.GetWorldAABB) := by
    simp [FilterNodes, foldl_filterStep]
  refine ⟨h, rfl, ?_, ?_⟩
  · rw [h]; exact List.filter_sublist possibles
  · intro p; rw [h]; simp [List.mem_filter]

end FilterTheorems

section CropTheorems

variable {K : Type} [LinearOrderedField K]

/-- One step of the frustum loop keeps the old bounds inside the new ones and
puts the corner's depth inside them. -/
theorem limitZStep_bounds (lightMatrix : Matrix4 K) (acc : K × K) (corner : Vector4 K) :
    (limitZStep lightMatrix acc corner).1 ≤ acc.1 ∧
      acc.2 ≤ (limitZStep lightMatrix acc corner).2 ∧
      (limitZStep lightMatrix acc corner).1 ≤ (lightMatrix.Multiply corner).z ∧
      (lightMatrix.Multiply corner).z ≤ (limitZStep lightMatrix acc corner).2 := by
  simp only [limitZStep]
  refine ⟨?_, ?_, ?_, ?_⟩ <;> split_ifs <;> first | exact le_refl _ | linarith

/-- The frustum loop only widens `[minZ, maxZ]`, and the result contains the
depth of every corner it visited. -/
theorem foldl_limitZStep_bounds (lightMatrix : Matrix4 K) (corners : List (Vector4 K))
    (acc : K × K) :
    (corners.foldl (limitZStep lightMatrix) acc).1 ≤ acc.1 ∧
      acc.2 ≤ (corners.foldl (limitZStep lightMatrix) acc).2 ∧
      ∀ c ∈ corners,
        (corners.foldl (limitZStep lightMatrix) acc).1 ≤ (lightMatrix.Multiply c).z ∧
        (lightMatrix.Multiply c).z ≤ (corners.foldl (limitZStep lightMatrix) acc).2 := by
  induction corners generalizing acc with
  | nil => simp
  | cons c cs ih =>
    obtain ⟨h1, h2, h3, h4⟩ := limitZStep_bounds lightMatrix acc c
    obtain ⟨i1, i2, i3⟩ := ih (limitZStep lightMatrix acc c)
    rw [List.foldl_cons]
    refine ⟨le_trans i1 h1, le_trans h2 i2, ?_⟩
    intro d hd
    rcases List.mem_cons.mp hd with rfl | hd
    · exact ⟨le_trans i1 h3, le_trans h4 i2⟩
    · exact i3 d hd

/-- The inner caster loop only raises `maxZ`, above every corner visited. -/
theorem foldl_casterZStep_bounds (lightMatrix : Matrix4 K) (corners : List (Vector4 K))
    (maxZ : K) :
    maxZ ≤ corners.foldl (casterZStep lightMatrix) maxZ ∧
      ∀ c ∈ corners, (lightMatrix.Multiply c).z ≤ corners.foldl (casterZStep lightMatrix) maxZ := by
  induction corners generalizing maxZ with
  | nil => simp
  | cons c cs ih =>
    obtain ⟨i1, i2⟩ := ih (casterZStep lightMatrix maxZ c)
    have h1 : maxZ ≤ casterZStep lightMatrix maxZ c := by
      simp only [casterZStep]; split_ifs <;> first | exact le_refl _ | linarith
    have h2 : (lightMatrix.Multiply c).z ≤ casterZStep lightMatrix maxZ c := by
      simp only [casterZStep]; split_ifs <;> first | exact le_refl _ | linarith
    rw [List.foldl_cons]
    refine ⟨le_trans h1 i1, ?_⟩
    intro d hd
    rcases List.mem_cons.mp hd with rfl | hd
    · exact le_trans h2 i1
    · exact i2 d hd

/-- The outer caster loop only raises `maxZ`, above every corner of every
caster's world AABB. -/
theorem foldl_casters_bounds (lightMatrix : Matrix4 K) (casters : List (SceneNode K))
    (maxZ : K) :
    maxZ ≤ casters.foldl
        (fun m caster => caster.GetWorldAABB.GetCorners.foldl (casterZStep lightMatrix) m) maxZ ∧
      ∀ n ∈ casters, ∀ c ∈ n.GetWorldAABB.GetCorners,
        (lightMatrix.Multiply c).z ≤ casters.foldl
          (fun m caster => caster.GetWorldAABB.GetCorners.foldl (casterZStep lightMatrix) m)
          maxZ := by
  induction casters generalizing maxZ with
  | nil => simp
  | cons n ns ih =>
    obtain ⟨h1, h2⟩ := foldl_casterZStep_bounds lightMatrix n.GetWorldAABB.GetCorners maxZ
    obtain ⟨i1, i2⟩ := ih (n.GetWorldAABB.GetCorners.foldl (casterZStep lightMatrix) maxZ)
    rw [List.foldl_cons]
    refine ⟨le_trans h1 i1, ?_⟩
    intro m hm c hc
    rcases List.mem_cons.mp hm with rfl | hm
    · exact le_trans (h2 c hc) i1
    · exact i2 m hm c hc

/-- The operator `*` on matrices is `Matrix4.mul`. -/
theorem Matrix4.mul_def (a b : Matrix4 K) : a * b = Matrix4.mul a b := rfl

/-- The product of two matrices acts on a vector as the right factor followed
by the left one. -/
theorem Matrix4.mul_Multiply (a b : Matrix4 K) (v : Vector4 K) :
    (a * b).Multiply v = a.Multiply (b.Multiply v) := by
  show (Matrix4.mul a b).Multiply v = a.Multiply (b.Multiply v)
  simp only [Matrix4.mul, Matrix4.Multiply, Vector4.mk.injEq]
  refine ⟨?_, ?_, ?_, ?_⟩ <;> ring

/-- The orthographic projection over `[-1,1] x [-1,1]` leaves x, y and w of a
vector as they are. -/
theorem ortho_unit_Multiply (near far : K) (v : Vector4 K) :
    ((Matrix4.OrthoOffCenter (-1) 1 (-1) 1 near far).Multiply v).x = v.x ∧
      ((Matrix4.OrthoOffCenter (-1) 1 (-1) 1 near far).Multiply v).y = v.y ∧
      ((Matrix4.OrthoOffCenter (-1) 1 (-1) 1 near far).Multiply v).w = v.w := by
  simp only [Matrix4.OrthoOffCenter, Matrix4.Multiply]
  refine ⟨?_, ?_, ?_⟩ <;> norm_num

/-- The x-y loop only widens the four extrema, and the result contains the
divided clip coordinates of every corner it visited. -/
theorem foldl_limitXYStep_bounds (mvp : Matrix4 K) (corners : List (Vector4 K))
    (acc : XYRange K) :
    (corners.foldl (limitXYStep mvp) acc).minX ≤ acc.minX ∧
      acc.maxX ≤ (corners.foldl (limitXYStep mvp) acc).maxX ∧
      (corners.foldl (limitXYStep mvp) acc).minY ≤ acc.minY ∧
      acc.maxY ≤ (corners.foldl (limitXYStep mvp) acc).maxY ∧
      ∀ c ∈ corners,
        (corners.foldl (limitXYStep mvp) acc).minX ≤ (mvp.Multiply c).x / (mvp.Multiply c).w ∧
        (mvp.Multiply c).x / (mvp.Multiply c).w ≤ (corners.foldl (limitXYStep mvp) acc).maxX ∧
        (corners.foldl (limitXYStep mvp) acc).minY ≤ (mvp.Multiply c).y / (mvp.Multiply c).w ∧
        (mvp.Multiply c).y / (mvp.Multiply c).w ≤ (corners.foldl (limitXYStep mvp) acc).maxY := by
  induction corners generalizing acc with
  | nil => simp
  | cons c cs ih =>
    obtain ⟨i1, i2, i3, i4, i5⟩ := ih (limitXYStep mvp acc c)
    have s1 : (limitXYStep mvp acc c).minX ≤ acc.minX ∧
        (limitXYStep mvp acc c).minX ≤ (mvp.Multiply c).x / (mvp.Multiply c).w := by
      simp only [limitXYStep]; constructor <;> split_ifs <;> first | exact le_refl _ | linarith
    have s2 : acc.maxX ≤ (limitXYStep mvp acc c).maxX ∧
        (mvp.Multiply c).x / (mvp.Multiply c).w ≤ (limitXYStep mvp acc c).maxX := by
      simp only [limitXYStep]; constructor <;> split_ifs <;> first | exact le_refl _ | linarith
    have s3 : (limitXYStep mvp acc c).minY ≤ acc.minY ∧
        (limitXYStep mvp acc c).minY ≤ (mvp.Multiply c).y / (mvp.Multiply c).w := by
      simp only [limitXYStep]; constructor <;> split_ifs <;> first | exact le_refl _ | linarith
    have s4 : acc.maxY ≤ (limitXYStep mvp acc c).maxY ∧
        (mvp.Multiply c).y / (mvp.Multiply c).w ≤ (limitXYStep mvp acc c).maxY := by
      simp only [limitXYStep]; constructor <;> split_ifs <;> first | exact le_refl _ | linarith
    rw [List.foldl_cons]
    refine ⟨le_trans i1 s1.1, le_trans s2.1 i2, le_trans i3 s3.1, le_trans s4.1 i4, ?_⟩
    intro d hd
    rcases List.mem_cons.mp hd with rfl | hd
    · exact ⟨le_trans i1 s1.2, le_trans s2.2 i2, le_trans i3 s3.2, le_trans s4.2 i4⟩
    · exact i5 d hd

/-- The x-y loop stays inside any box that holds its start and the divided
clip coordinates of every corner. -/
theorem foldl_limitXYStep_within (mvp : Matrix4 K) (lo hi : K) (corners : List (Vector4 K))
    (acc : XYRange K)
    (hacc : lo ≤ acc.minX ∧ acc.maxX ≤ hi ∧ lo ≤ acc.minY ∧ acc.maxY ≤ hi)
    (hc : ∀ c ∈ corners,
      lo ≤ (mvp.Multiply c).x / (mvp.Multiply c).w ∧
      (mvp.Multiply c).x / (mvp.Multiply c).w ≤ hi ∧
      lo ≤ (mvp.Multiply c).y / (mvp.Multiply c).w ∧
      (mvp.Multiply c).y / (mvp.Multiply c).w ≤ hi) :
    lo ≤ (corners.foldl (limitXYStep mvp) acc).minX ∧
      (corners.foldl (limitXYStep mvp) acc).maxX ≤ hi ∧
      lo ≤ (corners.foldl (limitXYStep mvp) acc).minY ∧
      (corners.foldl (limitXYStep mvp) acc).maxY ≤ hi := by
  induction corners generalizing acc with
  | nil => simpa using hacc
  | cons c cs ih =>
    rw [List.foldl_cons]
    apply ih
    · obtain ⟨h1, h2, h3, h4⟩ := hc c (List.mem_cons_self c cs)
      obtain ⟨a1, a2, a3, a4⟩ := hacc
      simp only [limitXYStep]
      refine ⟨?_, ?_, ?_, ?_⟩ <;> split_ifs <;> assumption
    · intro d hd
      exact hc d (List.mem_cons_of_mem c hd)

/-- For a corner that the light view sends to a point (w = 1), the divided
clip coordinates x / w and y / w under `projMatrix * lightMatrix` are the
light-view x and y. -/
theorem mvp_Multiply_point (lightMatrix : Matrix4 K) (frustum : Frustum K)
    (casters : List (SceneNode K)) (c : Vector4 K) (hc : (lightMatrix.Multiply c).w = 1) :
    ((cropProjMatrix lightMatrix frustum casters * lightMatrix).Multiply c).x /
        ((cropProjMatrix lightMatrix frustum casters * lightMatrix).Multiply c).w =
        (lightMatrix.Multiply c).x ∧
      ((cropProjMatrix lightMatrix frustum casters * lightMatrix).Multiply c).y /
        ((cropProjMatrix lightMatrix frustum casters * lightMatrix).Multiply c).w =
        (lightMatrix.Multiply c).y := by
  obtain ⟨ox, oy, ow⟩ := ortho_unit_Multiply (limitZ lightMatrix frustum casters).2
    (limitZ lightMatrix frustum casters).1 (lightMatrix.Multiply c)
  rw [Matrix4.mul_Multiply]
  simp only [cropProjMatrix]
  rw [ox, oy, ow, hc, div_one, div_one]
  exact ⟨rfl, rfl⟩

/-- The crop matrix acts on a point (w = 1) by the scale and the offset in x
and y, and keeps it a point. -/
theorem cropMatrix_Multiply_point (lightMatrix : Matrix4 K) (frustum : Frustum K)
    (casters : List (SceneNode K)) (p : Vector4 K) (hp : p.w = 1) :
    ((cropMatrix lightMatrix frustum casters).Multiply p).x =
        2 / ((limitXY lightMatrix frustum casters).maxX -
            (limitXY lightMatrix frustum casters).minX) * p.x +
          -(1 / 2) * ((limitXY lightMatrix frustum casters).maxX +
            (limitXY lightMatrix frustum casters).minX) *
            (2 / ((limitXY lightMatrix frustum casters).maxX -
              (limitXY lightMatrix frustum casters).minX)) * 1 ∧
      ((cropMatrix lightMatrix frustum casters).Multiply p).y =
        2 / ((limitXY lightMatrix frustum casters).maxY -
            (limitXY lightMatrix frustum casters).minY) * p.y +
          -(1 / 2) * ((limitXY lightMatrix frustum casters).maxY +
            (limitXY lightMatrix frustum casters).minY) *
            (2 / ((limitXY lightMatrix frustum casters).maxY -
              (limitXY lightMatrix frustum casters).minY)) * 1 ∧
      ((cropMatrix lightMatrix frustum casters).Multiply p).w = 1 := by
  simp only [cropMatrix, cropScaleX, cropScaleY, Matrix4.Multiply, hp]
  refine ⟨?_, ?_, ?_⟩ <;> ring

/-- When the light view sends the frustum corners to points (w = 1), the
extrema of "limit xy" bracket the light-view x and y of every corner. -/
theorem limitXY_brackets (lightMatrix : Matrix4 K) (frustum : Frustum K)
    (casters : List (SceneNode K))
    (hw : ∀ c ∈ frustum.GetCurrentCorners, (lightMatrix.Multiply c).w = 1) :
    ∀ c ∈ frustum.GetCurrentCorners,
      (limitXY lightMatrix frustum casters).minX ≤ (lightMatrix.Multiply c).x ∧
      (lightMatrix.Multiply c).x ≤ (limitXY lightMatrix frustum casters).maxX ∧
      (limitXY lightMatrix frustum casters).minY ≤ (lightMatrix.Multiply c).y ∧
      (lightMatrix.Multiply c).y ≤ (limitXY lightMatrix frustum casters).maxY := by
  intro c hc
  obtain ⟨-, -, -, -, h⟩ := foldl_limitXYStep_bounds
    (cropProjMatrix lightMatrix frustum casters * lightMatrix) frustum.GetCurrentCorners
    { maxX := ((cropProjMatrix lightMatrix frustum casters * lightMatrix).Multiply frustum.c0).x /
        ((cropProjMatrix lightMatrix frustum casters * lightMatrix).Multiply frustum.c0).w
      minX := ((cropProjMatrix lightMatrix frustum casters * lightMatrix).Multiply frustum.c0).x /
        ((cropProjMatrix lightMatrix frustum casters * lightMatrix).Multiply frustum.c0).w
      maxY := ((cropProjMatrix lightMatrix frustum casters * lightMatrix).Multiply frustum.c0).y /
        ((cropProjMatrix lightMatrix frustum casters * lightMatrix).Multiply frustum.c0).w
      minY := ((cropProjMatrix lightMatrix frustum casters * lightMatrix).Multiply frustum.c0).y /
        ((cropProjMatrix lightMatrix frustum casters * lightMatrix).Multiply frustum.c0).w }
  have hcx : (limitXY lightMatrix frustum casters).minX ≤
        ((cropProjMatrix lightMatrix frustum casters * lightMatrix).Multiply c).x /
          ((cropProjMatrix lightMatrix frustum casters * lightMatrix).Multiply c).w ∧
      ((cropProjMatrix lightMatrix frustum casters * lightMatrix).Multiply c).x /
          ((cropProjMatrix lightMatrix frustum casters * lightMatrix).Multiply c).w ≤
        (limitXY lightMatrix frustum casters).maxX ∧
      (limitXY lightMatrix frustum casters).minY ≤
        ((cropProjMatrix lightMatrix frustum casters * lightMatrix).Multiply c).y /
          ((cropProjMatrix lightMatrix frustum casters * lightMatrix).Multiply c).w ∧
      ((cropProjMatrix lightMatrix frustum casters * lightMatrix).Multiply c).y /
          ((cropProjMatrix lightMatrix frustum casters * lightMatrix).Multiply c).w ≤
        (limitXY lightMatrix frustum casters).maxY := h c hc
  obtain ⟨ex, ey⟩ := mvp_Multiply_point lightMatrix frustum casters c (hw c hc)
  rw [ex, ey] at hcx
  exact hcx

/-- When the light view sends the frustum corners to points (w = 1) whose x
and y lie in `[lo, hi]`, so do the extrema of "limit xy". -/
theorem limitXY_within (lightMatrix : Matrix4 K) (frustum : Frustum K)
    (casters : List (SceneNode K)) (lo hi : K)
    (hw : ∀ c ∈ frustum.GetCurrentCorners, (lightMatrix.Multiply c).w = 1 ∧
      lo ≤ (lightMatrix.Multiply c).x ∧ (lightMatrix.Multiply c).x ≤ hi ∧
      lo ≤ (lightMatrix.Multiply c).y ∧ (lightMatrix.Multiply c).y ≤ hi) :
    lo ≤ (limitXY lightMatrix frustum casters).minX ∧
      (limitXY lightMatrix frustum casters).maxX ≤ hi ∧
      lo ≤ (limitXY lightMatrix frustum casters).minY ∧
      (limitXY lightMatrix frustum casters).maxY ≤ hi := by
  have key : ∀ c ∈ frustum.GetCurrentCorners,
      lo ≤ ((cropProjMatrix lightMatrix frustum casters * lightMatrix).Multiply c).x /
          ((cropProjMatrix lightMatrix frustum casters * lightMatrix).Multiply c).w ∧
        ((cropProjMatrix lightMatrix frustum casters * lightMatrix).Multiply c).x /
          ((cropProjMatrix lightMatrix frustum casters * lightMatrix).Multiply c).w ≤ hi ∧
        lo ≤ ((cropProjMatrix lightMatrix frustum casters * lightMatrix).Multiply c).y /
          ((cropProjMatrix lightMatrix frustum casters * lightMatrix).Multiply c).w ∧
        ((cropProjMatrix lightMatrix frustum casters * lightMatrix).Multiply c).y /
          ((cropProjMatrix lightMatrix frustum casters * lightMatrix).Multiply c).w ≤ hi := by
    intro c hc
    obtain ⟨ex, ey⟩ := mvp_Multiply_point lightMatrix frustum casters c (hw c hc).1
    rw [ex, ey]
    exact (hw c hc).2
  have h0 : frustum.c0 ∈ frustum.GetCurrentCorners := by simp [Frustum.GetCurrentCorners]
  obtain ⟨k1, k2, k3, k4⟩ := key frustum.c0 h0
  exact foldl_limitXYStep_within _ lo hi frustum.GetCurrentCorners _ ⟨k1, k2, k3, k4⟩ key

/-- The crop step in one coordinate: with `lo ≤ t ≤ hi` and `lo < hi` the
scaled and offset coordinate lies in `[-1, 1]`. -/
theorem crop_coordinate_bounds (lo hi t : K) (hlt : lo < hi) (h1 : lo ≤ t) (h2 : t ≤ hi) :
    -1 ≤ 2 / (hi - lo) * t + -(1 / 2) * (hi + lo) * (2 / (hi - lo)) * 1 ∧
      2 / (hi - lo) * t + -(1 / 2) * (hi + lo) * (2 / (hi - lo)) * 1 ≤ 1 := by
  have hd : 0 < hi - lo := sub_pos.mpr hlt
  have e : 2 / (hi - lo) * t + -(1 / 2) * (hi + lo) * (2 / (hi - lo)) * 1 =
      (2 * t - hi - lo) / (hi - lo) := by
    field_simp
    ring
  rw [e]
  constructor
  · rw [le_div_iff₀ hd]; linarith
  · rw [div_le_iff₀ hd]; linarith

/-- C4 (as amended): for a frustum whose corners the light view sends to
points inside `[-1,1]^3`, not all with the same x nor all with the same y, and
no casters, the returned matrix combined with the light view maps every
frustum corner to a point with X and Y in `[-1,1]`; the scale factors are
`2 / (maxX - minX)` and `2 / (maxY - minY)`, which are at least 1. -/
theorem GetCropMatrix_fits_unit_cube (lightMatrix : Matrix4 K) (frustum : Frustum K)
    (hcube : ∀ c ∈ frustum.GetCurrentCorners,
      (lightMatrix.Multiply c).w = 1 ∧
      -1 ≤ (lightMatrix.Multiply c).x ∧ (lightMatrix.Multiply c).x ≤ 1 ∧
      -1 ≤ (lightMatrix.Multiply c).y ∧ (lightMatrix.Multiply c).y ≤ 1 ∧
      -1 ≤ (lightMatrix.Multiply c).z ∧ (lightMatrix.Multiply c).z ≤ 1)
    (hx : ∃ c ∈ frustum.GetCurrentCorners, ∃ d ∈ frustum.GetCurrentCorners,
      (lightMatrix.Multiply c).x ≠ (lightMatrix.Multiply d).x)
    (hy : ∃ c ∈ frustum.GetCurrentCorners, ∃ d ∈ frustum.GetCurrentCorners,
      (lightMatrix.Multiply c).y ≠ (lightMatrix.Multiply d).y) :
    (∀ c ∈ frustum.GetCurrentCorners,
      ((GetCropMatrix lightMatrix frustum [] * lightMatrix).Multiply c).w = 1 ∧
      -1 ≤ ((GetCropMatrix lightMatrix frustum [] * lightMatrix).Multiply c).x ∧
      ((GetCropMatrix lightMatrix frustum [] * lightMatrix).Multiply c).x ≤ 1 ∧
      -1 ≤ ((GetCropMatrix lightMatrix frustum [] * lightMatrix).Multiply c).y ∧
      ((GetCropMatrix lightMatrix frustum [] * lightMatrix).Multiply c).y ≤ 1) ∧
    cropScaleX lightMatrix frustum [] =
      2 / ((limitXY lightMatrix frustum []).maxX - (limitXY lightMatrix frustum []).minX) ∧
    cropScaleY lightMatrix frustum [] =
      2 / ((limitXY lightMatrix frustum []).maxY - (limitXY lightMatrix frustum []).minY) ∧
    1 ≤ cropScaleX lightMatrix frustum [] ∧ 1 ≤ cropScaleY lightMatrix frustum [] := by
  have hw : ∀ c ∈ frustum.GetCurrentCorners, (lightMatrix.Multiply c).w = 1 :=
    fun c hc => (hcube c hc).1
  have hb := limitXY_brackets lightMatrix frustum [] hw
  obtain ⟨w1, w2, w3, w4⟩ := limitXY_within lightMatrix frustum [] (-1) 1
    (fun c hc => ⟨(hcube c hc).1, (hcube c hc).2.1, (hcube c hc).2.2.1,
      (hcube c hc).2.2.2.1, (hcube c hc).2.2.2.2.1⟩)
  have hxlt : (limitXY lightMatrix frustum []).minX < (limitXY lightMatrix frustum []).maxX := by
    obtain ⟨c, hc, d, hd, hne⟩ := hx
    rcases lt_or_gt_of_ne hne with h | h
    · exact lt_of_le_of_lt (hb c hc).1 (lt_of_lt_of_le h (hb d hd).2.1)
    · exact lt_of_le_of_lt (hb d hd).1 (lt_of_lt_of_le h (hb c hc).2.1)
  have hylt : (limitXY lightMatrix frustum []).minY < (limitXY lightMatrix frustum []).maxY := by
    obtain ⟨c, hc, d, hd, hne⟩ := hy
    rcases lt_or_gt_of_ne hne with h | h
    · exact lt_of_le_of_lt (hb c hc).2.2.1 (lt_of_lt_of_le h (hb d hd).2.2.2)
    · exact lt_of_le_of_lt (hb d hd).2.2.1 (lt_of_lt_of_le h (hb c hc).2.2.2)
  refine ⟨?_, rfl, rfl, ?_, ?_⟩
  · intro c hc
    obtain ⟨b1, b2, b3, b4⟩ := hb c hc
    obtain ⟨ox, oy, ow⟩ := ortho_unit_Multiply (limitZ lightMatrix frustum []).2
      (limitZ lightMatrix frustum []).1
      ((cropMatrix lightMatrix frustum []).Multiply (lightMatrix.Multiply c))
    obtain ⟨mx, my, mw⟩ := cropMatrix_Multiply_point lightMatrix frustum []
      (lightMatrix.Multiply c) (hw c hc)
    rw [Matrix4.mul_Multiply]
    simp only [GetCropMatrix]
    rw [Matrix4.mul_Multiply]
    simp only [cropProjMatrix]
    rw [ox, oy, ow, mx, my, mw]
    have cx := crop_coordinate_bounds _ _ _ hxlt b1 b2
    have cy := crop_coordinate_bounds _ _ _ hylt b3 b4
    exact ⟨rfl, cx.1, cx.2, cy.1, cy.2⟩
  · simp only [cropScaleX]
    rw [le_div_iff₀ (sub_pos.mpr hxlt)]
    linarith
  · simp only [cropScaleY]
    rw [le_div_iff₀ (sub_pos.mpr hylt)]
    linarith

/-- The fit of the quarter cube under the identity light view: the extrema
are -1/4 and 1/4 on both axes. -/
theorem limitXY_quarterCube :
    limitXY Matrix4.Identity quarterCubeFrustum [] =
      { minX := -1/4, maxX := 1/4, minY := -1/4, maxY := 1/4 } := by
  norm_num [limitXY, limitXYStep, cropProjMatrix, limitZ, limitZStep, Matrix4.OrthoOffCenter,
    Matrix4.Identity, Matrix4.Multiply, Matrix4.mul_def, Matrix4.mul, quarterCubeFrustum, pointQ,
    Frustum.GetCurrentCorners]

/-- The quarter cube satisfies the hypotheses of the fit theorem under the
identity light view. -/
theorem quarterCube_hypotheses :
    (∀ c ∈ quarterCubeFrustum.GetCurrentCorners,
      ((Matrix4.Identity : Matrix4 ℚ).Multiply c).w = 1 ∧
      -1 ≤ ((Matrix4.Identity : Matrix4 ℚ).Multiply c).x ∧
      ((Matrix4.Identity : Matrix4 ℚ).Multiply c).x ≤ 1 ∧
      -1 ≤ ((Matrix4.Identity : Matrix4 ℚ).Multiply c).y ∧
      ((Matrix4.Identity : Matrix4 ℚ).Multiply c).y ≤ 1 ∧
      -1 ≤ ((Matrix4.Identity : Matrix4 ℚ).Multiply c).z ∧
      ((Matrix4.Identity : Matrix4 ℚ).Multiply c).z ≤ 1) ∧
    (∃ c ∈ quarterCubeFrustum.GetCurrentCorners, ∃ d ∈ quarterCubeFrustum.GetCurrentCorners,
      ((Matrix4.Identity : Matrix4 ℚ).Multiply c).x ≠
        ((Matrix4.Identity : Matrix4 ℚ).Multiply d).x) ∧
    (∃ c ∈ quarterCubeFrustum.GetCurrentCorners, ∃ d ∈ quarterCubeFrustum.GetCurrentCorners,
      ((Matrix4.Identity : Matrix4 ℚ).Multiply c).y ≠
        ((Matrix4.Identity : Matrix4 ℚ).Multiply d).y) := by
  refine ⟨?_, ?_, ?_⟩
  · norm_num [quarterCubeFrustum, Frustum.GetCurrentCorners, pointQ, Matrix4.Identity,
      Matrix4.Multiply]
  · refine ⟨quarterCubeFrustum.c0, ?_, quarterCubeFrustum.c1, ?_, ?_⟩
    · simp [Frustum.GetCurrentCorners]
    · simp [Frustum.GetCurrentCorners]
    · norm_num [quarterCubeFrustum, pointQ, Matrix4.Identity, Matrix4.Multiply]
  · refine ⟨quarterCubeFrustum.c0, ?_, quarterCubeFrustum.c2, ?_, ?_⟩
    · simp [Frustum.GetCurrentCorners]
    · simp [Frustum.GetCurrentCorners]
    · norm_num [quarterCubeFrustum, pointQ, Matrix4.Identity, Matrix4.Multiply]

/-- Witness for C4 (as amended): the quarter cube under the identity light
view. -/
theorem GetCropMatrix_fits_unit_cube_witness :
    (∀ c ∈ quarterCubeFrustum.GetCurrentCorners,
      ((GetCropMatrix Matrix4.Identity quarterCubeFrustum [] * Matrix4.Identity).Multiply c).w
        = 1 ∧
      -1 ≤ ((GetCropMatrix Matrix4.Identity quarterCubeFrustum [] *
        Matrix4.Identity).Multiply c).x ∧
      ((GetCropMatrix Matrix4.Identity quarterCubeFrustum [] *
        Matrix4.Identity).Multiply c).x ≤ 1 ∧
      -1 ≤ ((GetCropMatrix Matrix4.Identity quarterCubeFrustum [] *
        Matrix4.Identity).Multiply c).y ∧
      ((GetCropMatrix Matrix4.Identity quarterCubeFrustum [] *
        Matrix4.Identity).Multiply c).y ≤ 1) ∧
    cropScaleX Matrix4.Identity quarterCubeFrustum [] =
      2 / ((limitXY Matrix4.Identity quarterCubeFrustum []).maxX -
        (limitXY Matrix4.Identity quarterCubeFrustum []).minX) ∧
    cropScaleY Matrix4.Identity quarterCubeFrustum [] =
      2 / ((limitXY Matrix4.Identity quarterCubeFrustum []).maxY -
        (limitXY Matrix4.Identity quarterCubeFrustum []).minY) ∧
    1 ≤ cropScaleX Matrix4.Identity quarterCubeFrustum [] ∧
    1 ≤ cropScaleY Matrix4.Identity quarterCubeFrustum [] :=
  GetCropMatrix_fits_unit_cube Matrix4.Identity quarterCubeFrustum
    quarterCube_hypotheses.1 quarterCube_hypotheses.2.1 quarterCube_hypotheses.2.2

/-- C4 (counterexample): the quarter cube lies inside `[-1,1]^3` under the
identity light view and has a non-degenerate extent, yet with no casters
both scale factors are 4, not within distance 1 of 1. -/
theorem cropScale_quarterCube_not_one :
    (∀ c ∈ quarterCubeFrustum.GetCurrentCorners,
      ((Matrix4.Identity : Matrix4 ℚ).Multiply c).w = 1 ∧
      -1 ≤ ((Matrix4.Identity : Matrix4 ℚ).Multiply c).x ∧
      ((Matrix4.Identity : Matrix4 ℚ).Multiply c).x ≤ 1 ∧
      -1 ≤ ((Matrix4.Identity : Matrix4 ℚ).Multiply c).y ∧
      ((Matrix4.Identity : Matrix4 ℚ).Multiply c).y ≤ 1 ∧
      -1 ≤ ((Matrix4.Identity : Matrix4 ℚ).Multiply c).z ∧
      ((Matrix4.Identity : Matrix4 ℚ).Multiply c).z ≤ 1) ∧
    (limitXY Matrix4.Identity quarterCubeFrustum []).maxX ≠
      (limitXY Matrix4.Identity quarterCubeFrustum []).minX ∧
    (limitXY Matrix4.Identity quarterCubeFrustum []).maxY ≠
      (limitXY Matrix4.Identity quarterCubeFrustum []).minY ∧
    cropScaleX Matrix4.Identity quarterCubeFrustum [] = 4 ∧
    cropScaleY Matrix4.Identity quarterCubeFrustum [] = 4 ∧
    ¬ (|cropScaleX Matrix4.Identity quarterCubeFrustum [] - 1| ≤ 1) ∧
    ¬ (|cropScaleY Matrix4.Identity quarterCubeFrustum [] - 1| ≤ 1) := by
  have hsx : cropScaleX Matrix4.Identity quarterCubeFrustum [] = 4 := by
    simp only [cropScaleX, limitXY_quarterCube]; norm_num
  have hsy : cropScaleY Matrix4.Identity quarterCubeFrustum [] = 4 := by
    simp only [cropScaleY, limitXY_quarterCube]; norm_num
  refine ⟨quarterCube_hypotheses.1, ?_, ?_, hsx, hsy, ?_, ?_⟩
  · rw [limitXY_quarterCube]; norm_num
  · rw [limitXY_quarterCube]; norm_num
  · rw [hsx]; norm_num
  · rw [hsy]; norm_num

end CropTheorems


section RotationTheorems

open MathUtil

/-- The argument `rad * .5f` is half the angle. -/
theorem half_literal (θ : ℝ) : θ * 0.5 = θ / 2 := by
  norm_num
  ring

/-- C9 (as amended): for a quaternion with 1 - w * w ≤ 0, QuatToAxisRad
returns the axis (1, 0, 0) and the angle 2 * acos(w), whatever the math
library's sqrt is (the branch neither calls it nor divides); over the reals
the angle is 0 when w = 1 and 2π when w = -1. -/
theorem QuatToAxisRad_no_rotation (q : Quaternion ℝ) (h : 1 - q.w * q.w ≤ 0) :
    (∀ m : CMath ℝ, QuatToAxisRad m q = ⟨1, 0, 0, m.acos q.w * 2⟩) ∧
      (q.w = 1 → QuatToAxisRad realMath q = ⟨1, 0, 0, 0⟩) ∧
      (q.w = -1 → QuatToAxisRad realMath q = ⟨1, 0, 0, 2 * Real.pi⟩) := by
  have hgen : ∀ m : CMath ℝ, QuatToAxisRad m q = ⟨1, 0, 0, m.acos q.w * 2⟩ := by
    intro m
    simp only [QuatToAxisRad]
    rw [if_pos h]
  refine ⟨hgen, ?_, ?_⟩
  · intro hw
    rw [hgen realMath, hw]
    simp [realMath]
  · intro hw
    rw [hgen realMath, hw]
    simp only [realMath, Real.arccos_neg_one]
    rw [mul_comm]

/-- Witness for C9 (as amended): the identity quaternion (0, 0, 0, 1). -/
theorem QuatToAxisRad_no_rotation_witness :
    (1 - (1 : ℝ) * 1 ≤ 0) ∧
    (∀ m : CMath ℝ, QuatToAxisRad m (⟨0, 0, 0, 1⟩ : Quaternion ℝ) = ⟨1, 0, 0, m.acos 1 * 2⟩) ∧
    QuatToAxisRad realMath (⟨0, 0, 0, 1⟩ : Quaternion ℝ) = ⟨1, 0, 0, 0⟩ :=
  ⟨by norm_num,
    (QuatToAxisRad_no_rotation ⟨0, 0, 0, 1⟩ (by norm_num)).1,
    (QuatToAxisRad_no_rotation ⟨0, 0, 0, 1⟩ (by norm_num)).2.1 rfl⟩

/-- C9 (counterexample): the unit quaternion (0, 0, 0, -1) has 1 - w * w ≤ 0,
and QuatToAxisRad returns for it the angle 2π, not 0. -/
theorem QuatToAxisRad_minus_one :
    (1 - (-1 : ℝ) * (-1) ≤ 0) ∧
    QuatToAxisRad realMath (⟨0, 0, 0, -1⟩ : Quaternion ℝ) = ⟨1, 0, 0, 2 * Real.pi⟩ ∧
    (QuatToAxisRad realMath (⟨0, 0, 0, -1⟩ : Quaternion ℝ)).w ≠ 0 := by
  have h : (1 - (-1 : ℝ) * (-1) ≤ 0) := by norm_num
  have e : QuatToAxisRad realMath (⟨0, 0, 0, -1⟩ : Quaternion ℝ) = ⟨1, 0, 0, 2 * Real.pi⟩ := by
    simp only [QuatToAxisRad]
    rw [if_pos h]
    simp only [realMath, Real.arccos_neg_one]
    rw [mul_comm]
  refine ⟨h, e, ?_⟩
  rw [e]
  exact (mul_pos two_pos Real.pi_pos).ne'

end RotationTheorems

section ConeTheorems

open MathUtil

/-- The cone test, read off the source: the three comparisons of line 141. -/
theorem PointInCone_eq_true_iff {K : Type} [LinearOrderedField K] (m : CMath K)
    (coneCenter coneDir : Vector4 K) (height theta : K) (point : Vector4 K) :
    PointInCone m coneCenter coneDir height theta point = true ↔
      0 ≤ coneDir.dot (point - coneCenter) ∧
      m.cos theta * m.cos theta * ((point - coneCenter).dot (point - coneCenter)) ≤
        coneDir.dot (point - coneCenter) * coneDir.dot (point - coneCenter) ∧
      ((point - coneCenter).Project coneDir).SquareLength ≤ height * height := by
  simp only [PointInCone, ge_iff_le]
  split_ifs with h
  · simp only [true_iff]; exact h
  · simp only [Bool.false_eq_true, false_iff]; exact h

/-- The dot product is symmetric. -/
theorem Vector4.dot_comm {K : Type} [LinearOrderedField K] (a b : Vector4 K) :
    a.dot b = b.dot a := by
  simp only [Vector4.dot]; ring

/-- The squared length of the projection onto a unit vector is the squared dot
product. -/
theorem Vector4.SquareLength_Project {K : Type} [LinearOrderedField K] (u d : Vector4 K)
    (hd : d.SquareLength = 1) : (u.Project d).SquareLength = u.dot d * u.dot d := by
  have hdd : d.dot d = 1 := hd
  have hd1 : d.x * d.x + d.y * d.y + d.z * d.z = 1 := hd
  simp only [Vector4.Project, Vector4.SquareLength, hdd, div_one]
  linear_combination (u.dot d * u.dot d) * hd1

/-- The inequality of Cauchy and Schwarz for the spatial parts. -/
theorem Vector4.dot_sq_le (u d : Vector4 ℝ) :
    u.dot d * u.dot d ≤ u.SquareLength * d.SquareLength := by
  simp only [Vector4.dot, Vector4.SquareLength]
  nlinarith [sq_nonneg (u.x * d.y - u.y * d.x), sq_nonneg (u.x * d.z - u.z * d.x),
    sq_nonneg (u.y * d.z - u.z * d.y)]

/-- The squared-cosine comparison of the source against the angle: for
`0 ≤ D ≤ √U` and `θ` in `[0, π/2]`, `cos²θ · U ≤ D²` holds exactly when
`D = √U cos α` for some `α` in `[0, θ]`. -/
theorem cos_sq_compare_iff (D U θ : ℝ) (hU : 0 ≤ U) (hCS : D * D ≤ U) (hD : 0 ≤ D)
    (h0 : 0 ≤ θ) (h1 : θ ≤ Real.pi / 2) :
    Real.cos θ * Real.cos θ * U ≤ D * D ↔
      ∃ α : ℝ, 0 ≤ α ∧ α ≤ θ ∧ D = Real.sqrt U * Real.cos α := by
  have hcθ : 0 ≤ Real.cos θ :=
    Real.cos_nonneg_of_mem_Icc ⟨by linarith [Real.pi_pos], h1⟩
  have hsU : 0 ≤ Real.sqrt U := Real.sqrt_nonneg U
  have hsq : Real.sqrt U * Real.sqrt U = U := Real.mul_self_sqrt hU
  constructor
  · intro h
    by_cases hU0 : U = 0
    · refine ⟨0, le_refl 0, h0, ?_⟩
      have hD0 : D = 0 := by nlinarith
      simp [hU0, hD0]
    · have hUpos : 0 < U := lt_of_le_of_ne hU (Ne.symm hU0)
      have hsUpos : 0 < Real.sqrt U := Real.sqrt_pos.mpr hUpos
      have hDle : D ≤ Real.sqrt U := by
        by_contra hlt
        push_neg at hlt
        have := mul_self_lt_mul_self hsU hlt
        linarith
      have hge : Real.cos θ * Real.sqrt U ≤ D := by
        by_contra hlt
        push_neg at hlt
        have := mul_self_lt_mul_self hD hlt
        nlinarith
      have hr1 : D / Real.sqrt U ≤ 1 := (div_le_one hsUpos).mpr hDle
      have hr0 : 0 ≤ D / Real.sqrt U := div_nonneg hD hsU
      have hrθ : Real.cos θ ≤ D / Real.sqrt U := (le_div_iff₀ hsUpos).mpr hge
      refine ⟨Real.arccos (D / Real.sqrt U), Real.arccos_nonneg _, ?_, ?_⟩
      · have hmono := Real.strictAntiOn_arccos.antitoneOn
          (Set.mem_Icc.mpr ⟨by linarith [Real.neg_one_le_cos θ], Real.cos_le_one θ⟩)
          (Set.mem_Icc.mpr ⟨by linarith, hr1⟩) hrθ
        rwa [Real.arccos_cos h0 (by linarith [Real.pi_pos])] at hmono
      · rw [Real.cos_arccos (by linarith) hr1]
        field_simp
  · rintro ⟨α, hα0, hαθ, hDα⟩
    have hcos : Real.cos θ ≤ Real.cos α :=
      Real.cos_le_cos_of_nonneg_of_le_pi hα0 (by linarith [Real.pi_pos]) hαθ
    have hmul : Real.cos θ * Real.cos θ ≤ Real.cos α * Real.cos α :=
      mul_self_le_mul_self hcθ hcos
    have : D * D = Real.cos α * Real.cos α * U := by
      rw [hDα]; linear_combination (Real.cos α * Real.cos α) * hsq
    rw [this]
    exact mul_le_mul_of_nonneg_right hmul hU

/-- C6: for a unit-length coneDir, height ≥ 0 and halfAngle in [0, π/2],
PointInCone is true exactly when the offset from the apex has a non-negative
dot product with coneDir, makes an angle of at most halfAngle with it, and
has a projection onto it of length at most height. With height 10 and
halfAngle 30°: the point 5 along the axis is inside, the point 15 along the
axis is outside, and a point at distance 5 from the apex, 45° off the axis,
is outside. -/
theorem PointInCone_iff (apex coneDir point : Vector4 ℝ) (height halfAngle : ℝ)
    (hunit : coneDir.SquareLength = 1) (hh : 0 ≤ height)
    (h0 : 0 ≤ halfAngle) (h1 : halfAngle ≤ Real.pi / 2) :
    (PointInCone realMath apex coneDir height halfAngle point = true ↔
      0 ≤ (point - apex).dot coneDir ∧
      angleAtMost (point - apex) coneDir halfAngle ∧
      Real.sqrt ((point - apex).Project coneDir).SquareLength ≤ height) ∧
    PointInCone realMath apex coneDir 10 (Real.pi / 6)
      ⟨apex.x + 5 * coneDir.x, apex.y + 5 * coneDir.y, apex.z + 5 * coneDir.z, apex.w⟩ = true ∧
    PointInCone realMath apex coneDir 10 (Real.pi / 6)
      ⟨apex.x + 15 * coneDir.x, apex.y + 15 * coneDir.y, apex.z + 15 * coneDir.z, apex.w⟩
        = false ∧
    (∀ q : Vector4 ℝ, (q - apex).SquareLength = 5 * 5 →
      (q - apex).dot coneDir = 5 * 1 * Real.cos (Real.pi / 4) →
      PointInCone realMath apex coneDir 10 (Real.pi / 6) q = false) := by
  have hd1 : coneDir.x * coneDir.x + coneDir.y * coneDir.y + coneDir.z * coneDir.z = 1 := hunit
  refine ⟨?_, ?_, ?_, ?_⟩
  · rw [PointInCone_eq_true_iff, Vector4.SquareLength_Project _ _ hunit,
      Vector4.dot_comm coneDir (point - apex)]
    have hU : 0 ≤ (point - apex).SquareLength := by
      simp only [Vector4.SquareLength]
      nlinarith [mul_self_nonneg (point - apex).x, mul_self_nonneg (point - apex).y,
        mul_self_nonneg (point - apex).z]
    have hCS : (point - apex).dot coneDir * (point - apex).dot coneDir ≤
        (point - apex).SquareLength := by
      have := Vector4.dot_sq_le (point - apex) coneDir
      rwa [hunit, mul_one] at this
    have hUU : (point - apex).dot (point - apex) = (point - apex).SquareLength := rfl
    rw [hUU]
    have hproj : Real.sqrt ((point - apex).dot coneDir * (point - apex).dot coneDir) ≤ height ↔
        (point - apex).dot coneDir * (point - apex).dot coneDir ≤ height * height := by
      rw [Real.sqrt_le_left hh, sq]
    constructor
    · rintro ⟨a, b, c⟩
      refine ⟨a, ?_, hproj.mpr c⟩
      obtain ⟨α, hα0, hαθ, hα⟩ :=
        (cos_sq_compare_iff _ _ _ hU hCS a h0 h1).mp b
      exact ⟨α, hα0, hαθ, by rw [hunit, Real.sqrt_one, mul_one]; exact hα⟩
    · rintro ⟨a, ⟨α, hα0, hαθ, hα⟩, c⟩
      refine ⟨a, ?_, hproj.mp c⟩
      refine (cos_sq_compare_iff _ _ _ hU hCS a h0 h1).mpr ⟨α, hα0, hαθ, ?_⟩
      rw [hunit, Real.sqrt_one, mul_one] at hα
      exact hα
  · rw [PointInCone_eq_true_iff, Vector4.SquareLength_Project _ _ hunit]
    have hc := Real.cos_sq_le_one (Real.pi / 6)
    have hdot : coneDir.dot ((⟨apex.x + 5 * coneDir.x, apex.y + 5 * coneDir.y,
        apex.z + 5 * coneDir.z, apex.w⟩ : Vector4 ℝ) - apex) = 5 := by
      show coneDir.dot (Vector4.sub _ apex) = 5
      simp only [Vector4.dot, Vector4.sub]
      linear_combination 5 * hd1
    have hsq : ((⟨apex.x + 5 * coneDir.x, apex.y + 5 * coneDir.y,
        apex.z + 5 * coneDir.z, apex.w⟩ : Vector4 ℝ) - apex).dot
        ((⟨apex.x + 5 * coneDir.x, apex.y + 5 * coneDir.y,
        apex.z + 5 * coneDir.z, apex.w⟩ : Vector4 ℝ) - apex) = 25 := by
      show (Vector4.sub _ apex).dot (Vector4.sub _ apex) = 25
      simp only [Vector4.dot, Vector4.sub]
      linear_combination 25 * hd1
    rw [Vector4.dot_comm _ coneDir, hdot, hsq]
    simp only [realMath]
    refine ⟨by norm_num, ?_, by norm_num⟩
    nlinarith
  · rw [Bool.eq_false_iff, Ne, PointInCone_eq_true_iff,
      Vector4.SquareLength_Project _ _ hunit]
    have hdot : coneDir.dot ((⟨apex.x + 15 * coneDir.x, apex.y + 15 * coneDir.y,
        apex.z + 15 * coneDir.z, apex.w⟩ : Vector4 ℝ) - apex) = 15 := by
      show coneDir.dot (Vector4.sub _ apex) = 15
      simp only [Vector4.dot, Vector4.sub]
      linear_combination 15 * hd1
    rw [Vector4.dot_comm _ coneDir, hdot]
    rintro ⟨-, -, h3⟩
    norm_num at h3
  · intro q hq hqd
    rw [Bool.eq_false_iff, Ne, PointInCone_eq_true_iff]
    rintro ⟨-, h2, -⟩
    have hUU : (q - apex).dot (q - apex) = (q - apex).SquareLength := rfl
    rw [hUU, hq, Vector4.dot_comm coneDir, hqd] at h2
    simp only [realMath, Real.cos_pi_div_six, Real.cos_pi_div_four] at h2
    have h3 : Real.sqrt 3 * Real.sqrt 3 = 3 := Real.mul_self_sqrt (by norm_num)
    have h2' : Real.sqrt 2 * Real.sqrt 2 = 2 := Real.mul_self_sqrt (by norm_num)
    nlinarith

/-- Witness for C6: the cone with apex 0 along the x axis, of height 10 and
half angle 30°, and the point (5, 0, 0). -/
theorem PointInCone_iff_witness :
    (⟨1, 0, 0, 0⟩ : Vector4 ℝ).SquareLength = 1 ∧ (0 : ℝ) ≤ 10 ∧
    0 ≤ Real.pi / 6 ∧ Real.pi / 6 ≤ Real.pi / 2 ∧
    (PointInCone realMath ⟨0, 0, 0, 1⟩ ⟨1, 0, 0, 0⟩ 10 (Real.pi / 6) ⟨5, 0, 0, 1⟩ = true ↔
      0 ≤ ((⟨5, 0, 0, 1⟩ : Vector4 ℝ) - ⟨0, 0, 0, 1⟩).dot ⟨1, 0, 0, 0⟩ ∧
      angleAtMost ((⟨5, 0, 0, 1⟩ : Vector4 ℝ) - ⟨0, 0, 0, 1⟩) ⟨1, 0, 0, 0⟩ (Real.pi / 6) ∧
      Real.sqrt (((⟨5, 0, 0, 1⟩ : Vector4 ℝ) - ⟨0, 0, 0, 1⟩).Project
        ⟨1, 0, 0, 0⟩).SquareLength ≤ 10) :=
  ⟨by norm_num [Vector4.SquareLength], by norm_num, by positivity, by linarith [Real.pi_pos],
    (PointInCone_iff ⟨0, 0, 0, 1⟩ ⟨1, 0, 0, 0⟩ ⟨5, 0, 0, 1⟩ 10 (Real.pi / 6)
      (by norm_num [Vector4.SquareLength]) (by norm_num)
      (by positivity) (by linarith [Real.pi_pos])).1⟩

end ConeTheorems

section EulerAlgebra

/-- A unit vector `(cu, su)` whose double angle is that of `(α, β)` is
`(α, β)` scaled to unit length, up to sign: with `P > 0` and
`P² = α² + β²`, either `P (cu, su) = (α, β)` or `P (cu, su) = -(α, β)`. -/
theorem half_angle_sign (cu su α β P : ℝ) (hP : 0 < P)
    (hunit : cu * cu + su * su = 1) (hn : P * P = α * α + β * β)
    (hc : (cu * cu - su * su) * (α * α + β * β) = α * α - β * β)
    (hs : 2 * cu * su * (α * α + β * β) = 2 * α * β) :
    (P * cu = α ∧ P * su = β) ∨ (P * cu = -α ∧ P * su = -β) := by
  have hnpos : 0 < α * α + β * β := by rw [← hn]; exact mul_pos hP hP
  have hcross0 : (cu * β - su * α) ^ 2 * (2 * (α * α + β * β)) = 0 := by
    linear_combination ((α * α + β * β) * (α * α + β * β)) * hunit - (α * α - β * β) * hc
      - (2 * α * β) * hs
  have hcross : cu * β - su * α = 0 := by
    rcases mul_eq_zero.mp hcross0 with h | h
    · exact pow_eq_zero_iff (by norm_num) |>.mp h
    · linarith
  have hk : (cu * α + su * β) * (cu * α + su * β) = P * P := by
    rw [hn]
    linear_combination (α * α + β * β) * hunit - (cu * β - su * α) * hcross
  have hcuP : cu * (P * P) = α * (cu * α + su * β) := by
    rw [hn]; linear_combination β * hcross
  have hsuP : su * (P * P) = β * (cu * α + su * β) := by
    rw [hn]; linear_combination (-α) * hcross
  have hk2 : (cu * α + su * β - P) * (cu * α + su * β + P) = 0 := by
    linear_combination hk
  have hPne : P ≠ 0 := hP.ne'
  rcases mul_eq_zero.mp hk2 with h | h
  · left
    have hkP : cu * α + su * β = P := by linarith
    rw [hkP] at hcuP hsuP
    constructor
    · have : (P * cu) * P = α * P := by linear_combination hcuP
      exact mul_right_cancel₀ hPne this
    · have : (P * su) * P = β * P := by linear_combination hsuP
      exact mul_right_cancel₀ hPne this
  · right
    have hkP : cu * α + su * β = -P := by linarith
    rw [hkP] at hcuP hsuP
    constructor
    · have : (P * cu) * P = (-α) * P := by linear_combination hcuP
      exact mul_right_cancel₀ hPne this
    · have : (P * su) * P = (-β) * P := by linear_combination hsuP
      exact mul_right_cancel₀ hPne this

/-- The algebraic core of the Euler round trip. The half-angle cosines and
sines of yaw (`cx, sx`), pitch (`cy, sy`) and roll (`cz, sz`), a unit
quaternion `q` and `R = cos roll > 0` are related as the source's atan2 and
asin calls relate them; then the quaternion assembled by EulerRadToQuat is
`q` or `-q`. -/
theorem euler_quat_core (cx sx cy sy cz sz qx qy qz qw R : ℝ)
    (hx : cx * cx + sx * sx = 1) (hy : cy * cy + sy * sy = 1) (hz : cz * cz + sz * sz = 1)
    (hq : qx * qx + qy * qy + qz * qz + qw * qw = 1)
    (hR : 0 < R) (hcz : 0 < cz)
    (hA : (cx * cx - sx * sx) * R = qw * qw + qx * qx - qy * qy - qz * qz)
    (hC : 2 * sx * cx * R = 2 * (qy * qw - qx * qz))
    (hD : (cy * cy - sy * sy) * R = qw * qw - qx * qx + qy * qy - qz * qz)
    (hE : 2 * sy * cy * R = 2 * (qx * qw - qy * qz))
    (hG : 2 * sz * cz = 2 * (qx * qy + qz * qw))
    (hRz : cz * cz - sz * sz = R) :
    (sx * sz * cy + cx * cz * sy = qx ∧ sx * cz * cy + cx * sz * sy = qy ∧
      cx * sz * cy - sx * cz * sy = qz ∧ cx * cz * cy - sx * sz * sy = qw) ∨
    (sx * sz * cy + cx * cz * sy = -qx ∧ sx * cz * cy + cx * sz * sy = -qy ∧
      cx * sz * cy - sx * cz * sy = -qz ∧ cx * cz * cy - sx * sz * sy = -qw) := by
  -- the two complex numbers ζ = (qw + qz) + (qy + qx) i and η = (qw - qz) + (qy - qx) i
  have hP2 : (cz + sz) * (cz + sz) = (qw + qz) * (qw + qz) + (qy + qx) * (qy + qx) := by
    linear_combination hz + hG - hq
  have hM2 : (cz - sz) * (cz - sz) = (qw - qz) * (qw - qz) + (qy - qx) * (qy - qx) := by
    linear_combination hz - hG - hq
  have hPM : (cz + sz) * (cz - sz) = R := by linear_combination hRz
  have hPpos : 0 < cz + sz := by
    by_contra hle
    push_neg at hle
    have hMpos : 0 < cz - sz := by linarith
    have := mul_nonpos_of_nonpos_of_nonneg hle hMpos.le
    linarith
  have hMpos : 0 < cz - sz := by
    by_contra hle
    push_neg at hle
    have := mul_nonpos_of_nonneg_of_nonpos hPpos.le hle
    linarith
  have hRR : R * R = ((cz + sz) * (cz + sz)) * ((cz - sz) * (cz - sz)) := by
    rw [← hPM]; ring
  have hMM : (cz - sz) * (cz - sz) ≠ 0 := (mul_pos hMpos hMpos).ne'
  have hPP : (cz + sz) * (cz + sz) ≠ 0 := (mul_pos hPpos hPpos).ne'
  -- double angles of u = (yaw + pitch) / 2
  have huc : ((cx * cy - sx * sy) * (cx * cy - sx * sy) -
      (sx * cy + cx * sy) * (sx * cy + cx * sy)) *
      ((qw + qz) * (qw + qz) + (qy + qx) * (qy + qx)) =
      (qw + qz) * (qw + qz) - (qy + qx) * (qy + qx) := by
    have key : (((cx * cy - sx * sy) * (cx * cy - sx * sy) -
        (sx * cy + cx * sy) * (sx * cy + cx * sy)) *
        ((qw + qz) * (qw + qz) + (qy + qx) * (qy + qx))) * ((cz - sz) * (cz - sz)) =
        ((qw + qz) * (qw + qz) - (qy + qx) * (qy + qx)) * ((cz - sz) * (cz - sz)) := by
      rw [← hP2, mul_assoc, ← hRR]
      linear_combination ((cy * cy - sy * sy) * R) * hA +
        (qw * qw + qx * qx - qy * qy - qz * qz) * hD -
        (2 * sy * cy * R) * hC - (2 * (qy * qw - qx * qz)) * hE -
        ((qw + qz) * (qw + qz) - (qy + qx) * (qy + qx)) * hM2
    exact mul_right_cancel₀ hMM key
  have hus : 2 * (cx * cy - sx * sy) * (sx * cy + cx * sy) *
      ((qw + qz) * (qw + qz) + (qy + qx) * (qy + qx)) = 2 * (qw + qz) * (qy + qx) := by
    have key : (2 * (cx * cy - sx * sy) * (sx * cy + cx * sy) *
        ((qw + qz) * (qw + qz) + (qy + qx) * (qy + qx))) * ((cz - sz) * (cz - sz)) =
        (2 * (qw + qz) * (qy + qx)) * ((cz - sz) * (cz - sz)) := by
      rw [← hP2, mul_assoc, ← hRR]
      linear_combination ((cy * cy - sy * sy) * R) * hC +
        (2 * (qy * qw - qx * qz)) * hD +
        (2 * sy * cy * R) * hA + (qw * qw + qx * qx - qy * qy - qz * qz) * hE -
        (2 * (qw + qz) * (qy + qx)) * hM2
    exact mul_right_cancel₀ hMM key
  -- double angles of v = (yaw - pitch) / 2
  have hvc : ((cx * cy + sx * sy) * (cx * cy + sx * sy) -
      (sx * cy - cx * sy) * (sx * cy - cx * sy)) *
      ((qw - qz) * (qw - qz) + (qy - qx) * (qy - qx)) =
      (qw - qz) * (qw - qz) - (qy - qx) * (qy - qx) := by
    have key : (((cx * cy + sx * sy) * (cx * cy + sx * sy) -
        (sx * cy - cx * sy) * (sx * cy - cx * sy)) *
        ((qw - qz) * (qw - qz) + (qy - qx) * (qy - qx))) * ((cz + sz) * (cz + sz)) =
        ((qw - qz) * (qw - qz) - (qy - qx) * (qy - qx)) * ((cz + sz) * (cz + sz)) := by
      rw [← hM2, mul_assoc, mul_comm ((cz - sz) * (cz - sz)), ← hRR]
      linear_combination ((cy * cy - sy * sy) * R) * hA +
        (qw * qw + qx * qx - qy * qy - qz * qz) * hD +
        (2 * sy * cy * R) * hC + (2 * (qy * qw - qx * qz)) * hE -
        ((qw - qz) * (qw - qz) - (qy - qx) * (qy - qx)) * hP2
    exact mul_right_cancel₀ hPP key
  have hvs : 2 * (cx * cy + sx * sy) * (sx * cy - cx * sy) *
      ((qw - qz) * (qw - qz) + (qy - qx) * (qy - qx)) = 2 * (qw - qz) * (qy - qx) := by
    have key : (2 * (cx * cy + sx * sy) * (sx * cy - cx * sy) *
        ((qw - qz) * (qw - qz) + (qy - qx) * (qy - qx))) * ((cz + sz) * (cz + sz)) =
        (2 * (qw - qz) * (qy - qx)) * ((cz + sz) * (cz + sz)) := by
      rw [← hM2, mul_assoc, mul_comm ((cz - sz) * (cz - sz)), ← hRR]
      linear_combination ((cy * cy - sy * sy) * R) * hC +
        (2 * (qy * qw - qx * qz)) * hD -
        (2 * sy * cy * R) * hA - (qw * qw + qx * qx - qy * qy - qz * qz) * hE -
        (2 * (qw - qz) * (qy - qx)) * hP2
    exact mul_right_cancel₀ hPP key
  have hu1 : (cx * cy - sx * sy) * (cx * cy - sx * sy) +
      (sx * cy + cx * sy) * (sx * cy + cx * sy) = 1 := by
    linear_combination (cy * cy + sy * sy) * hx + hy
  have hv1 : (cx * cy + sx * sy) * (cx * cy + sx * sy) +
      (sx * cy - cx * sy) * (sx * cy - cx * sy) = 1 := by
    linear_combination (cy * cy + sy * sy) * hx + hy
  have hU := half_angle_sign _ _ _ _ _ hPpos hu1 hP2 huc hus
  have hV := half_angle_sign _ _ _ _ _ hMpos hv1 hM2 hvc hvs
  -- cos yaw and sin yaw through u and v
  have hch : (cx * cx - sx * sx) * R =
      ((cz + sz) * (cx * cy - sx * sy)) * ((cz - sz) * (cx * cy + sx * sy)) -
      ((cz + sz) * (sx * cy + cx * sy)) * ((cz - sz) * (sx * cy - cx * sy)) := by
    rw [← hPM]
    linear_combination (-(cx * cx - sx * sx) * ((cz + sz) * (cz - sz))) * hy
  have hsh : 2 * sx * cx * R =
      ((cz + sz) * (sx * cy + cx * sy)) * ((cz - sz) * (cx * cy + sx * sy)) +
      ((cz + sz) * (cx * cy - sx * sy)) * ((cz - sz) * (sx * cy - cx * sy)) := by
    rw [← hPM]
    linear_combination (-(2 * sx * cx) * ((cz + sz) * (cz - sz))) * hy
  have hAC : (qw * qw + qx * qx - qy * qy - qz * qz) ^ 2 + (2 * (qy * qw - qx * qz)) ^ 2 =
      R * R := by
    rw [← hA, ← hC]
    linear_combination (R * R * (cx * cx + sx * sx + 1)) * hx
  have hRRpos : 0 < R * R := mul_pos hR hR
  rcases hU with ⟨u1, u2⟩ | ⟨u1, u2⟩ <;> rcases hV with ⟨v1, v2⟩ | ⟨v1, v2⟩
  · left
    refine ⟨?_, ?_, ?_, ?_⟩
    · linear_combination (1 / 2) * u2 - (1 / 2) * v2
    · linear_combination (1 / 2) * u2 + (1 / 2) * v2
    · linear_combination (1 / 2) * u1 - (1 / 2) * v1
    · linear_combination (1 / 2) * u1 + (1 / 2) * v1
  · exfalso
    rw [u1, u2, v1, v2] at hch hsh
    have hA0 : qw * qw + qx * qx - qy * qy - qz * qz = 0 := by
      linear_combination (1 / 2) * hch - (1 / 2) * hA
    have hC0 : 2 * (qy * qw - qx * qz) = 0 := by
      linear_combination (1 / 2) * hsh - (1 / 2) * hC
    rw [hA0, hC0] at hAC
    norm_num at hAC
    linarith
  · exfalso
    rw [u1, u2, v1, v2] at hch hsh
    have hA0 : qw * qw + qx * qx - qy * qy - qz * qz = 0 := by
      linear_combination (1 / 2) * hch - (1 / 2) * hA
    have hC0 : 2 * (qy * qw - qx * qz) = 0 := by
      linear_combination (1 / 2) * hsh - (1 / 2) * hC
    rw [hA0, hC0] at hAC
    norm_num at hAC
    linarith
  · right
    refine ⟨?_, ?_, ?_, ?_⟩
    · linear_combination (1 / 2) * u2 - (1 / 2) * v2
    · linear_combination (1 / 2) * u2 + (1 / 2) * v2
    · linear_combination (1 / 2) * u1 - (1 / 2) * v1
    · linear_combination (1 / 2) * u1 + (1 / 2) * v1

end EulerAlgebra

section EulerTheorems

open MathUtil

/-- Away from the two poles AxisRadToEulerRad takes its third branch. -/
theorem AxisRadToEulerRad_regular {K : Type} [LinearOrderedField K] (m : CMath K)
    (eulerRadian0 axis : Vector4 K) (rad : K)
    (hn : ¬ (axis.x * axis.y * (1 - m.cos rad) + axis.z * m.sin rad > 0.998))
    (hs : ¬ (axis.x * axis.y * (1 - m.cos rad) + axis.z * m.sin rad < -0.998)) :
    AxisRadToEulerRad m eulerRadian0 axis rad =
      ⟨m.atan2 (axis.y * m.sin rad - axis.x * axis.z * (1 - m.cos rad))
          (1 - (axis.y * axis.y + axis.z * axis.z) * (1 - m.cos rad)),
        m.atan2 (axis.x * m.sin rad - axis.y * axis.z * (1 - m.cos rad))
          (1 - (axis.x * axis.x + axis.z * axis.z) * (1 - m.cos rad)),
        m.asin (axis.x * axis.y * (1 - m.cos rad) + axis.z * m.sin rad),
        eulerRadian0.w⟩ := by
  simp only [AxisRadToEulerRad]
  rw [if_neg hn, if_neg hs]

/-- The half-angle cosine and sine of `atan2 C A` when `A² + C² = R²` with
`R > 0`: the double-angle values are `A / R` and `C / R`. -/
theorem atan2_half_angle (A C R : ℝ) (hR : 0 < R) (hAC : A * A + C * C = R * R) :
    (Real.cos (realMath.atan2 C A / 2) * Real.cos (realMath.atan2 C A / 2) -
        Real.sin (realMath.atan2 C A / 2) * Real.sin (realMath.atan2 C A / 2)) * R = A ∧
      2 * Real.sin (realMath.atan2 C A / 2) * Real.cos (realMath.atan2 C A / 2) * R = C := by
  have habs : Complex.abs ⟨A, C⟩ = R := by
    rw [Complex.abs_apply, Complex.normSq_mk, hAC, Real.sqrt_mul_self hR.le]
  have hne : (⟨A, C⟩ : ℂ) ≠ 0 := by
    intro h0
    rw [h0, map_zero] at habs
    exact hR.ne habs
  have hcos : Real.cos (Complex.arg ⟨A, C⟩) = A / R := by
    rw [Complex.cos_arg hne, habs]
  have hsin : Real.sin (Complex.arg ⟨A, C⟩) = C / R := by
    rw [Complex.sin_arg, habs]
  have hc2 := Real.cos_two_mul' (Complex.arg ⟨A, C⟩ / 2)
  have hs2 := Real.sin_two_mul (Complex.arg ⟨A, C⟩ / 2)
  rw [mul_div_cancel₀ _ (two_ne_zero)] at hc2 hs2
  rw [hcos] at hc2
  rw [hsin] at hs2
  have hRne : R ≠ 0 := hR.ne'
  show (Real.cos (Complex.arg ⟨A, C⟩ / 2) * Real.cos (Complex.arg ⟨A, C⟩ / 2) -
        Real.sin (Complex.arg ⟨A, C⟩ / 2) * Real.sin (Complex.arg ⟨A, C⟩ / 2)) * R = A ∧
      2 * Real.sin (Complex.arg ⟨A, C⟩ / 2) * Real.cos (Complex.arg ⟨A, C⟩ / 2) * R = C
  constructor
  · rw [← sq, ← sq, ← hc2]; field_simp
  · rw [← hs2]; field_simp

/-- The half-angle cosine and sine of `asin g` for `g² < 1`. -/
theorem asin_half_angle (g : ℝ) (hg : g * g < 1) :
    2 * Real.sin (Real.arcsin g / 2) * Real.cos (Real.arcsin g / 2) = g ∧
      Real.cos (Real.arcsin g / 2) * Real.cos (Real.arcsin g / 2) -
        Real.sin (Real.arcsin g / 2) * Real.sin (Real.arcsin g / 2) = Real.sqrt (1 - g * g) ∧
      0 < Real.cos (Real.arcsin g / 2) := by
  have hg1 : -1 ≤ g := by nlinarith
  have hg2 : g ≤ 1 := by nlinarith
  have hc2 := Real.cos_two_mul' (Real.arcsin g / 2)
  have hs2 := Real.sin_two_mul (Real.arcsin g / 2)
  rw [mul_div_cancel₀ _ (two_ne_zero)] at hc2 hs2
  rw [Real.sin_arcsin hg1 hg2] at hs2
  rw [Real.cos_arcsin, sq] at hc2
  refine ⟨hs2.symm, ?_, ?_⟩
  · rw [← sq, ← sq, ← hc2]
  · apply Real.cos_pos_of_mem_Ioo
    constructor
    · linarith [Real.neg_pi_div_two_le_arcsin g, Real.pi_pos]
    · linarith [Real.arcsin_le_pi_div_two g, Real.pi_pos]

end EulerTheorems

section EulerRoundTrip

open MathUtil

/-- QuatToAxisRad on a quaternion written with a half angle `φ` in `(0, π)`:
the axis comes back and the angle is `2 φ`. -/
theorem QuatToAxisRad_half_angle (x y z φ : ℝ) (h0 : 0 < φ) (h1 : φ < Real.pi) :
    QuatToAxisRad realMath ⟨x * Real.sin φ, y * Real.sin φ, z * Real.sin φ, Real.cos φ⟩ =
      ⟨x, y, z, φ * 2⟩ := by
  have hs : 0 < Real.sin φ := Real.sin_pos_of_pos_of_lt_pi h0 h1
  have ha : 1 - Real.cos φ * Real.cos φ = Real.sin φ ^ 2 := by
    have := Real.sin_sq_add_cos_sq φ
    nlinarith
  have hnot : ¬ (1 - Real.cos φ * Real.cos φ ≤ 0) := by
    rw [ha]; push_neg; positivity
  have hsqrt : Real.sqrt (Real.sin φ ^ 2) = Real.sin φ := Real.sqrt_sq hs.le
  have hacos : Real.arccos (Real.cos φ) = φ := Real.arccos_cos h0.le h1.le
  simp only [QuatToAxisRad, realMath]
  rw [if_neg hnot, ha, hsqrt, hacos]
  have hne : Real.sin φ ≠ 0 := hs.ne'
  simp only [Vector4.mk.injEq]
  refine ⟨?_, ?_, ?_, trivial⟩ <;> field_simp

/-- The quaternion built from the Euler angles of the regular branch is the
axis-angle quaternion up to an overall sign. -/
theorem EulerRadToQuat_AxisRadToEulerRad_sign (eulerRadian0 axis : Vector4 ℝ) (θ : ℝ)
    (hunit : axis.SquareLength = 1)
    (hg : |axis.x * axis.y * (1 - Real.cos θ) + axis.z * Real.sin θ| ≤ 0.998) :
    EulerRadToQuatV realMath (AxisRadToEulerRad realMath eulerRadian0 axis θ) =
        AxisRadToQuat realMath axis θ ∨
      EulerRadToQuatV realMath (AxisRadToEulerRad realMath eulerRadian0 axis θ) =
        (AxisRadToQuat realMath axis θ).neg := by
  obtain ⟨x, y, z, w⟩ := axis
  have hax : x * x + y * y + z * z = 1 := hunit
  simp only at hg
  obtain ⟨hg1, hg2⟩ := abs_le.mp hg
  have hsin : Real.sin θ = 2 * Real.sin (θ / 2) * Real.cos (θ / 2) := by
    have := Real.sin_two_mul (θ / 2)
    rwa [mul_div_cancel₀ _ (two_ne_zero)] at this
  have hcos : Real.cos θ =
      Real.cos (θ / 2) * Real.cos (θ / 2) - Real.sin (θ / 2) * Real.sin (θ / 2) := by
    have := Real.cos_two_mul' (θ / 2)
    rwa [mul_div_cancel₀ _ (two_ne_zero), sq, sq] at this
  have hSC : Real.sin (θ / 2) * Real.sin (θ / 2) + Real.cos (θ / 2) * Real.cos (θ / 2) = 1 := by
    have := Real.sin_sq_add_cos_sq (θ / 2)
    rwa [sq, sq] at this
  -- the entries of the rotation matrix in terms of the quaternion
  have eA : 1 - (y * y + z * z) * (1 - Real.cos θ) =
      Real.cos (θ / 2) * Real.cos (θ / 2) + x * Real.sin (θ / 2) * (x * Real.sin (θ / 2)) -
        y * Real.sin (θ / 2) * (y * Real.sin (θ / 2)) -
        z * Real.sin (θ / 2) * (z * Real.sin (θ / 2)) := by
    rw [hcos]
    linear_combination (y * y + z * z - 1) * hSC -
      (Real.sin (θ / 2) * Real.sin (θ / 2)) * hax
  have eC : y * Real.sin θ - x * z * (1 - Real.cos θ) =
      2 * (y * Real.sin (θ / 2) * Real.cos (θ / 2) -
        x * Real.sin (θ / 2) * (z * Real.sin (θ / 2))) := by
    rw [hcos, hsin]
    linear_combination (x * z) * hSC
  have eD : 1 - (x * x + z * z) * (1 - Real.cos θ) =
      Real.cos (θ / 2) * Real.cos (θ / 2) - x * Real.sin (θ / 2) * (x * Real.sin (θ / 2)) +
        y * Real.sin (θ / 2) * (y * Real.sin (θ / 2)) -
        z * Real.sin (θ / 2) * (z * Real.sin (θ / 2)) := by
    rw [hcos]
    linear_combination (x * x + z * z - 1) * hSC -
      (Real.sin (θ / 2) * Real.sin (θ / 2)) * hax
  have eE : x * Real.sin θ - y * z * (1 - Real.cos θ) =
      2 * (x * Real.sin (θ / 2) * Real.cos (θ / 2) -
        y * Real.sin (θ / 2) * (z * Real.sin (θ / 2))) := by
    rw [hcos, hsin]
    linear_combination (y * z) * hSC
  have eG : x * y * (1 - Real.cos θ) + z * Real.sin θ =
      2 * (x * Real.sin (θ / 2) * (y * Real.sin (θ / 2)) +
        z * Real.sin (θ / 2) * Real.cos (θ / 2)) := by
    rw [hcos, hsin]
    linear_combination (-(x * y)) * hSC
  have hq : x * Real.sin (θ / 2) * (x * Real.sin (θ / 2)) +
      y * Real.sin (θ / 2) * (y * Real.sin (θ / 2)) +
      z * Real.sin (θ / 2) * (z * Real.sin (θ / 2)) +
      Real.cos (θ / 2) * Real.cos (θ / 2) = 1 := by
    linear_combination (Real.sin (θ / 2) * Real.sin (θ / 2)) * hax + hSC
  -- the regular branch
  have hgg : (x * y * (1 - Real.cos θ) + z * Real.sin θ) *
      (x * y * (1 - Real.cos θ) + z * Real.sin θ) < 1 := by
    norm_num at hg1 hg2
    nlinarith
  have hRpos : 0 < Real.sqrt (1 - (x * y * (1 - Real.cos θ) + z * Real.sin θ) *
      (x * y * (1 - Real.cos θ) + z * Real.sin θ)) := Real.sqrt_pos.mpr (by linarith)
  have hRR : Real.sqrt (1 - (x * y * (1 - Real.cos θ) + z * Real.sin θ) *
      (x * y * (1 - Real.cos θ) + z * Real.sin θ)) *
      Real.sqrt (1 - (x * y * (1 - Real.cos θ) + z * Real.sin θ) *
      (x * y * (1 - Real.cos θ) + z * Real.sin θ)) =
      1 - (x * y * (1 - Real.cos θ) + z * Real.sin θ) *
      (x * y * (1 - Real.cos θ) + z * Real.sin θ) := Real.mul_self_sqrt (by linarith)
  have hAC : (1 - (y * y + z * z) * (1 - Real.cos θ)) *
      (1 - (y * y + z * z) * (1 - Real.cos θ)) +
      (y * Real.sin θ - x * z * (1 - Real.cos θ)) *
      (y * Real.sin θ - x * z * (1 - Real.cos θ)) =
      1 - (x * y * (1 - Real.cos θ) + z * Real.sin θ) *
      (x * y * (1 - Real.cos θ) + z * Real.sin θ) := by
    rw [eA, eC, eG]
    linear_combination (x * Real.sin (θ / 2) * (x * Real.sin (θ / 2)) +
      y * Real.sin (θ / 2) * (y * Real.sin (θ / 2)) +
      z * Real.sin (θ / 2) * (z * Real.sin (θ / 2)) +
      Real.cos (θ / 2) * Real.cos (θ / 2) + 1) * hq
  have hDE : (1 - (x * x + z * z) * (1 - Real.cos θ)) *
      (1 - (x * x + z * z) * (1 - Real.cos θ)) +
      (x * Real.sin θ - y * z * (1 - Real.cos θ)) *
      (x * Real.sin θ - y * z * (1 - Real.cos θ)) =
      1 - (x * y * (1 - Real.cos θ) + z * Real.sin θ) *
      (x * y * (1 - Real.cos θ) + z * Real.sin θ) := by
    rw [eD, eE, eG]
    linear_combination (x * Real.sin (θ / 2) * (x * Real.sin (θ / 2)) +
      y * Real.sin (θ / 2) * (y * Real.sin (θ / 2)) +
      z * Real.sin (θ / 2) * (z * Real.sin (θ / 2)) +
      Real.cos (θ / 2) * Real.cos (θ / 2) + 1) * hq
  obtain ⟨yA, yC⟩ := atan2_half_angle _ _ _ hRpos (hAC.trans hRR.symm)
  obtain ⟨pD, pE⟩ := atan2_half_angle _ _ _ hRpos (hDE.trans hRR.symm)
  obtain ⟨rG, rR, rpos⟩ := asin_half_angle _ hgg
  have yA2 := yA.trans eA
  have yC2 := yC.trans eC
  have pD2 := pD.trans eD
  have pE2 := pE.trans eE
  have rG2 := rG.trans eG
  have hx1 := Real.cos_sq_add_sin_sq
    (realMath.atan2 (y * Real.sin θ - x * z * (1 - Real.cos θ))
      (1 - (y * y + z * z) * (1 - Real.cos θ)) / 2)
  have hy1 := Real.cos_sq_add_sin_sq
    (realMath.atan2 (x * Real.sin θ - y * z * (1 - Real.cos θ))
      (1 - (x * x + z * z) * (1 - Real.cos θ)) / 2)
  have hz1 := Real.cos_sq_add_sin_sq
    (Real.arcsin (x * y * (1 - Real.cos θ) + z * Real.sin θ) / 2)
  rw [sq, sq] at hx1 hy1 hz1
  have core := euler_quat_core _ _ _ _ _ _ _ _ _ _ _ hx1 hy1 hz1 hq hRpos rpos yA2 yC2 pD2 pE2 rG2 rR
  have hreg := AxisRadToEulerRad_regular realMath eulerRadian0 ⟨x, y, z, w⟩ θ
    (by show ¬ (x * y * (1 - Real.cos θ) + z * Real.sin θ > 0.998); exact not_lt.mpr hg2)
    (by show ¬ (x * y * (1 - Real.cos θ) + z * Real.sin θ < -0.998); exact not_lt.mpr hg1)
  rw [hreg]
  simp only [EulerRadToQuatV, EulerRadToQuat, AxisRadToQuat, Quaternion.neg, half_literal,
    Quaternion.mk.injEq]
  exact core

/-- C8: for a unit axis, an angle θ in (0, 2π) and |g| ≤ 0.998, the
quaternion that EulerRadToQuat builds from the Euler angles of
AxisRadToEulerRad is the quaternion of AxisRadToQuat up to an overall sign;
QuatToAxisRad then returns (axis, θ), or the same rotation written as
(-axis, 2π - θ). -/
theorem EulerRadToQuat_AxisRadToEulerRad (eulerRadian0 axis : Vector4 ℝ) (θ : ℝ)
    (hunit : axis.SquareLength = 1) (h0 : 0 < θ) (h1 : θ < 2 * Real.pi)
    (hg : |axis.x * axis.y * (1 - Real.cos θ) + axis.z * Real.sin θ| ≤ 0.998) :
    (EulerRadToQuatV realMath (AxisRadToEulerRad realMath eulerRadian0 axis θ) =
        AxisRadToQuat realMath axis θ ∨
      EulerRadToQuatV realMath (AxisRadToEulerRad realMath eulerRadian0 axis θ) =
        (AxisRadToQuat realMath axis θ).neg) ∧
    (QuatToAxisRad realMath
        (EulerRadToQuatV realMath (AxisRadToEulerRad realMath eulerRadian0 axis θ)) =
        ⟨axis.x, axis.y, axis.z, θ⟩ ∨
      QuatToAxisRad realMath
        (EulerRadToQuatV realMath (AxisRadToEulerRad realMath eulerRadian0 axis θ)) =
        ⟨-axis.x, -axis.y, -axis.z, 2 * Real.pi - θ⟩) := by
  have hE := EulerRadToQuat_AxisRadToEulerRad_sign eulerRadian0 axis θ hunit hg
  obtain ⟨x, y, z, w⟩ := axis
  have hφ0 : 0 < θ / 2 := half_pos h0
  have hφ1 : θ / 2 < Real.pi := by linarith
  have hψ0 : 0 < Real.pi - θ / 2 := by linarith
  have hψ1 : Real.pi - θ / 2 < Real.pi := by linarith
  refine ⟨hE, ?_⟩
  rcases hE with hE | hE
  · left
    rw [hE]
    simp only [AxisRadToQuat, half_literal]
    have := QuatToAxisRad_half_angle x y z (θ / 2) hφ0 hφ1
    simp only [realMath] at this ⊢
    rw [this]
    simp only [Vector4.mk.injEq, true_and]
    ring
  · right
    rw [hE]
    simp only [AxisRadToQuat, Quaternion.neg, half_literal]
    have := QuatToAxisRad_half_angle (-x) (-y) (-z) (Real.pi - θ / 2) hψ0 hψ1
    rw [Real.sin_pi_sub, Real.cos_pi_sub] at this
    simp only [realMath, neg_mul] at this ⊢
    rw [this]
    simp only [Vector4.mk.injEq, true_and]
    ring

/-- Witness for C8: the axis (1, 0, 0) and the angle π / 2 (g = 0). -/
theorem EulerRadToQuat_AxisRadToEulerRad_witness :
    (⟨1, 0, 0, 0⟩ : Vector4 ℝ).SquareLength = 1 ∧ 0 < Real.pi / 2 ∧
    Real.pi / 2 < 2 * Real.pi ∧
    (EulerRadToQuatV realMath (AxisRadToEulerRad realMath ⟨0, 0, 0, 1⟩ ⟨1, 0, 0, 0⟩
        (Real.pi / 2)) = AxisRadToQuat realMath ⟨1, 0, 0, 0⟩ (Real.pi / 2) ∨
      EulerRadToQuatV realMath (AxisRadToEulerRad realMath ⟨0, 0, 0, 1⟩ ⟨1, 0, 0, 0⟩
        (Real.pi / 2)) = (AxisRadToQuat realMath ⟨1, 0, 0, 0⟩ (Real.pi / 2)).neg) :=
  ⟨by norm_num [Vector4.SquareLength], by positivity, by linarith [Real.pi_pos],
    (EulerRadToQuat_AxisRadToEulerRad ⟨0, 0, 0, 1⟩ ⟨1, 0, 0, 0⟩ (Real.pi / 2)
      (by norm_num [Vector4.SquareLength]) (by positivity) (by linarith [Real.pi_pos])
      (by norm_num)).1⟩

end EulerRoundTrip

section CropExtremaTheorems

/-- The first corner is one of the eight. -/
theorem Frustum.c0_mem {K : Type} (frustum : Frustum K) :
    frustum.c0 ∈ frustum.GetCurrentCorners := by
  simp [Frustum.GetCurrentCorners]

variable {K : Type} [LinearOrderedField K]

/-- The frustum loop ends on values it has seen: each bound is the starting
one or the depth of a visited corner. -/
theorem foldl_limitZStep_attained (lightMatrix : Matrix4 K) (corners : List (Vector4 K))
    (acc : K × K) :
    ((corners.foldl (limitZStep lightMatrix) acc).1 = acc.1 ∨
        ∃ c ∈ corners, (corners.foldl (limitZStep lightMatrix) acc).1 =
          (lightMatrix.Multiply c).z) ∧
      ((corners.foldl (limitZStep lightMatrix) acc).2 = acc.2 ∨
        ∃ c ∈ corners, (corners.foldl (limitZStep lightMatrix) acc).2 =
          (lightMatrix.Multiply c).z) := by
  induction corners generalizing acc with
  | nil => simp
  | cons c cs ih =>
    rw [List.foldl_cons]
    obtain ⟨i1, i2⟩ := ih (limitZStep lightMatrix acc c)
    constructor
    · rcases i1 with h | ⟨d, hd, h⟩
      · rw [h]
        simp only [limitZStep]
        split_ifs
        · exact Or.inr ⟨c, List.mem_cons_self c cs, rfl⟩
        · exact Or.inl rfl
      · exact Or.inr ⟨d, List.mem_cons_of_mem c hd, h⟩
    · rcases i2 with h | ⟨d, hd, h⟩
      · rw [h]
        simp only [limitZStep]
        split_ifs
        · exact Or.inr ⟨c, List.mem_cons_self c cs, rfl⟩
        · exact Or.inl rfl
      · exact Or.inr ⟨d, List.mem_cons_of_mem c hd, h⟩

/-- The caster loops end on a value they have seen: the starting `maxZ` or the
depth of a corner of some caster's box. -/
theorem foldl_casters_attained (lightMatrix : Matrix4 K) (casters : List (SceneNode K))
    (maxZ : K) :
    casters.foldl
        (fun m caster => caster.GetWorldAABB.GetCorners.foldl (casterZStep lightMatrix) m) maxZ
        = maxZ ∨
      ∃ n ∈ casters, ∃ c ∈ n.GetWorldAABB.GetCorners,
        casters.foldl
          (fun m caster => caster.GetWorldAABB.GetCorners.foldl (casterZStep lightMatrix) m) maxZ
          = (lightMatrix.Multiply c).z := by
  have inner : ∀ (corners : List (Vector4 K)) (m : K),
      corners.foldl (casterZStep lightMatrix) m = m ∨
        ∃ c ∈ corners, corners.foldl (casterZStep lightMatrix) m = (lightMatrix.Multiply c).z := by
    intro corners
    induction corners with
    | nil => intro m; simp
    | cons c cs ih =>
      intro m
      rw [List.foldl_cons]
      rcases ih (casterZStep lightMatrix m c) with h | ⟨d, hd, h⟩
      · rw [h]
        simp only [casterZStep]
        split_ifs
        · exact Or.inr ⟨c, List.mem_cons_self c cs, rfl⟩
        · exact Or.inl rfl
      · exact Or.inr ⟨d, List.mem_cons_of_mem c hd, h⟩
  induction casters generalizing maxZ with
  | nil => simp
  | cons n ns ih =>
    rw [List.foldl_cons]
    rcases ih (n.GetWorldAABB.GetCorners.foldl (casterZStep lightMatrix) maxZ) with
      h | ⟨k, hk, c, hc, h⟩
    · rw [h]
      rcases inner n.GetWorldAABB.GetCorners maxZ with h2 | ⟨c, hc, h2⟩
      · exact Or.inl h2
      · exact Or.inr ⟨n, List.mem_cons_self n ns, c, hc, h2⟩
    · exact Or.inr ⟨k, List.mem_cons_of_mem n hk, c, hc, h⟩

/-- C16: in GetCropMatrix, minZ is the minimum light-view z over the frustum
corners and does not depend on the casters; maxZ is the maximum light-view z
over the frustum corners and all corners of all casters' boxes; so a larger
caster set never gives a smaller maxZ, and with no casters [minZ, maxZ] is
exactly the z range of the frustum corners. -/
theorem limitZ_extrema (lightMatrix : Matrix4 K) (frustum : Frustum K)
    (casters : List (SceneNode K)) :
    (limitZ lightMatrix frustum casters).1 = (limitZ lightMatrix frustum []).1 ∧
    (∀ c ∈ frustum.GetCurrentCorners,
      (limitZ lightMatrix frustum casters).1 ≤ (lightMatrix.Multiply c).z) ∧
    (∃ c ∈ frustum.GetCurrentCorners,
      (limitZ lightMatrix frustum casters).1 = (lightMatrix.Multiply c).z) ∧
    (∀ c ∈ frustum.GetCurrentCorners,
      (lightMatrix.Multiply c).z ≤ (limitZ lightMatrix frustum casters).2) ∧
    (∀ n ∈ casters, ∀ c ∈ n.GetWorldAABB.GetCorners,
      (lightMatrix.Multiply c).z ≤ (limitZ lightMatrix frustum casters).2) ∧
    ((∃ c ∈ frustum.GetCurrentCorners,
        (limitZ lightMatrix frustum casters).2 = (lightMatrix.Multiply c).z) ∨
      ∃ n ∈ casters, ∃ c ∈ n.GetWorldAABB.GetCorners,
        (limitZ lightMatrix frustum casters).2 = (lightMatrix.Multiply c).z) ∧
    (∀ more : List (SceneNode K), (∀ n ∈ casters, n ∈ more) →
      (limitZ lightMatrix frustum casters).2 ≤ (limitZ lightMatrix frustum more).2) ∧
    (∃ c ∈ frustum.GetCurrentCorners,
      (limitZ lightMatrix frustum []).2 = (lightMatrix.Multiply c).z) := by
  have hb : ∀ cs : List (SceneNode K),
      (∀ c ∈ frustum.GetCurrentCorners,
        (limitZ lightMatrix frustum cs).1 ≤ (lightMatrix.Multiply c).z ∧
        (lightMatrix.Multiply c).z ≤ (limitZ lightMatrix frustum cs).2) ∧
      (∀ n ∈ cs, ∀ c ∈ n.GetWorldAABB.GetCorners,
        (lightMatrix.Multiply c).z ≤ (limitZ lightMatrix frustum cs).2) := by
    intro cs
    obtain ⟨-, f2, f3⟩ := foldl_limitZStep_bounds lightMatrix frustum.GetCurrentCorners
      ((lightMatrix.Multiply frustum.c0).z, (lightMatrix.Multiply frustum.c0).z)
    obtain ⟨g1, g2⟩ := foldl_casters_bounds lightMatrix cs
      (frustum.GetCurrentCorners.foldl (limitZStep lightMatrix)
        ((lightMatrix.Multiply frustum.c0).z, (lightMatrix.Multiply frustum.c0).z)).2
    exact ⟨fun c hc => ⟨(f3 c hc).1, le_trans (f3 c hc).2 g1⟩, fun n hn c hc => g2 n hn c hc⟩
  obtain ⟨a1, a2⟩ := foldl_limitZStep_attained lightMatrix frustum.GetCurrentCorners
    ((lightMatrix.Multiply frustum.c0).z, (lightMatrix.Multiply frustum.c0).z)
  have hmin : ∃ c ∈ frustum.GetCurrentCorners,
      (limitZ lightMatrix frustum casters).1 = (lightMatrix.Multiply c).z := by
    rcases a1 with h | h
    · exact ⟨frustum.c0, frustum.c0_mem, h⟩
    · exact h
  have hfr : ∃ c ∈ frustum.GetCurrentCorners,
      (frustum.GetCurrentCorners.foldl (limitZStep lightMatrix)
        ((lightMatrix.Multiply frustum.c0).z, (lightMatrix.Multiply frustum.c0).z)).2 =
        (lightMatrix.Multiply c).z := by
    rcases a2 with h | h
    · exact ⟨frustum.c0, frustum.c0_mem, h⟩
    · exact h
  have hmax : (∃ c ∈ frustum.GetCurrentCorners,
        (limitZ lightMatrix frustum casters).2 = (lightMatrix.Multiply c).z) ∨
      ∃ n ∈ casters, ∃ c ∈ n.GetWorldAABB.GetCorners,
        (limitZ lightMatrix frustum casters).2 = (lightMatrix.Multiply c).z := by
    rcases foldl_casters_attained lightMatrix casters
      (frustum.GetCurrentCorners.foldl (limitZStep lightMatrix)
        ((lightMatrix.Multiply frustum.c0).z, (lightMatrix.Multiply frustum.c0).z)).2 with h | h
    · left
      obtain ⟨c, hc, e⟩ := hfr
      exact ⟨c, hc, h.trans e⟩
    · exact Or.inr h
  refine ⟨rfl, fun c hc => ((hb casters).1 c hc).1, hmin, fun c hc => ((hb casters).1 c hc).2,
    (hb casters).2, hmax, ?_, hfr⟩
  intro more hsub
  rcases hmax with ⟨c, hc, e⟩ | ⟨n, hn, c, hc, e⟩
  · rw [e]; exact ((hb more).1 c hc).2
  · rw [e]; exact (hb more).2 n (hsub n hn) c hc


/-- The x-y loop ends on values it has seen: each extremum is the starting
one or the divided clip coordinate of a visited corner. -/
theorem foldl_limitXYStep_attained (mvp : Matrix4 K) (corners : List (Vector4 K))
    (acc : XYRange K) :
    ((corners.foldl (limitXYStep mvp) acc).minX = acc.minX ∨
        ∃ c ∈ corners, (corners.foldl (limitXYStep mvp) acc).minX =
          (mvp.Multiply c).x / (mvp.Multiply c).w) ∧
      ((corners.foldl (limitXYStep mvp) acc).maxX = acc.maxX ∨
        ∃ c ∈ corners, (corners.foldl (limitXYStep mvp) acc).maxX =
          (mvp.Multiply c).x / (mvp.Multiply c).w) ∧
      ((corners.foldl (limitXYStep mvp) acc).minY = acc.minY ∨
        ∃ c ∈ corners, (corners.foldl (limitXYStep mvp) acc).minY =
          (mvp.Multiply c).y / (mvp.Multiply c).w) ∧
      ((corners.foldl (limitXYStep mvp) acc).maxY = acc.maxY ∨
        ∃ c ∈ corners, (corners.foldl (limitXYStep mvp) acc).maxY =
          (mvp.Multiply c).y / (mvp.Multiply c).w) := by
  induction corners generalizing acc with
  | nil => simp
  | cons c cs ih =>
    rw [List.foldl_cons]
    obtain ⟨i1, i2, i3, i4⟩ := ih (limitXYStep mvp acc c)
    refine ⟨?_, ?_, ?_, ?_⟩
    · rcases i1 with h | ⟨d, hd, h⟩
      · rw [h]
        simp only [limitXYStep]
        split_ifs
        · exact Or.inr ⟨c, List.mem_cons_self c cs, rfl⟩
        · exact Or.inl rfl
      · exact Or.inr ⟨d, List.mem_cons_of_mem c hd, h⟩
    · rcases i2 with h | ⟨d, hd, h⟩
      · rw [h]
        simp only [limitXYStep]
        split_ifs
        · exact Or.inr ⟨c, List.mem_cons_self c cs, rfl⟩
        · exact Or.inl rfl
      · exact Or.inr ⟨d, List.mem_cons_of_mem c hd, h⟩
    · rcases i3 with h | ⟨d, hd, h⟩
      · rw [h]
        simp only [limitXYStep]
        split_ifs
        · exact Or.inr ⟨c, List.mem_cons_self c cs, rfl⟩
        · exact Or.inl rfl
      · exact Or.inr ⟨d, List.mem_cons_of_mem c hd, h⟩
    · rcases i4 with h | ⟨d, hd, h⟩
      · rw [h]
        simp only [limitXYStep]
        split_ifs
        · exact Or.inr ⟨c, List.mem_cons_self c cs, rfl⟩
        · exact Or.inl rfl
      · exact Or.inr ⟨d, List.mem_cons_of_mem c hd, h⟩

/-- The extrema of "limit xy" are the minimum and the maximum of the divided
clip coordinates x / w and y / w of the eight frustum corners under
`projMatrix * lightMatrix`. -/
theorem limitXY_extrema (lightMatrix : Matrix4 K) (frustum : Frustum K)
    (casters : List (SceneNode K)) :
    (∀ c ∈ frustum.GetCurrentCorners,
      (limitXY lightMatrix frustum casters).minX ≤
        ((cropProjMatrix lightMatrix frustum casters * lightMatrix).Multiply c).x /
          ((cropProjMatrix lightMatrix frustum casters * lightMatrix).Multiply c).w ∧
      ((cropProjMatrix lightMatrix frustum casters * lightMatrix).Multiply c).x /
          ((cropProjMatrix lightMatrix frustum casters * lightMatrix).Multiply c).w ≤
        (limitXY lightMatrix frustum casters).maxX ∧
      (limitXY lightMatrix frustum casters).minY ≤
        ((cropProjMatrix lightMatrix frustum casters * lightMatrix).Multiply c).y /
          ((cropProjMatrix lightMatrix frustum casters * lightMatrix).Multiply c).w ∧
      ((cropProjMatrix lightMatrix frustum casters * lightMatrix).Multiply c).y /
          ((cropProjMatrix lightMatrix frustum casters * lightMatrix).Multiply c).w ≤
        (limitXY lightMatrix frustum casters).maxY) ∧
    (∃ c ∈ frustum.GetCurrentCorners, (limitXY lightMatrix frustum casters).minX =
      ((cropProjMatrix lightMatrix frustum casters * lightMatrix).Multiply c).x /
        ((cropProjMatrix lightMatrix frustum casters * lightMatrix).Multiply c).w) ∧
    (∃ c ∈ frustum.GetCurrentCorners, (limitXY lightMatrix frustum casters).maxX =
      ((cropProjMatrix lightMatrix frustum casters * lightMatrix).Multiply c).x /
        ((cropProjMatrix lightMatrix frustum casters * lightMatrix).Multiply c).w) ∧
    (∃ c ∈ frustum.GetCurrentCorners, (limitXY lightMatrix frustum casters).minY =
      ((cropProjMatrix lightMatrix frustum casters * lightMatrix).Multiply c).y /
        ((cropProjMatrix lightMatrix frustum casters * lightMatrix).Multiply c).w) ∧
    (∃ c ∈ frustum.GetCurrentCorners, (limitXY lightMatrix frustum casters).maxY =
      ((cropProjMatrix lightMatrix frustum casters * lightMatrix).Multiply c).y /
        ((cropProjMatrix lightMatrix frustum casters * lightMatrix).Multiply c).w) := by
  obtain ⟨-, -, -, -, hb⟩ := foldl_limitXYStep_bounds
    (cropProjMatrix lightMatrix frustum casters * lightMatrix) frustum.GetCurrentCorners
    { maxX := ((cropProjMatrix lightMatrix frustum casters * lightMatrix).Multiply frustum.c0).x /
        ((cropProjMatrix lightMatrix frustum casters * lightMatrix).Multiply frustum.c0).w
      minX := ((cropProjMatrix lightMatrix frustum casters * lightMatrix).Multiply frustum.c0).x /
        ((cropProjMatrix lightMatrix frustum casters * lightMatrix).Multiply frustum.c0).w
      maxY := ((cropProjMatrix lightMatrix frustum casters * lightMatrix).Multiply frustum.c0).y /
        ((cropProjMatrix lightMatrix frustum casters * lightMatrix).Multiply frustum.c0).w
      minY := ((cropProjMatrix lightMatrix frustum casters * lightMatrix).Multiply frustum.c0).y /
        ((cropProjMatrix lightMatrix frustum casters * lightMatrix).Multiply frustum.c0).w }
  obtain ⟨a1, a2, a3, a4⟩ := foldl_limitXYStep_attained
    (cropProjMatrix lightMatrix frustum casters * lightMatrix) frustum.GetCurrentCorners
    { maxX := ((cropProjMatrix lightMatrix frustum casters * lightMatrix).Multiply frustum.c0).x /
        ((cropProjMatrix lightMatrix frustum casters * lightMatrix).Multiply frustum.c0).w
      minX := ((cropProjMatrix lightMatrix frustum casters * lightMatrix).Multiply frustum.c0).x /
        ((cropProjMatrix lightMatrix frustum casters * lightMatrix).Multiply frustum.c0).w
      maxY := ((cropProjMatrix lightMatrix frustum casters * lightMatrix).Multiply frustum.c0).y /
        ((cropProjMatrix lightMatrix frustum casters * lightMatrix).Multiply frustum.c0).w
      minY := ((cropProjMatrix lightMatrix frustum casters * lightMatrix).Multiply frustum.c0).y /
        ((cropProjMatrix lightMatrix frustum casters * lightMatrix).Multiply frustum.c0).w }
  refine ⟨hb, ?_, ?_, ?_, ?_⟩
  · rcases a1 with h | h
    · exact ⟨frustum.c0, frustum.c0_mem, h⟩
    · exact h
  · rcases a2 with h | h
    · exact ⟨frustum.c0, frustum.c0_mem, h⟩
    · exact h
  · rcases a3 with h | h
    · exact ⟨frustum.c0, frustum.c0_mem, h⟩
    · exact h
  · rcases a4 with h | h
    · exact ⟨frustum.c0, frustum.c0_mem, h⟩
    · exact h

/-- C17: when maxX ≠ minX and maxY ≠ minY, the crop's scale and offset
(scaleX = 2 / (maxX - minX), offsetX = -0.5 (maxX + minX) scaleX, likewise for
Y) send minX and minY to -1 and maxX and maxY to 1, the extrema being taken
over the eight perspective-divided clip-space frustum corners; the crop matrix
leaves z and w of every vector unchanged. -/
theorem cropMatrix_maps_extrema (lightMatrix : Matrix4 K) (frustum : Frustum K)
    (casters : List (SceneNode K))
    (hx : (limitXY lightMatrix frustum casters).maxX ≠ (limitXY lightMatrix frustum casters).minX)
    (hy : (limitXY lightMatrix frustum casters).maxY ≠
      (limitXY lightMatrix frustum casters).minY) :
    ((cropMatrix lightMatrix frustum casters).r0 =
        2 / ((limitXY lightMatrix frustum casters).maxX -
          (limitXY lightMatrix frustum casters).minX) ∧
      (cropMatrix lightMatrix frustum casters).r5 =
        2 / ((limitXY lightMatrix frustum casters).maxY -
          (limitXY lightMatrix frustum casters).minY) ∧
      (cropMatrix lightMatrix frustum casters).r12 =
        -(1 / 2) * ((limitXY lightMatrix frustum casters).maxX +
          (limitXY lightMatrix frustum casters).minX) *
          (cropMatrix lightMatrix frustum casters).r0 ∧
      (cropMatrix lightMatrix frustum casters).r13 =
        -(1 / 2) * ((limitXY lightMatrix frustum casters).maxY +
          (limitXY lightMatrix frustum casters).minY) *
          (cropMatrix lightMatrix frustum casters).r5) ∧
    ((cropMatrix lightMatrix frustum casters).r0 * (limitXY lightMatrix frustum casters).minX +
        (cropMatrix lightMatrix frustum casters).r12 = -1 ∧
      (cropMatrix lightMatrix frustum casters).r0 * (limitXY lightMatrix frustum casters).maxX +
        (cropMatrix lightMatrix frustum casters).r12 = 1 ∧
      (cropMatrix lightMatrix frustum casters).r5 * (limitXY lightMatrix frustum casters).minY +
        (cropMatrix lightMatrix frustum casters).r13 = -1 ∧
      (cropMatrix lightMatrix frustum casters).r5 * (limitXY lightMatrix frustum casters).maxY +
        (cropMatrix lightMatrix frustum casters).r13 = 1) ∧
    ((∀ c ∈ frustum.GetCurrentCorners,
        (limitXY lightMatrix frustum casters).minX ≤
          ((cropProjMatrix lightMatrix frustum casters * lightMatrix).Multiply c).x /
            ((cropProjMatrix lightMatrix frustum casters * lightMatrix).Multiply c).w ∧
        ((cropProjMatrix lightMatrix frustum casters * lightMatrix).Multiply c).x /
            ((cropProjMatrix lightMatrix frustum casters * lightMatrix).Multiply c).w ≤
          (limitXY lightMatrix frustum casters).maxX ∧
        (limitXY lightMatrix frustum casters).minY ≤
          ((cropProjMatrix lightMatrix frustum casters * lightMatrix).Multiply c).y /
            ((cropProjMatrix lightMatrix frustum casters * lightMatrix).Multiply c).w ∧
        ((cropProjMatrix lightMatrix frustum casters * lightMatrix).Multiply c).y /
            ((cropProjMatrix lightMatrix frustum casters * lightMatrix).Multiply c).w ≤
          (limitXY lightMatrix frustum casters).maxY) ∧
      (∃ c ∈ frustum.GetCurrentCorners, (limitXY lightMatrix frustum casters).minX =
        ((cropProjMatrix lightMatrix frustum casters * lightMatrix).Multiply c).x /
          ((cropProjMatrix lightMatrix frustum casters * lightMatrix).Multiply c).w) ∧
      (∃ c ∈ frustum.GetCurrentCorners, (limitXY lightMatrix frustum casters).maxX =
        ((cropProjMatrix lightMatrix frustum casters * lightMatrix).Multiply c).x /
          ((cropProjMatrix lightMatrix frustum casters * lightMatrix).Multiply c).w) ∧
      (∃ c ∈ frustum.GetCurrentCorners, (limitXY lightMatrix frustum casters).minY =
        ((cropProjMatrix lightMatrix frustum casters * lightMatrix).Multiply c).y /
          ((cropProjMatrix lightMatrix frustum casters * lightMatrix).Multiply c).w) ∧
      (∃ c ∈ frustum.GetCurrentCorners, (limitXY lightMatrix frustum casters).maxY =
        ((cropProjMatrix lightMatrix frustum casters * lightMatrix).Multiply c).y /
          ((cropProjMatrix lightMatrix frustum casters * lightMatrix).Multiply c).w)) ∧
    (∀ p : Vector4 K,
      ((cropMatrix lightMatrix frustum casters).Multiply p).z = p.z ∧
      ((cropMatrix lightMatrix frustum casters).Multiply p).w = p.w) := by
  have hdx : (limitXY lightMatrix frustum casters).maxX -
      (limitXY lightMatrix frustum casters).minX ≠ 0 := sub_ne_zero.mpr hx
  have hdy : (limitXY lightMatrix frustum casters).maxY -
      (limitXY lightMatrix frustum casters).minY ≠ 0 := sub_ne_zero.mpr hy
  refine ⟨⟨rfl, rfl, rfl, rfl⟩, ⟨?_, ?_, ?_, ?_⟩, limitXY_extrema lightMatrix frustum casters, ?_⟩
  · simp only [cropMatrix, cropScaleX]
    field_simp
    ring
  · simp only [cropMatrix, cropScaleX]
    field_simp
    ring
  · simp only [cropMatrix, cropScaleY]
    field_simp
    ring
  · simp only [cropMatrix, cropScaleY]
    field_simp
    ring
  · intro p
    simp only [cropMatrix, Matrix4.Multiply]
    constructor <;> ring

/-- Witness for C17: the quarter cube under the identity light view, whose
extrema are -1/4 and 1/4 on both axes. -/
theorem cropMatrix_maps_extrema_witness :
    (limitXY Matrix4.Identity quarterCubeFrustum []).maxX ≠
        (limitXY Matrix4.Identity quarterCubeFrustum []).minX ∧
      (limitXY Matrix4.Identity quarterCubeFrustum []).maxY ≠
        (limitXY Matrix4.Identity quarterCubeFrustum []).minY ∧
      (cropMatrix Matrix4.Identity quarterCubeFrustum []).r0 *
          (limitXY Matrix4.Identity quarterCubeFrustum []).minX +
        (cropMatrix Matrix4.Identity quarterCubeFrustum []).r12 = -1 ∧
      (cropMatrix Matrix4.Identity quarterCubeFrustum []).r0 *
          (limitXY Matrix4.Identity quarterCubeFrustum []).maxX +
        (cropMatrix Matrix4.Identity quarterCubeFrustum []).r12 = 1 :=
  have hx : (limitXY Matrix4.Identity quarterCubeFrustum []).maxX ≠
      (limitXY Matrix4.Identity quarterCubeFrustum []).minX := by
    rw [limitXY_quarterCube]; norm_num
  have hy : (limitXY Matrix4.Identity quarterCubeFrustum []).maxY ≠
      (limitXY Matrix4.Identity quarterCubeFrustum []).minY := by
    rw [limitXY_quarterCube]; norm_num
  ⟨hx, hy,
    (cropMatrix_maps_extrema Matrix4.Identity quarterCubeFrustum [] hx hy).2.1.1,
    (cropMatrix_maps_extrema Matrix4.Identity quarterCubeFrustum [] hx hy).2.1.2.1⟩

end CropExtremaTheorems

section OffsetMatrixTheorems

variable {K : Type} [LinearOrderedField K]

/-- C20: the bias matrix set by the constructor sends every point
(x, y, z, 1) to (0.5 x + 0.5, 0.5 y + 0.5, 0.5 z + 0.5, 1); a coordinate is
in [-1, 1] exactly when its image is in [0, 1], every point of the cube
[0,1]^3 is the image of a point of [-1,1]^3, and the corners -1 and 1 go to 0
and 1. -/
theorem offsetMatrix_maps_clip_to_texture :
    (Pipeline.new : Pipeline K).m_OffsetMatrix = offsetMatrix ∧
    (∀ x y z : K, (offsetMatrix : Matrix4 K).Multiply ⟨x, y, z, 1⟩ =
      ⟨0.5 * x + 0.5, 0.5 * y + 0.5, 0.5 * z + 0.5, 1⟩) ∧
    (∀ x y z : K,
      ((-1 ≤ x ∧ x ≤ 1) ↔
        (0 ≤ ((offsetMatrix : Matrix4 K).Multiply ⟨x, y, z, 1⟩).x ∧
          ((offsetMatrix : Matrix4 K).Multiply ⟨x, y, z, 1⟩).x ≤ 1)) ∧
      ((-1 ≤ y ∧ y ≤ 1) ↔
        (0 ≤ ((offsetMatrix : Matrix4 K).Multiply ⟨x, y, z, 1⟩).y ∧
          ((offsetMatrix : Matrix4 K).Multiply ⟨x, y, z, 1⟩).y ≤ 1)) ∧
      ((-1 ≤ z ∧ z ≤ 1) ↔
        (0 ≤ ((offsetMatrix : Matrix4 K).Multiply ⟨x, y, z, 1⟩).z ∧
          ((offsetMatrix : Matrix4 K).Multiply ⟨x, y, z, 1⟩).z ≤ 1))) ∧
    (∀ u v w : K, 0 ≤ u → u ≤ 1 → 0 ≤ v → v ≤ 1 → 0 ≤ w → w ≤ 1 →
      ∃ x y z : K, -1 ≤ x ∧ x ≤ 1 ∧ -1 ≤ y ∧ y ≤ 1 ∧ -1 ≤ z ∧ z ≤ 1 ∧
        (offsetMatrix : Matrix4 K).Multiply ⟨x, y, z, 1⟩ = ⟨u, v, w, 1⟩) ∧
    (offsetMatrix : Matrix4 K).Multiply ⟨-1, -1, -1, 1⟩ = ⟨0, 0, 0, 1⟩ ∧
    (offsetMatrix : Matrix4 K).Multiply ⟨1, 1, 1, 1⟩ = ⟨1, 1, 1, 1⟩ := by
  have hmul : ∀ x y z : K, (offsetMatrix : Matrix4 K).Multiply ⟨x, y, z, 1⟩ =
      ⟨0.5 * x + 0.5, 0.5 * y + 0.5, 0.5 * z + 0.5, 1⟩ := by
    intro x y z
    simp only [offsetMatrix, Matrix4.Multiply, Vector4.mk.injEq]
    refine ⟨?_, ?_, ?_, ?_⟩ <;> norm_num
  refine ⟨rfl, hmul, ?_, ?_, ?_, ?_⟩
  · intro x y z
    rw [hmul]
    refine ⟨?_, ?_, ?_⟩
    · constructor
      · rintro ⟨h1, h2⟩; constructor <;> norm_num <;> linarith
      · rintro ⟨h1, h2⟩; norm_num at h1 h2; constructor <;> linarith
    · constructor
      · rintro ⟨h1, h2⟩; constructor <;> norm_num <;> linarith
      · rintro ⟨h1, h2⟩; norm_num at h1 h2; constructor <;> linarith
    · constructor
      · rintro ⟨h1, h2⟩; constructor <;> norm_num <;> linarith
      · rintro ⟨h1, h2⟩; norm_num at h1 h2; constructor <;> linarith
  · intro u v w hu0 hu1 hv0 hv1 hw0 hw1
    refine ⟨2 * u - 1, 2 * v - 1, 2 * w - 1, by linarith, by linarith, by linarith,
      by linarith, by linarith, by linarith, ?_⟩
    rw [hmul]
    simp only [Vector4.mk.injEq, and_true]
    refine ⟨?_, ?_, ?_⟩ <;> norm_num <;> ring
  · rw [hmul]
    simp only [Vector4.mk.injEq, and_true]
    refine ⟨?_, ?_, ?_⟩ <;> norm_num
  · rw [hmul]
    simp only [Vector4.mk.injEq, and_true]
    refine ⟨?_, ?_, ?_⟩ <;> norm_num

end OffsetMatrixTheorems

section PoleTheorems

open MathUtil

/-- The argument of a positive real number is zero, in the form the math
record uses it. -/
theorem atan2_zero_pos (x : ℝ) (hx : 0 < x) : realMath.atan2 0 x = 0 := by
  show Complex.arg ⟨x, 0⟩ = 0
  exact Complex.arg_ofReal_of_nonneg hx.le

/-- The argument of -1 is π, in the form the math record uses it. -/
theorem atan2_zero_neg_one : realMath.atan2 0 (-1) = Real.pi := by
  show Complex.arg ⟨-1, 0⟩ = Real.pi
  have h : (⟨-1, 0⟩ : ℂ) = -1 := by
    apply Complex.ext <;> simp
  rw [h, Complex.arg_neg_one]

/-- C18 (the code at the failing input): for the axis (0, 0, 1) carrying
w = 2π and the angle argument π/2, g = 1 > 0.998; the yaw returned is
2 atan2(axis.x sin(w/2), cos(w/2)) = 2π, computed from the w stored in the
axis, whereas with the angle passed in, 2 atan2(axis.x sin(θ/2), cos(θ/2)),
it would be 0. Pitch and roll are 0 and PI/2. -/
theorem AxisRadToEulerRad_north_reads_axis_w (eulerRadian0 : Vector4 ℝ) :
    (0 : ℝ) * 0 * (1 - Real.cos (Real.pi / 2)) + 1 * Real.sin (Real.pi / 2) > 0.998 ∧
    AxisRadToEulerRad realMath eulerRadian0 ⟨0, 0, 1, 2 * Real.pi⟩ (Real.pi / 2) =
      ⟨2 * Real.pi, 0, PI / 2, eulerRadian0.w⟩ ∧
    2 * realMath.atan2 (0 * Real.sin (Real.pi / 2 / 2)) (Real.cos (Real.pi / 2 / 2)) = 0 ∧
    (AxisRadToEulerRad realMath eulerRadian0 ⟨0, 0, 1, 2 * Real.pi⟩ (Real.pi / 2)).x ≠
      2 * realMath.atan2 (0 * Real.sin (Real.pi / 2 / 2)) (Real.cos (Real.pi / 2 / 2)) := by
  have hg : (0 : ℝ) * 0 * (1 - Real.cos (Real.pi / 2)) + 1 * Real.sin (Real.pi / 2) > 0.998 := by
    rw [Real.sin_pi_div_two]; norm_num
  have hcode : AxisRadToEulerRad realMath eulerRadian0 ⟨0, 0, 1, 2 * Real.pi⟩ (Real.pi / 2) =
      ⟨2 * Real.pi, 0, PI / 2, eulerRadian0.w⟩ := by
    have hg2 : (0 : ℝ) * 0 * (1 - realMath.cos (Real.pi / 2)) + 1 * realMath.sin (Real.pi / 2)
        > 0.998 := hg
    simp only [AxisRadToEulerRad]
    rw [if_pos hg2]
    have e1 : realMath.cos (2 * Real.pi / 2) = -1 := by
      show Real.cos (2 * Real.pi / 2) = -1
      rw [mul_div_cancel_left₀ _ (two_ne_zero), Real.cos_pi]
    rw [e1, zero_mul, atan2_zero_neg_one]
  have hclaim : 2 * realMath.atan2 (0 * Real.sin (Real.pi / 2 / 2))
      (Real.cos (Real.pi / 2 / 2)) = 0 := by
    rw [zero_mul, atan2_zero_pos, mul_zero]
    apply Real.cos_pos_of_mem_Ioo
    constructor <;> linarith [Real.pi_pos]
  refine ⟨hg, hcode, hclaim, ?_⟩
  rw [hcode, hclaim]
  exact (mul_pos two_pos Real.pi_pos).ne'

/-- C19 (the code at the failing input): for the axis (0, 0, -1) carrying
w = π/2 and the angle π/2, g = -1 < -0.998; the south-pole branch returns
yaw 0, writes -PI/2 into the pitch (y) and never assigns the roll (z), which
keeps the value of the default-constructed vector. -/
theorem AxisRadToEulerRad_south_overwrites_pitch (eulerRadian0 : Vector4 ℝ) :
    (0 : ℝ) * 0 * (1 - Real.cos (Real.pi / 2)) + -1 * Real.sin (Real.pi / 2) < -0.998 ∧
    AxisRadToEulerRad realMath eulerRadian0 ⟨0, 0, -1, Real.pi / 2⟩ (Real.pi / 2) =
      ⟨0, -PI / 2, eulerRadian0.z, eulerRadian0.w⟩ ∧
    (AxisRadToEulerRad realMath eulerRadian0 ⟨0, 0, -1, Real.pi / 2⟩ (Real.pi / 2)).y ≠ 0 ∧
    (AxisRadToEulerRad realMath eulerRadian0 ⟨0, 0, -1, Real.pi / 2⟩ (Real.pi / 2)).z =
      eulerRadian0.z := by
  have hg : (0 : ℝ) * 0 * (1 - Real.cos (Real.pi / 2)) + -1 * Real.sin (Real.pi / 2)
      < -0.998 := by
    rw [Real.sin_pi_div_two]; norm_num
  have hcode : AxisRadToEulerRad realMath eulerRadian0 ⟨0, 0, -1, Real.pi / 2⟩ (Real.pi / 2) =
      ⟨0, -PI / 2, eulerRadian0.z, eulerRadian0.w⟩ := by
    have hn : ¬ ((0 : ℝ) * 0 * (1 - realMath.cos (Real.pi / 2)) +
        -1 * realMath.sin (Real.pi / 2) > 0.998) := by
      show ¬ ((0 : ℝ) * 0 * (1 - Real.cos (Real.pi / 2)) + -1 * Real.sin (Real.pi / 2) > 0.998)
      rw [Real.sin_pi_div_two]; norm_num
    have hs : (0 : ℝ) * 0 * (1 - realMath.cos (Real.pi / 2)) + -1 * realMath.sin (Real.pi / 2)
        < -0.998 := hg
    simp only [AxisRadToEulerRad]
    rw [if_neg hn, if_pos hs]
    have hpos : 0 < realMath.cos (Real.pi / 2 / 2) := by
      show 0 < Real.cos (Real.pi / 2 / 2)
      apply Real.cos_pos_of_mem_Ioo
      constructor <;> linarith [Real.pi_pos]
    rw [zero_mul, atan2_zero_pos _ hpos, mul_zero]
  refine ⟨hg, hcode, ?_, ?_⟩
  · rw [hcode]
    show -(PI : ℝ) / 2 ≠ 0
    simp only [PI]
    norm_num
  · rw [hcode]

end PoleTheorems

section PipelineTheorems

variable {K : Type} [LinearOrderedField K]

/-- The four split frustums, in split order. -/
theorem cascadeFrustums_eq (cur : CameraNode K) :
    ∃ f0 f1 f2 f3 : Frustum K, cascadeFrustums cur = [f0, f1, f2, f3] := by
  simp only [cascadeFrustums, splitRanges, splitLoop, numSplit, List.map]
  exact ⟨_, _, _, _, rfl⟩

/-- The shadow-bounds pass keeps the number of lists, keeps every list but the
first as it is, and only appends to the first. -/
theorem shadowBoundsPass_spec (sceneManager : SceneManager K) (cur : CameraNode K)
    (casterArrays : List (List (SceneNode K))) :
    (shadowBoundsPass sceneManager cur casterArrays).length = casterArrays.length ∧
      (shadowBoundsPass sceneManager cur casterArrays).tail = casterArrays.tail ∧
      (∃ added : List (SceneNode K),
        (shadowBoundsPass sceneManager cur casterArrays).headD [] =
          casterArrays.headD [] ++ added) ∧
      (¬ cur.ShadowExtentsSquareLength > 0 →
        shadowBoundsPass sceneManager cur casterArrays = casterArrays) := by
  simp only [shadowBoundsPass]
  split_ifs with h
  · cases casterArrays with
    | nil => exact ⟨rfl, rfl, ⟨[], rfl⟩, fun hn => absurd h hn⟩
    | cons a rest =>
      refine ⟨rfl, rfl, ⟨sceneManager.VisibleShadowCasters cur.GetShadowBounds, ?_⟩,
        fun hn => absurd h hn⟩
      simp [SceneManager.GetVisibleShadowCasters]
  · exact ⟨rfl, rfl, ⟨[], by simp⟩, fun _ => rfl⟩

/-- The four caster lists after filtering, in split order. -/
theorem cascadeFiltered_eq (e : Engine K) (sceneManager : SceneManager K)
    (cur : CameraNode K) :
    ∃ c0 c1 c2 c3 : List (SceneNode K),
      cascadeFiltered e sceneManager cur = [c0, c1, c2, c3] := by
  obtain ⟨f0, f1, f2, f3, hf⟩ := cascadeFrustums_eq cur
  simp only [cascadeFiltered, hf, List.map]
  exact ⟨_, _, _, _, rfl⟩

/-- The four caster lists that the crop fit reads, in split order. -/
theorem cascadeCasterArrays_eq (e : Engine K) (sceneManager : SceneManager K)
    (cur : CameraNode K) :
    ∃ c0 c1 c2 c3 : List (SceneNode K),
      cascadeCasterArrays e sceneManager cur = [c0, c1, c2, c3] := by
  obtain ⟨c0, c1, c2, c3, hc⟩ := cascadeFiltered_eq e sceneManager cur
  simp only [cascadeCasterArrays, hc, shadowBoundsPass]
  split_ifs
  · exact ⟨_, _, _, _, rfl⟩
  · exact ⟨_, _, _, _, rfl⟩

/-- C11: with a current camera, DrawCascadedShadowMap returns exactly four
transforms, in split order, the i-th being m_OffsetMatrix *
GetCropMatrix(lightMatrix, frustum_i, casters_i) * lightMatrix * (the current
camera's world matrix), for split i's frustum and caster list. -/
theorem DrawCascadedShadowMap_transforms (p : Pipeline K) (cur : CameraNode K) (m : CMath K)
    (e : Engine K) (sceneManager : SceneManager K) (node : LightNode K) :
    ∃ (f0 f1 f2 f3 : Frustum K) (c0 c1 c2 c3 : List (SceneNode K)),
      cascadeFrustums cur = [f0, f1, f2, f3] ∧
      cascadeCasterArrays e sceneManager cur = [c0, c1, c2, c3] ∧
      (Pipeline.DrawCascadedShadowMap { p with m_CurrentCamera := some cur } m e sceneManager
          node).2 =
        Except.ok
          [ p.m_OffsetMatrix * GetCropMatrix (lightMatrixOf m e node) f0 c0 *
              lightMatrixOf m e node * cur.GetWorldMatrix,
            p.m_OffsetMatrix * GetCropMatrix (lightMatrixOf m e node) f1 c1 *
              lightMatrixOf m e node * cur.GetWorldMatrix,
            p.m_OffsetMatrix * GetCropMatrix (lightMatrixOf m e node) f2 c2 *
              lightMatrixOf m e node * cur.GetWorldMatrix,
            p.m_OffsetMatrix * GetCropMatrix (lightMatrixOf m e node) f3 c3 *
              lightMatrixOf m e node * cur.GetWorldMatrix ] := by
  obtain ⟨f0, f1, f2, f3, hf⟩ := cascadeFrustums_eq cur
  obtain ⟨c0, c1, c2, c3, hc⟩ := cascadeCasterArrays_eq e sceneManager cur
  refine ⟨f0, f1, f2, f3, c0, c1, c2, c3, hf, hc, ?_⟩
  simp only [Pipeline.DrawCascadedShadowMap, cascadeProjMatrices, hf, hc, List.zipWith,
    List.map]

/-- C15: in DrawCascadedShadowMap the shadow-bounds pass, which runs only when
the camera's shadow bounds have a non-zero squared extent, only adds to split
0's caster list: what the per-split filtering put there is still there, in
front, and the lists of splits 1..3 are unchanged. -/
theorem shadowBoundsPass_only_adds_to_split0 (e : Engine K) (sceneManager : SceneManager K)
    (cur : CameraNode K) :
    ∃ (c0 c1 c2 c3 added : List (SceneNode K)),
      cascadeFiltered e sceneManager cur = [c0, c1, c2, c3] ∧
      cascadeCasterArrays e sceneManager cur = [c0 ++ added, c1, c2, c3] ∧
      (∀ n ∈ c0, n ∈ c0 ++ added) ∧
      (¬ cur.ShadowExtentsSquareLength > 0 → added = []) := by
  obtain ⟨c0, c1, c2, c3, hc⟩ := cascadeFiltered_eq e sceneManager cur
  by_cases h : cur.ShadowExtentsSquareLength > 0
  · refine ⟨c0, c1, c2, c3, sceneManager.VisibleShadowCasters cur.GetShadowBounds, hc, ?_,
      fun n hn => List.mem_append_left _ hn, fun hn => absurd h hn⟩
    simp only [cascadeCasterArrays, hc, shadowBoundsPass, if_pos h,
      SceneManager.GetVisibleShadowCasters]
    simp
  · refine ⟨c0, c1, c2, c3, [], hc, ?_, fun n hn => List.mem_append_left _ hn, fun _ => rfl⟩
    simp only [cascadeCasterArrays, hc, shadowBoundsPass, if_neg h, List.append_nil]

/-- C14 (the code at the failing input): on a freshly constructed pipeline,
whose current camera is null, each of the four shadow-map passes first
acquires and registers its depth buffer (the spot pass even binds and draws)
and then dereferences the null pointer; none reports an assertion failure,
as the guard at the top of DrawDebug does before doing anything. -/
theorem shadow_passes_dereference_null_camera (m : CMath K) (e : Engine K)
    (sceneManager : SceneManager K) (node : LightNode K) :
    (Pipeline.new : Pipeline K).m_CurrentCamera = none ∧
    Pipeline.DrawCascadedShadowMap (Pipeline.new : Pipeline K) m e sceneManager node =
      ([Event.GetTemporary 1024 1024 4, Event.AddToEntityManager],
        Except.error Fault.NullDereference) ∧
    Pipeline.DrawDirLightShadowMap (Pipeline.new : Pipeline K) m e sceneManager node =
      ([Event.GetTemporary 1024 1024 0, Event.AddToEntityManager],
        Except.error Fault.NullDereference) ∧
    Pipeline.DrawPointLightShadowMap (Pipeline.new : Pipeline K) m e sceneManager node =
      ([Event.GetTemporary 512 512 0, Event.AddToEntityManager],
        Except.error Fault.NullDereference) ∧
    Pipeline.DrawSpotLightShadowMap (Pipeline.new : Pipeline K) m e sceneManager node =
      ([Event.GetTemporary 1024 1024 0, Event.AddToEntityManager,
          Event.BindInvertViewMatrix (lightMatrixOf m e node),
          Event.BindProjectionMatrix (spotLightProjMatrix m node)] ++
          (spotLightCasters m e sceneManager node).map Event.DrawElements,
        Except.error Fault.NullDereference) ∧
    Pipeline.DrawDebug_guard (Pipeline.new : Pipeline K) =
      ([], Except.error
        (Fault.AssertionFailed "PrelightPipeline.m_CurrentCamera not found!")) ∧
    Fault.NullDereference ≠
      Fault.AssertionFailed "PrelightPipeline.m_CurrentCamera not found!" := by
  refine ⟨rfl, rfl, rfl, rfl, ?_, rfl, ?_⟩
  · simp [Pipeline.DrawSpotLightShadowMap, Pipeline.new]
  · intro h; cases h

/-- The matrix returned by GetCropMatrix is affine: its last row is
(0, 0, 0, 1). -/
theorem GetCropMatrix_last_row (lightMatrix : Matrix4 K) (frustum : Frustum K)
    (casters : List (SceneNode K)) :
    (GetCropMatrix lightMatrix frustum casters).r3 = 0 ∧
      (GetCropMatrix lightMatrix frustum casters).r7 = 0 ∧
      (GetCropMatrix lightMatrix frustum casters).r11 = 0 ∧
      (GetCropMatrix lightMatrix frustum casters).r15 = 1 := by
  simp only [GetCropMatrix, Matrix4.mul_def, Matrix4.mul, cropProjMatrix, cropMatrix,
    Matrix4.OrthoOffCenter]
  refine ⟨?_, ?_, ?_, ?_⟩ <;> norm_num

/-- C13 (as amended): DrawSpotLightShadowMap builds its frustum from the
light's outer angle with aspect 1, near 1 and far = the light radius, moved by
the inverse light matrix, and uses it to select the casters; the projection
it binds and uses in the returned transform is the perspective projection
PerspectiveFov(outer angle, 1024 / 1024, 1, radius), which is not the result
of any crop-matrix fit. -/
theorem DrawSpotLightShadowMap_projection (p : Pipeline K) (cur : CameraNode K) (m : CMath K)
    (e : Engine K) (sceneManager : SceneManager K) (node : LightNode K) :
    spotLightFrustum m e node =
        (Frustum.Setup m node.GetOutterAngle 1 1 node.GetRadius).Transform
          (e.Inverse (lightMatrixOf m e node)) ∧
    spotLightCasters m e sceneManager node =
        sceneManager.VisibleRenderables (spotLightFrustum m e node) ∧
    spotLightProjMatrix m node =
        Matrix4.PerspectiveFov m node.GetOutterAngle (1024 / 1024) 1 node.GetRadius ∧
    Pipeline.DrawSpotLightShadowMap { p with m_CurrentCamera := some cur } m e sceneManager
        node =
      ([Event.GetTemporary 1024 1024 0, Event.AddToEntityManager,
          Event.BindInvertViewMatrix (lightMatrixOf m e node),
          Event.BindProjectionMatrix (spotLightProjMatrix m node)] ++
          (spotLightCasters m e sceneManager node).map Event.DrawElements,
        Except.ok (p.m_OffsetMatrix * spotLightProjMatrix m node * lightMatrixOf m e node *
          cur.GetWorldMatrix)) ∧
    (∀ (lightMatrix : Matrix4 K) (frustum : Frustum K) (casters : List (SceneNode K)),
      spotLightProjMatrix m node ≠ GetCropMatrix lightMatrix frustum casters) := by
  refine ⟨?_, rfl, ?_, ?_, ?_⟩
  · simp only [spotLightFrustum]
    norm_num
  · simp only [spotLightProjMatrix]
    norm_num
  · simp [Pipeline.DrawSpotLightShadowMap]
  · intro lightMatrix frustum casters h
    have h15 := congrArg Matrix4.r15 h
    rw [(GetCropMatrix_last_row lightMatrix frustum casters).2.2.2] at h15
    simp only [spotLightProjMatrix, Matrix4.PerspectiveFov] at h15
    exact zero_ne_one h15

/-- C13 (counterexample): for the sample spot light (radius 10, outer angle 1)
in an empty scene, the projection that DrawSpotLightShadowMap binds has the
last row (0, 0, -1, 0), while GetCropMatrix(lightMatrix, frustum, casters)
has the last row (0, 0, 0, 1): they differ. -/
theorem DrawSpotLightShadowMap_not_crop_fit :
    (spotLightProjMatrix realMath (sampleLightNode : LightNode ℝ)).r15 = 0 ∧
    (GetCropMatrix (lightMatrixOf realMath sampleEngine (sampleLightNode : LightNode ℝ))
      (spotLightFrustum realMath sampleEngine sampleLightNode)
      (spotLightCasters realMath sampleEngine sampleSceneManager sampleLightNode)).r15 = 1 ∧
    spotLightProjMatrix realMath (sampleLightNode : LightNode ℝ) ≠
      GetCropMatrix (lightMatrixOf realMath sampleEngine (sampleLightNode : LightNode ℝ))
        (spotLightFrustum realMath sampleEngine sampleLightNode)
        (spotLightCasters realMath sampleEngine sampleSceneManager sampleLightNode) := by
  have h0 : (spotLightProjMatrix realMath (sampleLightNode : LightNode ℝ)).r15 = 0 := by
    simp only [spotLightProjMatrix, Matrix4.PerspectiveFov]
  have h1 := (GetCropMatrix_last_row
    (lightMatrixOf realMath sampleEngine (sampleLightNode : LightNode ℝ))
    (spotLightFrustum realMath sampleEngine sampleLightNode)
    (spotLightCasters realMath sampleEngine sampleSceneManager sampleLightNode)).2.2.2
  refine ⟨h0, h1, ?_⟩
  intro h
  have h15 := congrArg Matrix4.r15 h
  rw [h0, h1] at h15
  exact zero_ne_one h15

end PipelineTheorems

section CascadeDistinctAlgebra

variable {K : Type} [LinearOrderedField K]

/-- A product with a positive factor that is not positive has a factor that is
not positive. -/
theorem nonpos_of_pos_mul_nonpos (p k : K) (hp : 0 < p) (h : p * k ≤ 0) : k ≤ 0 := by
  by_contra hk
  push_neg at hk
  have := mul_pos hp hk
  linarith

/-- A product with a positive factor that is not negative has a factor that is
not negative. -/
theorem nonneg_of_pos_mul_nonneg (p k : K) (hp : 0 < p) (h : 0 ≤ p * k) : 0 ≤ k := by
  by_contra hk
  push_neg at hk
  have := mul_neg_of_pos_of_neg hp hk
  linarith

/-- Two depth ranges `[n, f]` and `[n', f']` with `n < n'` and `f < f'`, scaled
by the same slopes `ks` from the same offset `t`, cannot have the same minimum
and the same maximum unless every slope is zero. -/
theorem extents_force_zero (ks : List K) (t n f n' f' mX MX : K)
    (hn : 0 < n) (hnf : n < f) (hnn : n < n') (hff : f < f') (hnf' : n' < f')
    (hB : ∀ k ∈ ks, ∀ d ∈ [n, f], mX ≤ t + d * k ∧ t + d * k ≤ MX)
    (hB' : ∀ k ∈ ks, ∀ d ∈ [n', f'], mX ≤ t + d * k ∧ t + d * k ≤ MX)
    (hAmax : ∃ k ∈ ks, ∃ d ∈ [n, f], MX = t + d * k)
    (hAmax' : ∃ k ∈ ks, ∃ d ∈ [n', f'], MX = t + d * k)
    (hAmin : ∃ k ∈ ks, ∃ d ∈ [n, f], mX = t + d * k)
    (hAmin' : ∃ k ∈ ks, ∃ d ∈ [n', f'], mX = t + d * k) :
    ∀ k ∈ ks, k = 0 := by
  have hmemf' : f' ∈ [n', f'] := by simp
  have hmemn : n ∈ [n, f] := by simp
  have hMXle : MX ≤ t := by
    obtain ⟨k, hk, d, hd, e⟩ := hAmax
    have hdf : d < f' := by
      simp only [List.mem_cons, List.mem_singleton, List.not_mem_nil, or_false] at hd
      rcases hd with rfl | rfl <;> linarith
    have hdpos : 0 < d := by
      simp only [List.mem_cons, List.mem_singleton, List.not_mem_nil, or_false] at hd
      rcases hd with rfl | rfl <;> linarith
    have h1 := (hB' k hk f' hmemf').2
    have hk0 : k ≤ 0 := nonpos_of_pos_mul_nonpos (f' - d) k (by linarith) (by rw [e] at h1; linarith)
    have := mul_nonpos_of_nonneg_of_nonpos hdpos.le hk0
    linarith
  have hMXge : t ≤ MX := by
    obtain ⟨k, hk, d, hd, e⟩ := hAmax'
    have hdn : n < d := by
      simp only [List.mem_cons, List.mem_singleton, List.not_mem_nil, or_false] at hd
      rcases hd with rfl | rfl <;> linarith
    have h1 := (hB k hk n hmemn).2
    have hk0 : 0 ≤ k := nonneg_of_pos_mul_nonneg (d - n) k (by linarith) (by rw [e] at h1; linarith)
    have := mul_nonneg (by linarith : (0 : K) ≤ d) hk0
    linarith
  have hmXge : t ≤ mX := by
    obtain ⟨k, hk, d, hd, e⟩ := hAmin
    have hdf : d < f' := by
      simp only [List.mem_cons, List.mem_singleton, List.not_mem_nil, or_false] at hd
      rcases hd with rfl | rfl <;> linarith
    have hdpos : 0 < d := by
      simp only [List.mem_cons, List.mem_singleton, List.not_mem_nil, or_false] at hd
      rcases hd with rfl | rfl <;> linarith
    have h1 := (hB' k hk f' hmemf').1
    have hk0 : 0 ≤ k := nonneg_of_pos_mul_nonneg (f' - d) k (by linarith) (by rw [e] at h1; linarith)
    have := mul_nonneg hdpos.le hk0
    linarith
  have hmXle : mX ≤ t := by
    obtain ⟨k, hk, d, hd, e⟩ := hAmin'
    have hdn : n < d := by
      simp only [List.mem_cons, List.mem_singleton, List.not_mem_nil, or_false] at hd
      rcases hd with rfl | rfl <;> linarith
    have h1 := (hB k hk n hmemn).1
    have hk0 : k ≤ 0 := nonpos_of_pos_mul_nonpos (d - n) k (by linarith) (by rw [e] at h1; linarith)
    have := mul_nonpos_of_nonneg_of_nonpos (by linarith : (0 : K) ≤ d) hk0
    linarith
  intro k hk
  obtain ⟨b1, b2⟩ := hB k hk n hmemn
  have h1 : 0 ≤ k := nonneg_of_pos_mul_nonneg n k hn (by linarith)
  have h2 : k ≤ 0 := nonpos_of_pos_mul_nonpos n k hn (by linarith)
  exact le_antisymm h2 h1

/-- A depth range `[n, f]` with `n < f` whose scaled values all coincide has
only zero slopes. -/
theorem width_zero_force_zero (ks : List K) (t n f mX : K) (hnf : n < f)
    (hB : ∀ k ∈ ks, ∀ d ∈ [n, f], mX ≤ t + d * k ∧ t + d * k ≤ mX) :
    ∀ k ∈ ks, k = 0 := by
  intro k hk
  obtain ⟨a1, a2⟩ := hB k hk n (by simp)
  obtain ⟨b1, b2⟩ := hB k hk f (by simp)
  have h : (f - n) * k = 0 := by
    have e1 : t + n * k = mX := le_antisymm a2 a1
    have e2 : t + f * k = mX := le_antisymm b2 b1
    linear_combination e2 - e1
  rcases mul_eq_zero.mp h with h | h
  · exact absurd h (sub_ne_zero.mpr hnf.ne')
  · exact h

end CascadeDistinctAlgebra

section CascadeDistinctGeometry

variable {K : Type} [LinearOrderedField K]

/-- The corners of a split frustum in light view: each is a point whose x is
`M.r12 + d * k` for a depth `d` of the split and a slope `k`, and every such
value is the x of a corner. Here `M = lightMatrix * world` is affine. -/
theorem persp_corners_x (m : CMath K) (fov ratio : K) (world lightMatrix : Matrix4 K)
    (n f : K)
    (haff : (lightMatrix * world).r3 = 0 ∧ (lightMatrix * world).r7 = 0 ∧
      (lightMatrix * world).r11 = 0 ∧ (lightMatrix * world).r15 = 1) :
    (∀ c ∈ (perspectiveGetFrustum m fov ratio world n f).GetCurrentCorners,
      (lightMatrix.Multiply c).w = 1 ∧
      ∃ k ∈ splitSlopes m fov ratio (lightMatrix * world), ∃ d ∈ [n, f],
        (lightMatrix.Multiply c).x = (lightMatrix * world).r12 + d * k) ∧
    (∀ k ∈ splitSlopes m fov ratio (lightMatrix * world), ∀ d ∈ [n, f],
      ∃ c ∈ (perspectiveGetFrustum m fov ratio world n f).GetCurrentCorners,
        (lightMatrix.Multiply c).x = (lightMatrix * world).r12 + d * k) := by
  obtain ⟨h3, h7, h11, h15⟩ := haff
  have hpt : ∀ x y z : K,
      (lightMatrix.Multiply (world.Multiply ⟨x, y, z, 1⟩)).w = 1 ∧
      (lightMatrix.Multiply (world.Multiply ⟨x, y, z, 1⟩)).x =
        (lightMatrix * world).r0 * x + (lightMatrix * world).r4 * y +
          (lightMatrix * world).r8 * z + (lightMatrix * world).r12 := by
    intro x y z
    rw [← Matrix4.mul_Multiply]
    generalize lightMatrix * world = M at h3 h7 h11 h15
    simp only [Matrix4.Multiply, h3, h7, h11, h15]
    constructor <;> ring
  generalize hM : lightMatrix * world = M at hpt
  have hks : ∀ k, k ∈ splitSlopes m fov ratio M ↔
      (k = -(m.tan (fov / 2) * ratio * M.r0) - m.tan (fov / 2) * M.r4 - M.r8 ∨
        k = m.tan (fov / 2) * ratio * M.r0 - m.tan (fov / 2) * M.r4 - M.r8 ∨
        k = -(m.tan (fov / 2) * ratio * M.r0) + m.tan (fov / 2) * M.r4 - M.r8 ∨
        k = m.tan (fov / 2) * ratio * M.r0 + m.tan (fov / 2) * M.r4 - M.r8) := by
    intro k
    simp [splitSlopes]
  have hds : ∀ d, d ∈ [n, f] ↔ (d = n ∨ d = f) := by
    intro d; simp
  have hcs : ∀ c, c ∈ (perspectiveGetFrustum m fov ratio world n f).GetCurrentCorners ↔
      (c = world.Multiply ⟨-(m.tan (fov / 2) * ratio * n), -(m.tan (fov / 2) * n), -n, 1⟩ ∨
        c = world.Multiply ⟨m.tan (fov / 2) * ratio * n, -(m.tan (fov / 2) * n), -n, 1⟩ ∨
        c = world.Multiply ⟨-(m.tan (fov / 2) * ratio * n), m.tan (fov / 2) * n, -n, 1⟩ ∨
        c = world.Multiply ⟨m.tan (fov / 2) * ratio * n, m.tan (fov / 2) * n, -n, 1⟩ ∨
        c = world.Multiply ⟨-(m.tan (fov / 2) * ratio * f), -(m.tan (fov / 2) * f), -f, 1⟩ ∨
        c = world.Multiply ⟨m.tan (fov / 2) * ratio * f, -(m.tan (fov / 2) * f), -f, 1⟩ ∨
        c = world.Multiply ⟨-(m.tan (fov / 2) * ratio * f), m.tan (fov / 2) * f, -f, 1⟩ ∨
        c = world.Multiply ⟨m.tan (fov / 2) * ratio * f, m.tan (fov / 2) * f, -f, 1⟩) := by
    intro c
    simp [perspectiveGetFrustum, Frustum.Setup, Frustum.Transform, Frustum.GetCurrentCorners]
  constructor
  · intro c hc
    rcases (hcs c).mp hc with rfl | rfl | rfl | rfl | rfl | rfl | rfl | rfl
    · exact ⟨(hpt _ _ _).1, _, (hks _).mpr (Or.inl rfl), n, (hds _).mpr (Or.inl rfl),
        by rw [(hpt _ _ _).2]; ring⟩
    · exact ⟨(hpt _ _ _).1, _, (hks _).mpr (Or.inr (Or.inl rfl)), n, (hds _).mpr (Or.inl rfl),
        by rw [(hpt _ _ _).2]; ring⟩
    · exact ⟨(hpt _ _ _).1, _, (hks _).mpr (Or.inr (Or.inr (Or.inl rfl))), n,
        (hds _).mpr (Or.inl rfl), by rw [(hpt _ _ _).2]; ring⟩
    · exact ⟨(hpt _ _ _).1, _, (hks _).mpr (Or.inr (Or.inr (Or.inr rfl))), n,
        (hds _).mpr (Or.inl rfl), by rw [(hpt _ _ _).2]; ring⟩
    · exact ⟨(hpt _ _ _).1, _, (hks _).mpr (Or.inl rfl), f, (hds _).mpr (Or.inr rfl),
        by rw [(hpt _ _ _).2]; ring⟩
    · exact ⟨(hpt _ _ _).1, _, (hks _).mpr (Or.inr (Or.inl rfl)), f, (hds _).mpr (Or.inr rfl),
        by rw [(hpt _ _ _).2]; ring⟩
    · exact ⟨(hpt _ _ _).1, _, (hks _).mpr (Or.inr (Or.inr (Or.inl rfl))), f,
        (hds _).mpr (Or.inr rfl), by rw [(hpt _ _ _).2]; ring⟩
    · exact ⟨(hpt _ _ _).1, _, (hks _).mpr (Or.inr (Or.inr (Or.inr rfl))), f,
        (hds _).mpr (Or.inr rfl), by rw [(hpt _ _ _).2]; ring⟩
  · intro k hk d hd
    rcases (hks k).mp hk with rfl | rfl | rfl | rfl <;> rcases (hds d).mp hd with rfl | rfl
    · exact ⟨_, (hcs _).mpr (Or.inl rfl), by rw [(hpt _ _ _).2]; ring⟩
    · exact ⟨_, (hcs _).mpr (Or.inr (Or.inr (Or.inr (Or.inr (Or.inl rfl))))),
        by rw [(hpt _ _ _).2]; ring⟩
    · exact ⟨_, (hcs _).mpr (Or.inr (Or.inl rfl)), by rw [(hpt _ _ _).2]; ring⟩
    · exact ⟨_, (hcs _).mpr (Or.inr (Or.inr (Or.inr (Or.inr (Or.inr (Or.inl rfl)))))),
        by rw [(hpt _ _ _).2]; ring⟩
    · exact ⟨_, (hcs _).mpr (Or.inr (Or.inr (Or.inl rfl))), by rw [(hpt _ _ _).2]; ring⟩
    · exact ⟨_, (hcs _).mpr (Or.inr (Or.inr (Or.inr (Or.inr (Or.inr (Or.inr (Or.inl rfl))))))),
        by rw [(hpt _ _ _).2]; ring⟩
    · exact ⟨_, (hcs _).mpr (Or.inr (Or.inr (Or.inr (Or.inl rfl)))),
        by rw [(hpt _ _ _).2]; ring⟩
    · exact ⟨_, (hcs _).mpr (Or.inr (Or.inr (Or.inr (Or.inr (Or.inr (Or.inr (Or.inr rfl))))))),
        by rw [(hpt _ _ _).2]; ring⟩

end CascadeDistinctGeometry

section CascadeDistinctCrops

variable {K : Type} [LinearOrderedField K]

/-- The extrema of "limit xy" in X for a split frustum: they bracket every
value `M.r12 + d * k` and each is one of these values. -/
theorem persp_limitXY (m : CMath K) (fov ratio : K) (world lightMatrix : Matrix4 K)
    (n f : K) (casters : List (SceneNode K))
    (haff : (lightMatrix * world).r3 = 0 ∧ (lightMatrix * world).r7 = 0 ∧
      (lightMatrix * world).r11 = 0 ∧ (lightMatrix * world).r15 = 1) :
    (∀ k ∈ splitSlopes m fov ratio (lightMatrix * world), ∀ d ∈ [n, f],
      (limitXY lightMatrix (perspectiveGetFrustum m fov ratio world n f) casters).minX ≤
          (lightMatrix * world).r12 + d * k ∧
        (lightMatrix * world).r12 + d * k ≤
          (limitXY lightMatrix (perspectiveGetFrustum m fov ratio world n f) casters).maxX) ∧
    (∃ k ∈ splitSlopes m fov ratio (lightMatrix * world), ∃ d ∈ [n, f],
      (limitXY lightMatrix (perspectiveGetFrustum m fov ratio world n f) casters).maxX =
        (lightMatrix * world).r12 + d * k) ∧
    (∃ k ∈ splitSlopes m fov ratio (lightMatrix * world), ∃ d ∈ [n, f],
      (limitXY lightMatrix (perspectiveGetFrustum m fov ratio world n f) casters).minX =
        (lightMatrix * world).r12 + d * k) := by
  obtain ⟨hc1, hc2⟩ := persp_corners_x m fov ratio world lightMatrix n f haff
  have hw : ∀ c ∈ (perspectiveGetFrustum m fov ratio world n f).GetCurrentCorners,
      (lightMatrix.Multiply c).w = 1 := fun c hc => (hc1 c hc).1
  have hb := limitXY_brackets lightMatrix (perspectiveGetFrustum m fov ratio world n f)
    casters hw
  obtain ⟨-, ⟨cmin, hcmin, emin⟩, ⟨cmax, hcmax, emax⟩, -, -⟩ :=
    limitXY_extrema lightMatrix (perspectiveGetFrustum m fov ratio world n f) casters
  refine ⟨?_, ?_, ?_⟩
  · intro k hk d hd
    obtain ⟨c, hc, e⟩ := hc2 k hk d hd
    rw [← e]
    exact ⟨(hb c hc).1, (hb c hc).2.1⟩
  · obtain ⟨k, hk, d, hd, e⟩ := (hc1 cmax hcmax).2
    refine ⟨k, hk, d, hd, ?_⟩
    rw [emax, (mvp_Multiply_point lightMatrix _ casters cmax (hw cmax hcmax)).1, e]
  · obtain ⟨k, hk, d, hd, e⟩ := (hc1 cmin hcmin).2
    refine ⟨k, hk, d, hd, ?_⟩
    rw [emin, (mvp_Multiply_point lightMatrix _ casters cmin (hw cmin hcmin)).1, e]

/-- The X entries of the matrix returned by GetCropMatrix are the crop's scale
and offset. -/
theorem GetCropMatrix_x_entries (lightMatrix : Matrix4 K) (frustum : Frustum K)
    (casters : List (SceneNode K)) :
    (GetCropMatrix lightMatrix frustum casters).r0 =
        2 / ((limitXY lightMatrix frustum casters).maxX -
          (limitXY lightMatrix frustum casters).minX) ∧
      (GetCropMatrix lightMatrix frustum casters).r12 =
        -(1 / 2) * ((limitXY lightMatrix frustum casters).maxX +
          (limitXY lightMatrix frustum casters).minX) *
          (2 / ((limitXY lightMatrix frustum casters).maxX -
            (limitXY lightMatrix frustum casters).minX)) := by
  simp only [GetCropMatrix, Matrix4.mul_def, Matrix4.mul, cropProjMatrix, cropMatrix,
    cropScaleX, Matrix4.OrthoOffCenter]
  constructor <;> norm_num

/-- When the four slopes vanish, the X row of the matrix to light view
vanishes, the pyramid's cross-section being non-degenerate. -/
theorem slopes_zero_row_zero (m : CMath K) (fov ratio : K) (M : Matrix4 K)
    (htan : m.tan (fov / 2) ≠ 0) (hratio : ratio ≠ 0)
    (h : ∀ k ∈ splitSlopes m fov ratio M, k = 0) :
    M.r0 = 0 ∧ M.r4 = 0 ∧ M.r8 = 0 := by
  have h1 := h (-(m.tan (fov / 2) * ratio * M.r0) - m.tan (fov / 2) * M.r4 - M.r8)
    (by simp [splitSlopes])
  have h2 := h (m.tan (fov / 2) * ratio * M.r0 - m.tan (fov / 2) * M.r4 - M.r8)
    (by simp [splitSlopes])
  have h3 := h (-(m.tan (fov / 2) * ratio * M.r0) + m.tan (fov / 2) * M.r4 - M.r8)
    (by simp [splitSlopes])
  have ha : m.tan (fov / 2) * ratio * M.r0 = 0 := by linear_combination (1 / 2) * h2 - (1 / 2) * h1
  have hb : m.tan (fov / 2) * M.r4 = 0 := by linear_combination (1 / 2) * h3 - (1 / 2) * h1
  have hc : M.r8 = 0 := by linear_combination (-1 : K) * h1 - ha - hb
  refine ⟨?_, ?_, hc⟩
  · rcases mul_eq_zero.mp ha with h | h
    · rcases mul_eq_zero.mp h with h | h
      · exact absurd h htan
      · exact absurd h hratio
    · exact h
  · rcases mul_eq_zero.mp hb with h | h
    · exact absurd h htan
    · exact h

/-- Two split frustums over depth ranges `[n, f]` and `[n', f']` with `n < n'`
and `f < f'` get different crop matrices, whatever their caster lists,
provided the map to light view is affine with a non-zero X row. -/
theorem GetCropMatrix_ne_of_splits (m : CMath K) (fov ratio : K)
    (world lightMatrix : Matrix4 K) (n f n' f' : K) (casters casters' : List (SceneNode K))
    (hn : 0 < n) (hnf : n < f) (hnn : n < n') (hff : f < f') (hnf' : n' < f')
    (htan : m.tan (fov / 2) ≠ 0) (hratio : ratio ≠ 0)
    (haff : (lightMatrix * world).r3 = 0 ∧ (lightMatrix * world).r7 = 0 ∧
      (lightMatrix * world).r11 = 0 ∧ (lightMatrix * world).r15 = 1)
    (hrow : ¬ ((lightMatrix * world).r0 = 0 ∧ (lightMatrix * world).r4 = 0 ∧
      (lightMatrix * world).r8 = 0)) :
    GetCropMatrix lightMatrix (perspectiveGetFrustum m fov ratio world n f) casters ≠
      GetCropMatrix lightMatrix (perspectiveGetFrustum m fov ratio world n' f') casters' := by
  obtain ⟨hB, hAmax, hAmin⟩ := persp_limitXY m fov ratio world lightMatrix n f casters haff
  obtain ⟨hB', hAmax', hAmin'⟩ :=
    persp_limitXY m fov ratio world lightMatrix n' f' casters' haff
  intro heq
  have e0 := congrArg Matrix4.r0 heq
  have e12 := congrArg Matrix4.r12 heq
  rw [(GetCropMatrix_x_entries _ _ _).1, (GetCropMatrix_x_entries _ _ _).1] at e0
  rw [(GetCropMatrix_x_entries _ _ _).2, (GetCropMatrix_x_entries _ _ _).2] at e12
  generalize (limitXY lightMatrix (perspectiveGetFrustum m fov ratio world n f) casters).minX
    = a at hB hAmin e0 e12
  generalize (limitXY lightMatrix (perspectiveGetFrustum m fov ratio world n f) casters).maxX
    = b at hB hAmax e0 e12
  generalize (limitXY lightMatrix (perspectiveGetFrustum m fov ratio world n' f') casters').minX
    = a' at hB' hAmin' e0 e12
  generalize (limitXY lightMatrix (perspectiveGetFrustum m fov ratio world n' f') casters').maxX
    = b' at hB' hAmax' e0 e12
  -- the widths are not zero
  have hw : b - a ≠ 0 := by
    intro h0
    have hab : b = a := sub_eq_zero.mp h0
    rw [hab] at hB
    exact hrow (slopes_zero_row_zero m fov ratio _ htan hratio
      (width_zero_force_zero _ _ n f a hnf hB))
  have hw' : b' - a' ≠ 0 := by
    intro h0
    have hab : b' = a' := sub_eq_zero.mp h0
    rw [hab] at hB'
    exact hrow (slopes_zero_row_zero m fov ratio _ htan hratio
      (width_zero_force_zero _ _ n' f' a' hnf' hB'))
  -- equal scale and offset give equal extrema
  have hwidth : b - a = b' - a' := by
    field_simp at e0
    linarith
  have hsum : b + a = b' + a' := by
    rw [hwidth] at e12
    field_simp at e12
    linarith
  have hb : b = b' := by linarith
  have ha : a = a' := by linarith
  subst hb
  subst ha
  exact hrow (slopes_zero_row_zero m fov ratio _ htan hratio
    (extents_force_zero _ _ n f n' f' a b hn hnf hnn hff hnf' hB hB' hAmax hAmax' hAmin hAmin'))

end CascadeDistinctCrops

section CascadeListsTheorems

/-- Membership in the output of FilterNodes started on an empty list. -/
theorem FilterNodes_mem {K : Type} (collider : Collidable K) (possibles : List (SceneNode K))
    (n : SceneNode K) :
    n ∈ (FilterNodes collider possibles []).2 ↔
      n ∈ possibles ∧ collider.IsInsideFast n.GetWorldAABB = true := by
  simp only [FilterNodes, foldl_filterStep]
  simp [List.mem_filter]

variable {K : Type} [LinearOrderedField K]

/-- The four split frustums, written out. -/
theorem cascadeFrustums_explicit (cur : CameraNode K) :
    cascadeFrustums cur =
      [ cur.GetFrustum cur.camera.GetNear
          (cur.camera.GetNear + (cur.camera.GetFar - cur.camera.GetNear) / 4),
        cur.GetFrustum (cur.camera.GetNear + (cur.camera.GetFar - cur.camera.GetNear) / 4)
          (cur.camera.GetNear + (cur.camera.GetFar - cur.camera.GetNear) / 4 +
            (cur.camera.GetFar - cur.camera.GetNear) / 4),
        cur.GetFrustum (cur.camera.GetNear + (cur.camera.GetFar - cur.camera.GetNear) / 4 +
            (cur.camera.GetFar - cur.camera.GetNear) / 4)
          (cur.camera.GetNear + (cur.camera.GetFar - cur.camera.GetNear) / 4 +
            (cur.camera.GetFar - cur.camera.GetNear) / 4 +
            (cur.camera.GetFar - cur.camera.GetNear) / 4),
        cur.GetFrustum (cur.camera.GetNear + (cur.camera.GetFar - cur.camera.GetNear) / 4 +
            (cur.camera.GetFar - cur.camera.GetNear) / 4 +
            (cur.camera.GetFar - cur.camera.GetNear) / 4)
          (cur.camera.GetNear + (cur.camera.GetFar - cur.camera.GetNear) / 4 +
            (cur.camera.GetFar - cur.camera.GetNear) / 4 +
            (cur.camera.GetFar - cur.camera.GetNear) / 4 +
            (cur.camera.GetFar - cur.camera.GetNear) / 4) ] := by
  simp only [cascadeFrustums, splitRanges, splitLoop, numSplit, List.map]
  push_cast
  rfl

/-- C12: in the cascaded run with no camera shadow bounds, a broad-phase
caster is in split i's caster list exactly when its world AABB passes the fast
test of split i's frustum, so a caster that passes for one split only is in
that split's list and in no other; and for a camera whose split frustums are
the spec's (perspective, near > 0, near < far) under an affine map to light
view with a non-zero X row, the four crop matrices are pairwise distinct. -/
theorem cascade_casters_and_crops (cur : CameraNode K) (m : CMath K) (e : Engine K)
    (sceneManager : SceneManager K) (node : LightNode K)
    (hbounds : ¬ cur.ShadowExtentsSquareLength > 0) :
    ∃ (f0 f1 f2 f3 : Frustum K) (c0 c1 c2 c3 : List (SceneNode K)),
      cascadeFrustums cur = [f0, f1, f2, f3] ∧
      cascadeCasterArrays e sceneManager cur = [c0, c1, c2, c3] ∧
      (∀ n, n ∈ c0 ↔ n ∈ cascadeCasterAll e sceneManager cur ∧
        e.FrustumIsInsideFast f0 n.GetWorldAABB = true) ∧
      (∀ n, n ∈ c1 ↔ n ∈ cascadeCasterAll e sceneManager cur ∧
        e.FrustumIsInsideFast f1 n.GetWorldAABB = true) ∧
      (∀ n, n ∈ c2 ↔ n ∈ cascadeCasterAll e sceneManager cur ∧
        e.FrustumIsInsideFast f2 n.GetWorldAABB = true) ∧
      (∀ n, n ∈ c3 ↔ n ∈ cascadeCasterAll e sceneManager cur ∧
        e.FrustumIsInsideFast f3 n.GetWorldAABB = true) ∧
      cascadeProjMatrices m e sceneManager cur node =
        [ GetCropMatrix (lightMatrixOf m e node) f0 c0,
          GetCropMatrix (lightMatrixOf m e node) f1 c1,
          GetCropMatrix (lightMatrixOf m e node) f2 c2,
          GetCropMatrix (lightMatrixOf m e node) f3 c3 ] ∧
      (∀ fov ratio : K,
        cur.GetFrustum = perspectiveGetFrustum m fov ratio cur.GetWorldMatrix →
        0 < cur.camera.GetNear → cur.camera.GetNear < cur.camera.GetFar →
        m.tan (fov / 2) ≠ 0 → ratio ≠ 0 →
        ((lightMatrixOf m e node * cur.GetWorldMatrix).r3 = 0 ∧
          (lightMatrixOf m e node * cur.GetWorldMatrix).r7 = 0 ∧
          (lightMatrixOf m e node * cur.GetWorldMatrix).r11 = 0 ∧
          (lightMatrixOf m e node * cur.GetWorldMatrix).r15 = 1) →
        ¬ ((lightMatrixOf m e node * cur.GetWorldMatrix).r0 = 0 ∧
          (lightMatrixOf m e node * cur.GetWorldMatrix).r4 = 0 ∧
          (lightMatrixOf m e node * cur.GetWorldMatrix).r8 = 0) →
        (cascadeProjMatrices m e sceneManager cur node).Pairwise (fun a b => a ≠ b)) := by
  have hf := cascadeFrustums_explicit cur
  have hc : cascadeCasterArrays e sceneManager cur =
      (cascadeFrustums cur).map (fun frustum => (FilterNodes (e.frustumCollider frustum)
        (cascadeCasterAll e sceneManager cur) []).2) := by
    simp only [cascadeCasterArrays, shadowBoundsPass, if_neg hbounds, cascadeFiltered]
  rw [hf] at hc
  simp only [List.map] at hc
  have hp : cascadeProjMatrices m e sceneManager cur node =
      List.zipWith (fun frustum casters => GetCropMatrix (lightMatrixOf m e node) frustum casters)
        (cascadeFrustums cur) (cascadeCasterArrays e sceneManager cur) := rfl
  rw [hf, hc] at hp
  simp only [List.zipWith] at hp
  refine ⟨_, _, _, _, _, _, _, _, hf, hc, ?_, ?_, ?_, ?_, hp, ?_⟩
  · intro n; exact FilterNodes_mem _ _ n
  · intro n; exact FilterNodes_mem _ _ n
  · intro n; exact FilterNodes_mem _ _ n
  · intro n; exact FilterNodes_mem _ _ n
  · intro fov ratio hfr hnear hfar htan hratio haff hrow
    have havg : 0 < (cur.camera.GetFar - cur.camera.GetNear) / 4 :=
      div_pos (sub_pos.mpr hfar) (by norm_num)
    rw [hp, hfr]
    simp only [List.pairwise_cons, List.mem_cons, List.mem_singleton, List.not_mem_nil,
      forall_eq_or_imp, forall_eq, IsEmpty.forall_iff, implies_true, List.Pairwise.nil,
      and_true]
    refine ⟨⟨?_, ?_, ?_⟩, ⟨?_, ?_⟩, ?_⟩ <;>
      exact GetCropMatrix_ne_of_splits m fov ratio _ _ _ _ _ _ _ _ (by linarith) (by linarith)
        (by linarith) (by linarith) (by linarith) htan hratio haff hrow

/-- Witness for C12: the sample camera (near 1, far 101, 90° field of view,
identity world matrix, no shadow bounds) with the sample light in the empty
scene; its four crop matrices are pairwise distinct. -/
theorem cascade_casters_and_crops_witness :
    ¬ ((sampleCameraNode realMath (Real.pi / 2)).ShadowExtentsSquareLength > 0) ∧
    (cascadeProjMatrices realMath sampleEngine sampleSceneManager
      (sampleCameraNode realMath (Real.pi / 2)) sampleLightNode).Pairwise
        (fun a b => a ≠ b) := by
  have hb : ¬ ((sampleCameraNode realMath (Real.pi / 2)).ShadowExtentsSquareLength > 0) := by
    simp [sampleCameraNode]
  refine ⟨hb, ?_⟩
  obtain ⟨f0, f1, f2, f3, c0, c1, c2, c3, -, -, -, -, -, -, -, hpair⟩ :=
    cascade_casters_and_crops (sampleCameraNode realMath (Real.pi / 2)) realMath sampleEngine
      sampleSceneManager sampleLightNode hb
  have htan : realMath.tan (Real.pi / 2 / 2) ≠ 0 := by
    show Real.tan (Real.pi / 2 / 2) ≠ 0
    have : Real.pi / 2 / 2 = Real.pi / 4 := by ring
    rw [this, Real.tan_pi_div_four]
    exact one_ne_zero
  apply hpair (Real.pi / 2) 1 rfl
  · simp [sampleCameraNode]
  · norm_num [sampleCameraNode]
  · exact htan
  · exact one_ne_zero
  · norm_num [lightMatrixOf, sampleEngine, sampleLightNode, sampleCameraNode, Matrix4.mul_def,
      Matrix4.mul, Matrix4.Identity]
  · norm_num [lightMatrixOf, sampleEngine, sampleLightNode, sampleCameraNode, Matrix4.mul_def,
      Matrix4.mul, Matrix4.Identity]

end CascadeListsTheorems

section PointLightTheorems

variable {K : Type} [LinearOrderedField K]

/-- The spatial part of the difference of a displaced point and the point. -/
theorem Vector4.add_sub_self_xyz (pos d : Vector4 K) :
    (pos + d - pos).x = d.x ∧ (pos + d - pos).y = d.y ∧ (pos + d - pos).z = d.z := by
  show (Vector4.sub (Vector4.add pos d) pos).x = d.x ∧
    (Vector4.sub (Vector4.add pos d) pos).y = d.y ∧
    (Vector4.sub (Vector4.add pos d) pos).z = d.z
  simp only [Vector4.sub, Vector4.add]
  refine ⟨?_, ?_, ?_⟩ <;> ring

/-- C21: the six view matrices of DrawPointLightShadowMap are look-ats from
the light position towards +X, -X, +Y, -Y, +Z, -Z, in face order, and on every
face the up vector is orthogonal to the view direction and their cross
product is not zero, so no look-at is degenerate. -/
theorem pointLight_lookAts (e : Engine K) (lightPos : Vector4 K) :
    pointLightDirMatrices e lightPos =
      (pointLightLookAts e lightPos).map (fun a => e.LookAt a.1 a.2.1 a.2.2) ∧
    (pointLightLookAts e lightPos).map (fun a => a.1) =
      [lightPos, lightPos, lightPos, lightPos, lightPos, lightPos] ∧
    (pointLightLookAts e lightPos).map
        (fun a => ((lookDirection a).x, (lookDirection a).y, (lookDirection a).z)) =
      [(1, 0, 0), (-1, 0, 0), (0, 1, 0), (0, -1, 0), (0, 0, 1), (0, 0, -1)] ∧
    (∀ a ∈ pointLightLookAts e lightPos,
      (lookDirection a).dot a.2.2 = 0 ∧
      (((lookDirection a).cross a.2.2).x ≠ 0 ∨ ((lookDirection a).cross a.2.2).y ≠ 0 ∨
        ((lookDirection a).cross a.2.2).z ≠ 0)) := by
  refine ⟨rfl, rfl, ?_, ?_⟩
  · simp only [pointLightLookAts, lookDirection, List.map, Vector4.add_sub_self_xyz,
      Engine.Vector3]
    norm_num
  · intro a ha
    simp only [pointLightLookAts, List.mem_cons, List.mem_singleton, List.not_mem_nil,
      or_false] at ha
    rcases ha with rfl | rfl | rfl | rfl | rfl | rfl <;>
    · simp only [lookDirection, Vector4.dot, Vector4.cross, Vector4.add_sub_self_xyz,
        Engine.Vector3]
      norm_num

end PointLightTheorems

section UnitQuaternionTheorems

open MathUtil

/-- C22: the rotation conversions produce unit quaternions over the reals:
EulerRadToQuat for all yaw, pitch and roll, and AxisRadToQuat for every
unit-length axis and every angle. -/
theorem conversions_give_unit_quaternions :
    (∀ yaw pitch roll : ℝ,
      (EulerRadToQuat realMath yaw pitch roll).x ^ 2 +
        (EulerRadToQuat realMath yaw pitch roll).y ^ 2 +
        (EulerRadToQuat realMath yaw pitch roll).z ^ 2 +
        (EulerRadToQuat realMath yaw pitch roll).w ^ 2 = 1) ∧
    (∀ (axis : Vector4 ℝ) (angle : ℝ), axis.SquareLength = 1 →
      (AxisRadToQuat realMath axis angle).x ^ 2 + (AxisRadToQuat realMath axis angle).y ^ 2 +
        (AxisRadToQuat realMath axis angle).z ^ 2 +
        (AxisRadToQuat realMath axis angle).w ^ 2 = 1) := by
  constructor
  · intro yaw pitch roll
    have hx := Real.cos_sq_add_sin_sq (yaw / 2)
    have hy := Real.cos_sq_add_sin_sq (pitch / 2)
    have hz := Real.cos_sq_add_sin_sq (roll / 2)
    simp only [EulerRadToQuat, realMath]
    linear_combination
      (Real.cos (pitch / 2) ^ 2 + Real.sin (pitch / 2) ^ 2) *
        (Real.cos (roll / 2) ^ 2 + Real.sin (roll / 2) ^ 2) * hx +
      (Real.cos (roll / 2) ^ 2 + Real.sin (roll / 2) ^ 2) * hy + hz
  · intro axis angle hunit
    have hax : axis.x * axis.x + axis.y * axis.y + axis.z * axis.z = 1 := hunit
    have hs := Real.sin_sq_add_cos_sq (angle / 2)
    simp only [AxisRadToQuat, realMath, half_literal]
    linear_combination (Real.sin (angle / 2) ^ 2) * hax + hs

/-- Witness for C22: the axis (0, 1, 0), which has unit length, with the
angle 1. -/
theorem conversions_give_unit_quaternions_witness :
    (⟨0, 1, 0, 0⟩ : Vector4 ℝ).SquareLength = 1 ∧
    (AxisRadToQuat realMath ⟨0, 1, 0, 0⟩ 1).x ^ 2 + (AxisRadToQuat realMath ⟨0, 1, 0, 0⟩ 1).y ^ 2 +
      (AxisRadToQuat realMath ⟨0, 1, 0, 0⟩ 1).z ^ 2 +
      (AxisRadToQuat realMath ⟨0, 1, 0, 0⟩ 1).w ^ 2 = 1 :=
  ⟨by norm_num [Vector4.SquareLength],
    conversions_give_unit_quaternions.2 ⟨0, 1, 0, 0⟩ 1 (by norm_num [Vector4.SquareLength])⟩

end UnitQuaternionTheorems

section SwitchTheorems

/-- The loop with `any = true` answers whether some listed switch is on. -/
theorem isSwitchOnLoop_any {K : Type} (p : Pipeline K) (list : List Nat) :
    p.isSwitchOnLoop true list = true ↔ ∃ key ∈ list, p.IsSwitchOn key = true := by
  induction list with
  | nil => simp [Pipeline.isSwitchOnLoop]
  | cons key rest ih =>
    simp only [Pipeline.isSwitchOnLoop, if_true, List.mem_cons, exists_eq_or_imp]
    by_cases h : p.IsSwitchOn key = true
    · simp [h]
    · simp only [h, Bool.false_eq_true, if_false, false_or]
      exact ih

/-- The loop with `any = false` answers whether every listed switch is on. -/
theorem isSwitchOnLoop_all {K : Type} (p : Pipeline K) (list : List Nat) :
    p.isSwitchOnLoop false list = true ↔ ∀ key ∈ list, p.IsSwitchOn key = true := by
  induction list with
  | nil => simp [Pipeline.isSwitchOnLoop]
  | cons key rest ih =>
    simp only [Pipeline.isSwitchOnLoop, Bool.false_eq_true, if_false, List.mem_cons,
      forall_eq_or_imp]
    by_cases h : p.IsSwitchOn key = true
    · simp only [h, Bool.not_true, Bool.false_eq_true, if_false, true_and]
      exact ih
    · simp [h]

/-- C23: IsSwitchOn(list, any) returns, with any = true, whether at least one
listed switch is on (false for the empty list) and, with any = false, whether
every listed switch is on (true for the empty list), and leaves the pipeline
as it was; after SetSwitch(k, v), IsSwitchOn(k) is v and every other switch,
and the rest of the pipeline, is unchanged. -/
theorem IsSwitchOn_spec {K : Type} (p : Pipeline K) (list : List Nat) (k : Nat) (v : Bool) :
    ((p.IsSwitchOnList list true).1 = true ↔ ∃ key ∈ list, p.IsSwitchOn key = true) ∧
    ((p.IsSwitchOnList list false).1 = true ↔ ∀ key ∈ list, p.IsSwitchOn key = true) ∧
    (p.IsSwitchOnList [] true).1 = false ∧
    (p.IsSwitchOnList [] false).1 = true ∧
    (p.IsSwitchOnList list true).2 = p ∧ (p.IsSwitchOnList list false).2 = p ∧
    (p.SetSwitch k v).IsSwitchOn k = v ∧
    (∀ j, j ≠ k → (p.SetSwitch k v).IsSwitchOn j = p.IsSwitchOn j) ∧
    (p.SetSwitch k v).m_OffsetMatrix = p.m_OffsetMatrix ∧
    (p.SetSwitch k v).m_CurrentCamera = p.m_CurrentCamera := by
  refine ⟨isSwitchOnLoop_any p list, isSwitchOnLoop_all p list, rfl, rfl, rfl, rfl, ?_, ?_,
    rfl, rfl⟩
  · simp [Pipeline.SetSwitch, Pipeline.IsSwitchOn]
  · intro j hj
    simp [Pipeline.SetSwitch, Pipeline.IsSwitchOn, hj]

end SwitchTheorems

section Binary32Theorems

open MathUtil

/-- With no rounding the machine form of AxisRadToQuat is AxisRadToQuat. -/
theorem AxisRadToQuatRounded_id {K : Type} [LinearOrderedField K] (m : CMath K)
    (axis : Vector4 K) (rad : K) :
    AxisRadToQuatRounded id m axis rad = AxisRadToQuat m axis rad := rfl

/-- With no rounding the machine form of QuatToAxisRad is QuatToAxisRad. -/
theorem QuatToAxisRadRounded_id {K : Type} [LinearOrderedField K] (m : CMath K)
    (quat : Quaternion K) :
    QuatToAxisRadRounded id m quat = QuatToAxisRad m quat := rfl

variable {K : Type} [LinearOrderedField K] [FloorRing K]

end Binary32Theorems
section Binary32RoundTrip

open MathUtil

end Binary32RoundTrip

end fury
